import Mathlib

/-!
# Visual Studio project exporter (Projucer `jucer_ProjectExport_MSVC.h`)

A shallow embedding of the MSVC exporter of the Projucer: strings are lists of
characters, binary streams are lists of bytes, text streams are lists of
lines, and `ValueTree` settings are association lists of `var` values.
-/

namespace MSVC

/-! ## Strings -/

/-- A `juce::String`, as its sequence of characters. -/
abbrev Str := List Char

/-- Modelled from the spec: `CharacterFunctions::isWhitespace` (juce_core, not
part of the exporter source), the C whitespace characters. -/
def isWhitespace (c : Char) : Bool :=
  c == ' ' || c == '\t' || c == '\n' || c == '\r' || c == Char.ofNat 11 || c == Char.ofNat 12

/-- Modelled from the spec: `String::trimStart` (juce_core), dropping leading whitespace. -/
def trimStart (s : Str) : Str := s.dropWhile isWhitespace

/-- Modelled from the spec: `String::trimEnd` (juce_core), dropping trailing whitespace. -/
def trimEnd (s : Str) : Str := (s.reverse.dropWhile isWhitespace).reverse

/-- Modelled from the spec: `String::trim` (juce_core), dropping whitespace at both ends. -/
def trim (s : Str) : Str := trimEnd (trimStart s)

/-- Modelled from the spec: `String::containsNonWhitespaceChars` (juce_core). -/
def containsNonWhitespaceChars (s : Str) : Bool := s.any (fun c => !isWhitespace c)

/-! ## StringArray -/

/-- A `juce::StringArray`, as the list of its strings. -/
abbrev StringArray := List Str

/-- Modelled from the spec: the token loop of `StringArray::addTokens` with no
quote characters: `cur` is the token read so far; every break character ends
the current token and starts a new one, and the end of the text ends the last. -/
def tokenLoop (breakCharacters : Str) : Str → Str → StringArray
  | [], cur => [cur]
  | c :: cs, cur =>
      if breakCharacters.contains c then cur :: tokenLoop breakCharacters cs []
      else tokenLoop breakCharacters cs (cur ++ [c])

/-- Modelled from the spec: `StringArray::addTokens (text, breakCharacters, "")`
(juce_core): an empty text adds nothing, any other text adds one token more
than it has break characters. -/
def StringArray.addTokens (strings : StringArray) (text breakCharacters : Str) : StringArray :=
  if text.isEmpty then strings else strings ++ tokenLoop breakCharacters text []

/-- Modelled from the spec: `StringArray::trim` (juce_core), trimming every string. -/
def StringArray.trim (strings : StringArray) : StringArray := strings.map MSVC.trim

/-- Modelled from the spec: `StringArray::removeEmptyStrings (true)` (juce_core),
keeping the strings that hold a non-whitespace character. -/
def StringArray.removeEmptyStrings (strings : StringArray) : StringArray :=
  strings.filter containsNonWhitespaceChars

/-- Modelled from the spec: `StringArray::joinIntoString (separator)` (juce_core). -/
def StringArray.joinIntoString (strings : StringArray) (separator : Str) : Str :=
  separator.intercalate strings

/-! ## Version numbers -/

/-- The loop `while (versionParts.size() < 4) versionParts.add ("0")` of
`getCommaSeparatedVersionNumber`, run for at most `fuel` iterations. -/
def padVersionParts : Nat → StringArray → StringArray
  | 0, versionParts => versionParts
  | fuel + 1, versionParts =>
      if versionParts.length < 4 then padVersionParts fuel (versionParts ++ ["0".toList])
      else versionParts

/-- `MSVCProjectExporterBase::getCommaSeparatedVersionNumber`. Four iterations
of the padding loop are always enough (`padVersionParts_four`). -/
def getCommaSeparatedVersionNumber (version : Str) : Str :=
  let versionParts : StringArray := StringArray.addTokens [] version ",.".toList
  let versionParts := versionParts.trim
  let versionParts := versionParts.removeEmptyStrings
  let versionParts := padVersionParts 4 versionParts
  versionParts.joinIntoString ",".toList

/-- The tokens of a version string in the words of the specification: split at
every ',' and '.', whitespace-trimmed, empty tokens dropped. -/
def versionTokens (version : Str) : List Str :=
  ((version.splitOnP (fun c => c == ',' || c == '.')).map trim).filter (fun t => t ≠ [])

/-! ## var and ValueTree -/

/-- Conversion of a value to the 32-bit `int`: the value modulo 2^32, taken in
the signed range (from -2^31 up to 2^31 - 1). -/
def wrapInt32 (x : Int) : Int :=
  let r : Nat := (x % 4294967296).toNat
  if r < 2147483648 then (r : Int) else (r : Int) - 4294967296

/-- The decimal text of an integer. -/
def intToStr (i : Int) : Str :=
  if i < 0 then '-' :: Nat.toDigits 10 i.natAbs else Nat.toDigits 10 i.natAbs

/-- The digit loop of `CharacterFunctions::getIntValue`: `v = v * 10 + digit` in
32-bit unsigned arithmetic, up to the first character that is no digit. -/
def readDigits : Str → Nat → Nat
  | [], v => v
  | c :: cs, v =>
      if '0' ≤ c ∧ c ≤ '9' then readDigits cs ((v * 10 + (c.toNat - 48)) % 4294967296) else v

/-- Modelled from the spec: `String::getIntValue` (juce_core): leading
whitespace, an optional '-', then decimal digits. -/
def getIntValue (s : Str) : Int :=
  match s.dropWhile isWhitespace with
  | '-' :: r => wrapInt32 (-(readDigits r 0 : Int))
  | t => wrapInt32 (readDigits t 0)

/-- Modelled from the spec: `String::equalsIgnoreCase` (juce_core), with the
ASCII case folding. -/
def equalsIgnoreCase (a b : Str) : Bool := a.map Char.toLower == b.map Char.toLower

/-- A `juce::var`: void, or a value of one of the types the exporter stores. -/
inductive Var where
  | void
  | int (i : Int)
  | bool (b : Bool)
  | string (s : Str)
  deriving DecidableEq, Repr

/-- Modelled from the spec: `var::isVoid`. -/
def Var.isVoid : Var → Bool
  | .void => true
  | _ => false

/-- Truth value of a string, as `VariantType_String::toBool` gives it. -/
def strToBool (s : Str) : Bool :=
  getIntValue s != 0 || equalsIgnoreCase (trim s) "true".toList
    || equalsIgnoreCase (trim s) "yes".toList

/-- Modelled from the spec: `var::operator int`. -/
def Var.toInt : Var → Int
  | .void => 0
  | .int i => i
  | .bool b => if b then 1 else 0
  | .string s => getIntValue s

/-- Modelled from the spec: `var::operator bool`. -/
def Var.toBool : Var → Bool
  | .void => false
  | .int i => i != 0
  | .bool b => b
  | .string s => strToBool s

/-- Modelled from the spec: `var::toString`. -/
def Var.toStr : Var → Str
  | .void => []
  | .int i => intToStr i
  | .bool b => if b then ['1'] else ['0']
  | .string s => s

/-- Modelled from the spec: `var == "text"` (`operator== (const var&, const char*)`,
juce_core): the text of the value, `toString ()`, compared with the string. -/
def Var.equalsStr (v : Var) (s : Str) : Bool := v.toStr == s

/-- A `juce::Identifier`, as its name. -/
abbrev Identifier := Str

/-- A `juce::ValueTree` node, as the ordered list of its properties. -/
abbrev ValueTree := List (Identifier × Var)

/-- Modelled from the spec: `ValueTree::operator[]`: the property, or void when it
is not set. -/
def ValueTree.getProperty : ValueTree → Identifier → Var
  | [], _ => .void
  | (k, v) :: rest, name => if k = name then v else ValueTree.getProperty rest name

/-- Modelled from the spec: `ValueTree::setProperty`: an existing property is
replaced in place, a new one is added at the end. -/
def ValueTree.setProperty : ValueTree → Identifier → Var → ValueTree
  | [], name, newValue => [(name, newValue)]
  | (k, v) :: rest, name, newValue =>
      if k = name then (k, newValue) :: rest
      else (k, v) :: ValueTree.setProperty rest name newValue

/-- Modelled from the spec: `ValueTree::removeProperty`. -/
def ValueTree.removeProperty (t : ValueTree) (name : Identifier) : ValueTree :=
  t.filter (fun p => p.1 ≠ name)

/-- Modelled from the spec: `setValueIfVoid (value, defaultValue)` (Projucer
utilities) on the property `name` of a tree. -/
def setValueIfVoid (t : ValueTree) (name : Identifier) (defaultValue : Var) : ValueTree :=
  if (t.getProperty name).isVoid then t.setProperty name defaultValue else t

/-! ## Identifiers (`Ids::`) -/

namespace Ids

def name : Identifier := "name".toList
def isDebug : Identifier := "isDebug".toList
def targetName : Identifier := "targetName".toList
def binaryPath : Identifier := "binaryPath".toList
def optimisation : Identifier := "optimisation".toList
def winWarningLevel : Identifier := "winWarningLevel".toList
def warningsAreErrors : Identifier := "warningsAreErrors".toList
def prebuildCommand : Identifier := "prebuildCommand".toList
def postbuildCommand : Identifier := "postbuildCommand".toList
def alwaysGenerateDebugSymbols : Identifier := "alwaysGenerateDebugSymbols".toList
def generateManifest : Identifier := "generateManifest".toList
def enableIncrementalLinking : Identifier := "enableIncrementalLinking".toList
def wholeProgramOptimisation : Identifier := "wholeProgramOptimisation".toList
def useRuntimeLibDLL : Identifier := "useRuntimeLibDLL".toList
def intermediatesPath : Identifier := "intermediatesPath".toList
def characterSet : Identifier := "characterSet".toList
def winArchitecture : Identifier := "winArchitecture".toList

end Ids

/-! ## Build configurations -/

/-- `MSVCProjectExporterBase::OptimisationLevel`. -/
def optimisationOff : Int := 1

def optimiseMinSize : Int := 2

def optimiseMaxSpeed : Int := 3

/-- `MSVCBuildConfiguration`: a view on the settings node `config` of one
build configuration. -/
structure MSVCBuildConfiguration where
  config : ValueTree
  deriving DecidableEq, Repr

namespace MSVCBuildConfiguration

/-- Modelled from the spec: `BuildConfiguration::isDebug` (base class, not in
the exporter source), the `isDebug` flag of the settings. -/
def isDebug (c : MSVCBuildConfiguration) : Bool := (c.config.getProperty Ids.isDebug).toBool

/-- Modelled from the spec: `BuildConfiguration::getName` (base class). -/
def getName (c : MSVCBuildConfiguration) : Str := (c.config.getProperty Ids.name).toStr

/-- Modelled from the spec: `BuildConfiguration::getTargetBinaryNameString` (base class). -/
def getTargetBinaryNameString (c : MSVCBuildConfiguration) : Str :=
  (c.config.getProperty Ids.targetName).toStr

def getWarningLevel (c : MSVCBuildConfiguration) : Int :=
  (c.config.getProperty Ids.winWarningLevel).toInt

def areWarningsTreatedAsErrors (c : MSVCBuildConfiguration) : Bool :=
  (c.config.getProperty Ids.warningsAreErrors).toBool

def getPrebuildCommandString (c : MSVCBuildConfiguration) : Str :=
  (c.config.getProperty Ids.prebuildCommand).toStr

def getPostbuildCommandString (c : MSVCBuildConfiguration) : Str :=
  (c.config.getProperty Ids.postbuildCommand).toStr

def shouldGenerateDebugSymbols (c : MSVCBuildConfiguration) : Bool :=
  (c.config.getProperty Ids.alwaysGenerateDebugSymbols).toBool

def shouldGenerateManifest (c : MSVCBuildConfiguration) : Bool :=
  (c.config.getProperty Ids.generateManifest).toBool

def shouldLinkIncremental (c : MSVCBuildConfiguration) : Bool :=
  (c.config.getProperty Ids.enableIncrementalLinking).toBool

def shouldDisableWholeProgramOpt (c : MSVCBuildConfiguration) : Bool :=
  decide ((c.config.getProperty Ids.wholeProgramOptimisation).toInt > 0)

def isUsingRuntimeLibDLL (c : MSVCBuildConfiguration) : Bool :=
  (c.config.getProperty Ids.useRuntimeLibDLL).toBool

def getIntermediatesPath (c : MSVCBuildConfiguration) : Str :=
  (c.config.getProperty Ids.intermediatesPath).toStr

def getCharacterSet (c : MSVCBuildConfiguration) : Str :=
  (c.config.getProperty Ids.characterSet).toStr

/-- The constructor `MSVCBuildConfiguration (p, settings, e)`: the base class
keeps the settings node, then the warning level and the manifest flag get
their defaults. -/
def new (settings : ValueTree) : MSVCBuildConfiguration :=
  let c : MSVCBuildConfiguration := { config := settings }
  let c : MSVCBuildConfiguration :=
    if c.getWarningLevel = 0 then { config := c.config.setProperty Ids.winWarningLevel (.int 4) }
    else c
  { config := setValueIfVoid c.config Ids.generateManifest (.bool true) }

def createMSVCConfigName (c : MSVCBuildConfiguration) : Str :=
  c.getName ++ "|".toList
    ++ (if (c.config.getProperty Ids.winArchitecture).equalsStr "x64".toList
        then "x64".toList else "Win32".toList)

def getDefaultOptimisationLevel (c : MSVCBuildConfiguration) : Var :=
  .int (if c.isDebug then optimisationOff else optimiseMaxSpeed)

def getLibrarySubdirPath (c : MSVCBuildConfiguration) : Str :=
  let result := "$(Platform)\\".toList
  let result := result ++ (if c.isUsingRuntimeLibDLL then "MD".toList else "MT".toList)
  if c.isDebug then result ++ "d".toList else result

end MSVCBuildConfiguration

/-! ## Targets -/

/-- `ProjectType::Target::Type`. -/
inductive TargetType where
  | GUIApp | ConsoleApp | StaticLibrary | DynamicLibrary
  | VSTPlugIn | VST3PlugIn | AAXPlugIn | RTASPlugIn
  | AudioUnitPlugIn | AudioUnitv3PlugIn | StandalonePlugIn
  | SharedCodeTarget | AggregateTarget | unspecified
  deriving DecidableEq, Repr

/-- `ProjectType::Target::TargetFileType`. -/
inductive TargetFileType where
  | executable | staticLibrary | sharedLibraryOrDLL | pluginBundle | macOSAppex | unknown
  deriving DecidableEq, Repr

/-- Modelled from the spec: `createGUID` (Projucer utilities, not in the
exporter source): a deterministic identifier derived by hashing the seed,
written as five groups of hexadecimal digits in braces; `md5Hex` is the
upper-case hexadecimal MD5 digest of the salted seed. -/
def createGUID (md5Hex : Str → Str) (seed : Str) : Str :=
  let hex := md5Hex (seed ++ "_guidsalt".toList)
  "\x7b".toList ++ hex.take 8
    ++ "-".toList ++ (hex.drop 8).take 4
    ++ "-".toList ++ (hex.drop 12).take 4
    ++ "-".toList ++ (hex.drop 16).take 4
    ++ "-".toList ++ (hex.drop 20).take 12
    ++ "\x7d".toList

/-- `MSVCTargetBase`: the target type, what the base class `ProjectType::Target`
gives for it (`getName ()`, `getTargetFileType ()`), the GUID cached by the
constructor, and the file name of the target's project document
(`getVCProjFile ().getFileName ()`). -/
structure MSVCTargetBase where
  type : TargetType
  name : Str
  fileType : TargetFileType
  projectGuid : Str
  vcProjFileName : Str
  deriving DecidableEq, Repr

/-- The constructor of `MSVCTargetBase`:
`projectGuid = createGUID (owner.getProject ().getProjectUID () + getName ())`. -/
def MSVCTargetBase.new (md5Hex : Str → Str) (projectUID : Str) (type : TargetType)
    (name : Str) (fileType : TargetFileType) (vcProjFileName : Str) : MSVCTargetBase :=
  { type := type, name := name, fileType := fileType,
    projectGuid := createGUID md5Hex (projectUID ++ name),
    vcProjFileName := vcProjFileName }

/-- The array `targets` of the exporter. Its entries are never null: the only
insertion is `targets.add (target)` on a freshly constructed target, so the
null checks `if (MSVCTargetBase* target = targets[i])` always succeed. -/
abbrev Targets := List MSVCTargetBase

/-- `MSVCProjectExporterBase::getSharedCodeTarget`. -/
def getSharedCodeTarget : Targets → Option MSVCTargetBase
  | [] => none
  | t :: rest =>
      if t.type = TargetType.SharedCodeTarget then some t else getSharedCodeTarget rest

/-- `MSVCProjectExporterBase::hasTarget`. -/
def hasTarget : Targets → TargetType → Bool
  | [], _ => false
  | t :: rest, type => if t.type = type then true else hasTarget rest type

/-- `MSVCProjectExporterBase::getSharedCodeGuid`. -/
def getSharedCodeGuid : Targets → Str
  | [] => []
  | t :: rest =>
      if t.type = TargetType.SharedCodeTarget then t.projectGuid else getSharedCodeGuid rest

/-! ## Runtime library -/

/-- `MSVCTargetBase::shouldUseRuntimeDLL`, for a target of the exporter whose
target list is `targets`. -/
def shouldUseRuntimeDLL (targets : Targets) (config : MSVCBuildConfiguration) : Bool :=
  if (config.config.getProperty Ids.useRuntimeLibDLL).isVoid
  then (hasTarget targets TargetType.AAXPlugIn || hasTarget targets TargetType.RTASPlugIn)
  else config.isUsingRuntimeLibDLL

/-- The text of the `RuntimeLibrary` element written by
`MSVC2010Target::fillInProjectXml`. -/
def runtimeLibraryText (targets : Targets) (config : MSVCBuildConfiguration) : Str :=
  let isDebug := config.isDebug
  let runtimeDLL := shouldUseRuntimeDLL targets config
  if runtimeDLL then (if isDebug then "MultiThreadedDebugDLL".toList else "MultiThreadedDLL".toList)
  else (if isDebug then "MultiThreadedDebug".toList else "MultiThreaded".toList)

/-! ## Preprocessor definitions -/

/-- A `juce::StringPairArray`: keys with their values in insertion order, and
the flag telling whether keys are compared ignoring case (the default). -/
structure StringPairArray where
  pairs : List (Str × Str)
  ignoreCase : Bool := true
  deriving DecidableEq, Repr

/-- Comparison of two keys of a `StringPairArray`. -/
def keyEquals (ignoreCase : Bool) (a b : Str) : Bool :=
  if ignoreCase then equalsIgnoreCase a b else a == b

/-- The update of `StringPairArray::set` on the list of pairs: the value of the
first entry with the key is replaced, or the pair is added at the end. -/
def setPair (ignoreCase : Bool) : List (Str × Str) → Str → Str → List (Str × Str)
  | [], key, value => [(key, value)]
  | (k, v) :: rest, key, value =>
      if keyEquals ignoreCase k key then (k, value) :: rest
      else (k, v) :: setPair ignoreCase rest key value

/-- Modelled from the spec: `StringPairArray::set` (juce_core). -/
def StringPairArray.set (a : StringPairArray) (key value : Str) : StringPairArray :=
  { a with pairs := setPair a.ignoreCase a.pairs key value }

/-- Modelled from the spec: `mergePreprocessorDefs (inheritedDefs, overridingDefs)`
(Projucer utilities): every overriding definition is `set` on the inherited
ones, in order. -/
def mergePreprocessorDefs (inheritedDefs overridingDefs : StringPairArray) : StringPairArray :=
  overridingDefs.pairs.foldl (fun defs p => defs.set p.1 p.2) inheritedDefs

/-- What `getPreprocessorDefs` reads from its owner and from collaborators
that are not part of the exporter source: the exporter's
`msvcExtraPreprocessorDefs`, the result of `getAllPreprocessorDefs (config, type)`,
and the rebased, quoted AAX `Libs` and RTAS `WinBag` paths
(`createRebasedPath (...)`). -/
structure DefsOwner where
  msvcExtraPreprocessorDefs : StringPairArray
  getAllPreprocessorDefs : MSVCBuildConfiguration → TargetType → StringPairArray
  aaxLibsRebasedPath : Str
  rtasWinBagRebasedPath : Str

/-- `MSVCTargetBase::addExtraPreprocessorDefines`. -/
def addExtraPreprocessorDefines (owner : DefsOwner) (type : TargetType)
    (defines : StringPairArray) : StringPairArray :=
  match type with
  | .AAXPlugIn => defines.set "JucePlugin_AAXLibs_path".toList owner.aaxLibsRebasedPath
  | .RTASPlugIn => defines.set "JucePlugin_WinBag_path".toList owner.rtasWinBagRebasedPath
  | _ => defines

/-- The loop of `getPreprocessorDefs` that turns the pairs into `key` or
`key=value` entries. -/
def definesToStrings (defines : StringPairArray) : StringArray :=
  defines.pairs.map (fun p => if p.2 ≠ [] then p.1 ++ "=".toList ++ p.2 else p.1)

/-- The define set built by `MSVCTargetBase::getPreprocessorDefs` before it is
written out. -/
def preprocessorDefines (owner : DefsOwner) (target : MSVCTargetBase)
    (config : MSVCBuildConfiguration) : StringPairArray :=
  let defines := owner.msvcExtraPreprocessorDefs
  let defines := defines.set "WIN32".toList []
  let defines := defines.set "_WINDOWS".toList []
  let defines :=
    if config.isDebug then (defines.set "DEBUG".toList []).set "_DEBUG".toList []
    else defines.set "NDEBUG".toList []
  let defines := mergePreprocessorDefs defines (owner.getAllPreprocessorDefs config target.type)
  let defines := addExtraPreprocessorDefines owner target.type defines
  if target.fileType = TargetFileType.staticLibrary
      ∨ target.fileType = TargetFileType.sharedLibraryOrDLL
  then defines.set "_LIB".toList [] else defines

/-- `MSVCTargetBase::getPreprocessorDefs`. -/
def getPreprocessorDefs (owner : DefsOwner) (target : MSVCTargetBase)
    (config : MSVCBuildConfiguration) (joinString : Str) : Str :=
  StringArray.joinIntoString (definesToStrings (preprocessorDefines owner target config))
    joinString

/-- `MSVCProjectExporterBase::addPlatformSpecificSettingsForProjectType`, the
only place of the exporter that writes to `msvcExtraPreprocessorDefs`;
`isCommandLineApp` is `type.isCommandLineApp ()`. -/
def addPlatformSpecificSettingsForProjectType (isCommandLineApp : Bool)
    (msvcExtraPreprocessorDefs : StringPairArray) : StringPairArray :=
  let defs := msvcExtraPreprocessorDefs.set "_CRT_SECURE_NO_WARNINGS".toList []
  if isCommandLineApp then defs.set "_CONSOLE".toList [] else defs

/-! ## File names and build steps -/

/-- Modelled from the spec: `String::upToLastOccurrenceOf (".", false, false)`
(juce_core): the text before the last '.', or the whole text when it has none. -/
def upToLastDot (s : Str) : Str :=
  if s.contains '.' then ((s.reverse.dropWhile (fun c => c != '.')).tail).reverse else s

/-- Modelled from the spec: `FileHelpers::windowsStylePath` (Projucer utilities):
every '/' becomes a backslash. -/
def windowsStylePath (path : Str) : Str := path.map (fun c => if c = '/' then '\\' else c)

/-- Collaborators of the file-name and build-step functions that are not part
of the exporter source: `File::createLegalFileName`, `File::isAbsolutePath`,
`ProjectExporter::replacePreprocessorTokens`, and the rebased, quoted paths of
the AAX packaging script and of the AAX icon
(`createRebasedPath (bundleScript)`, `createRebasedPath (getAAXIconFile ())`). -/
structure StepsOwner where
  createLegalFileName : Str → Str
  isAbsolutePath : Str → Bool
  replacePreprocessorTokens : MSVCBuildConfiguration → Str → Str
  bundleScriptRebasedPath : Str
  aaxIconRebasedPath : Str

/-- `MSVCBuildConfiguration::getOutputFilename`. -/
def getOutputFilename (owner : StepsOwner) (config : MSVCBuildConfiguration)
    (suffix : Str) (forceSuffix : Bool) : Str :=
  let target := owner.createLegalFileName (trim config.getTargetBinaryNameString)
  if forceSuffix || !target.contains '.' then upToLastDot target ++ suffix else target

/-- `MSVCProjectExporterBase::prependIfNotAbsolute`. -/
def prependIfNotAbsolute (owner : StepsOwner) (file : Str) (pre : Str) : Str :=
  let pre := if owner.isAbsolutePath file || file.head? == some '$' then [] else pre
  pre ++ windowsStylePath file

/-- `MSVCProjectExporterBase::getIntDirFile`. -/
def getIntDirFile (owner : StepsOwner) (config : MSVCBuildConfiguration) (file : Str) : Str :=
  prependIfNotAbsolute owner (owner.replacePreprocessorTokens config file) "$(IntDir)\\".toList

/-- `MSVCProjectExporterBase::getOutDirFile`. -/
def getOutDirFile (owner : StepsOwner) (config : MSVCBuildConfiguration) (file : Str) : Str :=
  prependIfNotAbsolute owner (owner.replacePreprocessorTokens config file) "$(OutDir)\\".toList

/-- `MSVCTargetBase::getTargetSuffix`. -/
def getTargetSuffix (target : MSVCTargetBase) : Str :=
  match target.fileType with
  | .executable => ".exe".toList
  | .staticLibrary => ".lib".toList
  | .sharedLibraryOrDLL => ".dll".toList
  | .pluginBundle =>
      match target.type with
      | .VST3PlugIn => ".vst3".toList
      | .AAXPlugIn => ".aaxdll".toList
      | .RTASPlugIn => ".dpm".toList
      | _ => ".dll".toList
  | _ => []

/-- `MSVCTargetBase::getBinaryNameWithSuffix`. -/
def getBinaryNameWithSuffix (owner : StepsOwner) (target : MSVCTargetBase)
    (config : MSVCBuildConfiguration) : Str :=
  getOutputFilename owner config (getTargetSuffix target) true

/-- `MSVCTargetBase::getOutputFilePath`. -/
def getOutputFilePath (owner : StepsOwner) (target : MSVCTargetBase)
    (config : MSVCBuildConfiguration) : Str :=
  getOutDirFile owner config (getBinaryNameWithSuffix owner target config)

/-- `MSVCTargetBase::getExtraPostBuildSteps`. -/
def getExtraPostBuildSteps (owner : StepsOwner) (target : MSVCTargetBase)
    (config : MSVCBuildConfiguration) : Str :=
  if target.type = TargetType.AAXPlugIn then
    let is64Bit := (config.config.getProperty Ids.winArchitecture).equalsStr "x64".toList
    let bundleDir := getOutDirFile owner config (getOutputFilename owner config ".aaxplugin".toList true)
    let bundleContents := bundleDir ++ "\\Contents".toList
    let macOSDir := bundleContents ++ "\\".toList ++ (if is64Bit then "x64".toList else "Win32".toList)
    let executable := macOSDir ++ "\\".toList ++ getOutputFilename owner config ".aaxplugin".toList true
    "copy /Y \"".toList ++ getOutputFilePath owner target config ++ "\" \"".toList ++ executable
      ++ "\"\r\n".toList ++ owner.bundleScriptRebasedPath ++ " \"".toList ++ macOSDir
      ++ "\" ".toList ++ owner.aaxIconRebasedPath
  else []

/-- `MSVCTargetBase::getExtraPreBuildSteps`. -/
def getExtraPreBuildSteps (owner : StepsOwner) (target : MSVCTargetBase)
    (config : MSVCBuildConfiguration) : Str :=
  if target.type = TargetType.AAXPlugIn then
    let is64Bit := (config.config.getProperty Ids.winArchitecture).equalsStr "x64".toList
    let bundleDir := getOutDirFile owner config (getOutputFilename owner config ".aaxplugin".toList false)
    let bundleContents := bundleDir ++ "\\Contents".toList
    let macOSDir := bundleContents ++ "\\".toList ++ (if is64Bit then "x64".toList else "Win32".toList)
    let folders : StringArray := [bundleDir, bundleContents, macOSDir]
    folders.foldl
      (fun script folder =>
        script ++ ("if not exist \"".toList ++ folder ++ "\" mkdir \"".toList ++ folder
          ++ "\"\r\n".toList))
      []
  else []

/-- The joining statement shared by `getPostBuildSteps` and `getPreBuildSteps`:
`build += String (build.isNotEmpty () && extra.isNotEmpty () ? "\r\n" : "") + extra`. -/
def appendExtraSteps (build extra : Str) : Str :=
  build ++ ((if !build.isEmpty && !extra.isEmpty then "\r\n".toList else []) ++ extra)

/-- `MSVCTargetBase::getPostBuildSteps`. -/
def getPostBuildSteps (owner : StepsOwner) (target : MSVCTargetBase)
    (config : MSVCBuildConfiguration) : Str :=
  let postBuild := config.getPostbuildCommandString
  let extraPostBuild := getExtraPostBuildSteps owner target config
  appendExtraSteps postBuild extraPostBuild

/-- `MSVCTargetBase::getPreBuildSteps`. -/
def getPreBuildSteps (owner : StepsOwner) (target : MSVCTargetBase)
    (config : MSVCBuildConfiguration) : Str :=
  let preBuild := config.getPrebuildCommandString
  let extraPreBuild := getExtraPreBuildSteps owner target config
  appendExtraSteps preBuild extraPreBuild

/-! ## Solution file: project declarations -/

/-- A text `OutputStream`, as the list of the lines written to it: each line is
what was written up to a `newLine`, without the line break. -/
abbrev TextStream := List Str

/-- The first line of a target's block in `writeProjectDependencies`. -/
def projectLine (projectName : Str) (target : MSVCTargetBase) : Str :=
  "Project(\"\x7b8BC9CEB8-8B4A-11D0-8D11-00A0C91BC942\x7d\") = \"".toList
    ++ projectName ++ " (".toList ++ target.name ++ ")\", \"".toList
    ++ target.vcProjFileName ++ "\", \"".toList ++ target.projectGuid ++ ['"']

/-- The lines written by one iteration of the loop of `writeProjectDependencies`. -/
def writeProjectBlock (projectName sharedCodeGuid : Str) (target : MSVCTargetBase)
    (out : TextStream) : TextStream :=
  let out := out ++ [projectLine projectName target]
  let out :=
    if sharedCodeGuid ≠ [] ∧ target.type ≠ TargetType.SharedCodeTarget then
      out ++ ["\tProjectSection(ProjectDependencies) = postProject".toList,
              "\t\t".toList ++ sharedCodeGuid ++ " = ".toList ++ sharedCodeGuid,
              "\tEndProjectSection".toList]
    else out
  out ++ ["EndProject".toList]

/-- The loop of `writeProjectDependencies` over the targets. -/
def writeProjectBlocks (projectName sharedCodeGuid : Str) : Targets → TextStream → TextStream
  | [], out => out
  | target :: rest, out =>
      writeProjectBlocks projectName sharedCodeGuid rest
        (writeProjectBlock projectName sharedCodeGuid target out)

/-- `MSVCProjectExporterBase::writeProjectDependencies`. -/
def writeProjectDependencies (projectName : Str) (targets : Targets) (out : TextStream) :
    TextStream :=
  let sharedCodeGuid := getSharedCodeGuid targets
  writeProjectBlocks projectName sharedCodeGuid targets out

/-- The line that opens a dependency declaration in a project block. -/
def dependencySectionLine : Str := "\tProjectSection(ProjectDependencies) = postProject".toList

/-! ## Icon file -/

/-- The content of a `MemoryOutputStream`, as its bytes. -/
abbrev Bytes := List Nat

/-- `OutputStream::writeByte`: the low byte of the value. -/
def writeByte (out : Bytes) (v : Int) : Bytes := out ++ [(v % 256).toNat]

/-- `OutputStream::writeShort`: the low 16 bits of the value, little-endian. -/
def writeShort (out : Bytes) (v : Int) : Bytes :=
  out ++ [(v % 256).toNat, (v / 256 % 256).toNat]

/-- `OutputStream::writeInt`: the low 32 bits of the value, little-endian. -/
def writeInt (out : Bytes) (v : Int) : Bytes :=
  out ++ [(v % 256).toNat, (v / 256 % 256).toNat, (v / 65536 % 256).toNat,
          (v / 16777216 % 256).toNat]

/-- The unsigned 32-bit little-endian number held by the first four bytes. -/
def readInt (b : Bytes) : Nat :=
  b.getD 0 0 + 256 * b.getD 1 0 + 65536 * b.getD 2 0 + 16777216 * b.getD 3 0

/-- A `juce::Colour`, as its four 8-bit components. -/
structure Colour where
  red : Nat
  green : Nat
  blue : Nat
  alpha : Nat
  deriving DecidableEq, Repr

/-- A `juce::Image`: its size and `BitmapData::getPixelColour (x, y)`. -/
structure Image where
  width : Nat
  height : Nat
  pixel : Nat → Nat → Colour

/-- `const int alphaThreshold = 5` of `writeBMPImage`. -/
def alphaThreshold : Nat := 5

/-- `const int maskStride = (w / 8 + 3) & ~3` of `writeBMPImage`, with `~3` as
its 32-bit pattern. -/
def maskStride (w : Nat) : Nat := (w / 8 + 3) &&& 4294967292

/-- The inner loop of the colour block of `writeBMPImage`, for the row `y`. -/
def writeColourRow (image : Image) (w y : Nat) (out : Bytes) : Bytes :=
  (List.range w).foldl
    (fun out x =>
      let pixel := image.pixel x y
      if pixel.alpha ≤ alphaThreshold then writeInt out 0
      else writeByte (writeByte (writeByte (writeByte out pixel.blue) pixel.green) pixel.red)
            pixel.alpha)
    out

/-- One step of the inner loop of the mask block of `writeBMPImage`, on the
stream, `mask` and `count`. -/
def maskStep (image : Image) (y : Nat) (s : Bytes × Nat × Nat) (x : Nat) : Bytes × Nat × Nat :=
  let pixel := image.pixel x y
  let mask := s.2.1 <<< 1
  let mask := if pixel.alpha ≤ alphaThreshold then mask ||| 1 else mask
  let count := s.2.2 + 1
  if count = 8 then (writeByte s.1 mask, 0, 0) else (s.1, mask, count)

/-- The body of the mask loop of `writeBMPImage`, for the row `y`: the mask
bytes, the last partial byte when it is not zero, and `maskStride - w / 8`
zero bytes. -/
def writeMaskRow (image : Image) (w y : Nat) (out : Bytes) : Bytes :=
  let s := (List.range w).foldl (maskStep image y) (out, 0, 0)
  let out := if s.2.1 ≠ 0 then writeByte s.1 s.2.1 else s.1
  (List.range (maskStride w - w / 8)).foldl (fun out _ => writeByte out 0) out

/-- `MSVCProjectExporterBase::writeBMPImage`; both loops run `y` from `h - 1`
down to `0`. -/
def writeBMPImage (image : Image) (w h : Nat) (out : Bytes) : Bytes :=
  let out := writeInt out 40
  let out := writeInt out w
  let out := writeInt out (wrapInt32 (h * 2))
  let out := writeShort out 1
  let out := writeShort out 32
  let out := writeInt out 0
  let out := writeInt out (wrapInt32 (h * w * 4 + h * maskStride w))
  let out := writeInt out 0
  let out := writeInt out 0
  let out := writeInt out 0
  let out := writeInt out 0
  let out := (List.range h).reverse.foldl (fun out y => writeColourRow image w y out) out
  (List.range h).reverse.foldl (fun out y => writeMaskRow image w y out) out

/-- `const int dataBlockStart = 6 + images.size () * imageDirEntrySize` of
`writeIconFile`. -/
def dataBlockStart (images : List Image) : Int := wrapInt32 (6 + images.length * 16)

/-- One iteration of the loop of `writeIconFile`, on the streams `out` and
`dataBlock`; `png` is `PNGImageFormat::writeImageToStream`, given as the bytes
it appends. -/
def writeIconEntry (png : Image → Bytes) (start : Int) (image : Image)
    (s : Bytes × Bytes) : Bytes × Bytes :=
  let out := s.1
  let dataBlock := s.2
  let oldDataSize := dataBlock.length
  let w := image.width
  let h := image.height
  let dataBlock :=
    if w ≥ 256 ∨ h ≥ 256 then dataBlock ++ png image else writeBMPImage image w h dataBlock
  let out := writeByte out w
  let out := writeByte out h
  let out := writeByte out 0
  let out := writeByte out 0
  let out := writeShort out 1
  let out := writeShort out 32
  let out := writeInt out (wrapInt32 ((dataBlock.length : Int) - oldDataSize))
  let out := writeInt out (wrapInt32 (start + wrapInt32 oldDataSize))
  (out, dataBlock)

/-- The part of `writeIconFile` before its assertion: the header and the loop
over the images, giving the streams `out` and `dataBlock`. -/
def writeIconDirectory (png : Image → Bytes) (images : List Image) (out : Bytes) :
    Bytes × Bytes :=
  let out := writeShort out 0
  let out := writeShort out 1
  let out := writeShort out (wrapInt32 images.length)
  images.foldl (fun s image => writeIconEntry png (dataBlockStart images) image s) (out, [])

/-- The condition of `jassert (out.getPosition () == dataBlockStart)` in
`writeIconFile`. -/
def iconPositionAssertion (png : Image → Bytes) (images : List Image) (out : Bytes) : Bool :=
  decide (((writeIconDirectory png images out).1.length : Int) = dataBlockStart images)

/-- `MSVCProjectExporterBase::writeIconFile`. -/
def writeIconFile (png : Image → Bytes) (images : List Image) (out : Bytes) : Bytes :=
  let s := writeIconDirectory png images out
  s.1 ++ s.2

/-- The bytes appended to the data block for one image by `writeIconFile`. -/
def imageData (png : Image → Bytes) (image : Image) : Bytes :=
  if image.width ≥ 256 ∨ image.height ≥ 256 then png image
  else writeBMPImage image image.width image.height []

/-- The sixteen bytes of one image directory entry, as the loop of
`writeIconFile` writes them for an image of size `w` x `h` with the given
data size and offset. -/
def dirEntry (w h : Nat) (size offset : Int) : Bytes :=
  writeInt (writeInt (writeShort (writeShort (writeByte (writeByte (writeByte (writeByte []
    w) h) 0) 0) 1) 32) size) offset

/-- The declared length of image `i` in an icon file: the 32-bit field at
byte 8 of its directory entry. -/
def declaredLength (file : Bytes) (i : Nat) : Nat := readInt (file.drop (6 + 16 * i + 8))

/-- The declared offset of image `i` in an icon file: the 32-bit field at
byte 12 of its directory entry. -/
def declaredOffset (file : Bytes) (i : Nat) : Nat := readInt (file.drop (6 + 16 * i + 12))

/-- The number of data bytes of a list of images. -/
def dataSize (png : Image → Bytes) (images : List Image) : Nat :=
  (images.map (fun image => (imageData png image).length)).sum

/-- The directory entries written by the loop of `writeIconFile` for a list of
images, when the data block holds `old` bytes before the first of them. -/
def dirEntries (png : Image → Bytes) (start : Int) : Nat → List Image → List Bytes
  | _, [] => []
  | old, image :: rest =>
      dirEntry image.width image.height (wrapInt32 ((imageData png image).length))
          (wrapInt32 (start + wrapInt32 old))
        :: dirEntries png start (old + (imageData png image).length) rest

/-! ## Visual Studio 2010 configurations -/

namespace Ids

def libraryName_Debug : Identifier := "libraryName_Debug".toList
def libraryName_Release : Identifier := "libraryName_Release".toList

end Ids

/-- The constructor `VC2010BuildConfiguration (p, settings, e)`: the
`MSVCBuildConfiguration` constructor, then the architecture gets its default
`get64BitArchName ()` when its text is empty. -/
def VC2010BuildConfiguration.new (settings : ValueTree) : MSVCBuildConfiguration :=
  let c := MSVCBuildConfiguration.new settings
  if (c.config.getProperty Ids.winArchitecture).toStr.isEmpty
  then { config := c.config.setProperty Ids.winArchitecture (.string "x64".toList) }
  else c

/-- `VC2010BuildConfiguration::is64Bit`. -/
def is64Bit (c : MSVCBuildConfiguration) : Bool :=
  (c.config.getProperty Ids.winArchitecture).toStr == "x64".toList

/-! ## Project items (file groups and files) -/

/-- The kind of a `Project::Item`: `isGroup ()`, `isFile ()`, or neither. -/
inductive ItemKind where
  | group | file | other
  deriving DecidableEq, Repr

/-- What the exporter reads from one `Project::Item`: `getID ()`, `getName ()`,
its kind, `getFilePath ()` (which also stands for `getFile ()`),
`shouldBeCompiled ()` and `shouldBeAddedToTargetProject ()`. -/
structure ItemInfo where
  id : Str
  name : Str
  kind : ItemKind
  filePath : Str := []
  shouldBeCompiled : Bool := false
  shouldBeAddedToTargetProject : Bool := true
  deriving DecidableEq, Repr

/-- A `Project::Item` with its children (`getNumChildren ()`, `getChild (i)`). -/
inductive Item where
  | mk (info : ItemInfo) (children : List Item)

def Item.info : Item → ItemInfo
  | .mk info _ => info

def Item.children : Item → List Item
  | .mk _ children => children

def Item.isGroup (item : Item) : Bool := item.info.kind = ItemKind.group

def Item.isFile (item : Item) : Bool := item.info.kind = ItemKind.file

def Item.getNumChildren (item : Item) : Nat := item.children.length

/-! ## Solution file -/

/-- What the solution writer reads from the exporter and from collaborators
that are not part of the exporter source: the project name, the targets, the
configuration nodes, `getAllGroups ()`, the digest used by `createGUID`, and
the path of a solution item rebased from the project folder to the folder of
the solution file, in Windows style. -/
structure SolutionOwner where
  projectName : Str
  targets : Targets
  configurations : List ValueTree
  allGroups : List Item
  md5Hex : Str → Str
  solutionItemPath : Str → Str

/-- The first loop of the recursive `addSolutionFiles`, over the children of a
group: every file child is listed, and the section is opened at the first of
them; the state is the stream and `hasSubFiles`. -/
def writeSolutionItems (solutionItemPath : Str → Str) :
    List Item → TextStream × Bool → TextStream × Bool
  | [], s => s
  | child :: rest, s =>
      if child.isFile then
        let out := if !s.2 then s.1 ++ ["\tProjectSection(SolutionItems) = preProject".toList]
          else s.1
        let path := solutionItemPath child.info.filePath
        writeSolutionItems solutionItemPath rest
          (out ++ ["\t\t".toList ++ path ++ " = ".toList ++ path], true)
      else writeSolutionItems solutionItemPath rest s

/-- The line that declares the container of a group. -/
def folderLine (md5Hex : Str → Str) (info : ItemInfo) : Str :=
  "Project(\"\x7b2150E333-8FDC-42A3-9474-1A3956D46DE8\x7d\") = \"".toList ++ info.name
    ++ "\"".toList ++ ", \"".toList ++ info.name ++ "\", \"".toList
    ++ createGUID md5Hex info.id ++ "\"".toList

mutual

/-- The recursive `MSVCProjectExporterVC2010::addSolutionFiles (out, item,
nestedProjectList, parentGuid)`, on the stream and the list of nested
projects. -/
def addSolutionFilesItem (md5Hex : Str → Str) (solutionItemPath : Str → Str) :
    Item → Str → TextStream × StringArray → TextStream × StringArray
  | .mk info children, parentGuid, s =>
      let groupGuid := createGUID md5Hex info.id
      let out := s.1 ++ [folderLine md5Hex info]
      let files := writeSolutionItems solutionItemPath children (out, false)
      let out := if files.2 then files.1 ++ ["\tEndProjectSection".toList] else files.1
      let out := out ++ ["EndProject".toList]
      let s := addSolutionFilesChildren md5Hex solutionItemPath children groupGuid (out, s.2)
      if parentGuid ≠ [] then (s.1, s.2 ++ [groupGuid ++ " = ".toList ++ parentGuid]) else s

/-- The second loop of the recursive `addSolutionFiles`: the recursion into
every child that is a group. -/
def addSolutionFilesChildren (md5Hex : Str → Str) (solutionItemPath : Str → Str) :
    List Item → Str → TextStream × StringArray → TextStream × StringArray
  | [], _, s => s
  | child :: rest, groupGuid, s =>
      if child.isGroup then
        addSolutionFilesChildren md5Hex solutionItemPath rest groupGuid
          (addSolutionFilesItem md5Hex solutionItemPath child groupGuid s)
      else addSolutionFilesChildren md5Hex solutionItemPath rest groupGuid s

end

/-- The items the top-level `addSolutionFiles` loops over: the children of the
root group when there is exactly one group (`ignoreRootGroup`), all groups
otherwise. -/
def topLevelItems (allGroups : List Item) : List Item :=
  match allGroups with
  | [root] => root.children
  | groups => groups

/-- The loop of the top-level `addSolutionFiles`. -/
def addSolutionFilesLoop (md5Hex : Str → Str) (solutionItemPath : Str → Str) :
    List Item → TextStream × StringArray → TextStream × StringArray
  | [], s => s
  | group :: rest, s =>
      if group.getNumChildren > 0 then
        addSolutionFilesLoop md5Hex solutionItemPath rest
          (addSolutionFilesItem md5Hex solutionItemPath group [] s)
      else addSolutionFilesLoop md5Hex solutionItemPath rest s

/-- `MSVCProjectExporterVC2010::addSolutionFiles (out, nestedProjects)`, for the
groups `allGroups` of the project. -/
def addSolutionFiles (md5Hex : Str → Str) (solutionItemPath : Str → Str)
    (allGroups : List Item) (s : TextStream × StringArray) : TextStream × StringArray :=
  addSolutionFilesLoop md5Hex solutionItemPath (topLevelItems allGroups) s

/-- Modelled from the spec: a loop `for (ConstConfigIterator i (*this); i.next ();)`
(`ProjectExporter`, not in the exporter source): every step constructs the
configuration object over its settings node, which the constructor may
update, and runs the body on it. Within `writeSolutionFile` the object is a
`VC2010BuildConfiguration`. The result is the updated nodes and the stream. -/
def forEachConfig (body : MSVCBuildConfiguration → TextStream → TextStream) :
    List ValueTree → TextStream → List ValueTree × TextStream
  | [], out => ([], out)
  | node :: rest, out =>
      let config := VC2010BuildConfiguration.new node
      let r := forEachConfig body rest (body config out)
      (config.config :: r.1, r.2)

/-- The body of the first configuration loop of `writeSolutionFile`. -/
def solutionConfigurationLine (config : MSVCBuildConfiguration) : Str :=
  let configName := config.createMSVCConfigName
  "\t\t".toList ++ configName ++ " = ".toList ++ configName

/-- The body of the second configuration loop of `writeSolutionFile`. -/
def projectConfigurationLine (target : MSVCTargetBase) (config : MSVCBuildConfiguration) : Str :=
  let configName := config.createMSVCConfigName
  "\t\t".toList ++ target.projectGuid ++ ".".toList ++ configName ++ ".Build.0 = ".toList
    ++ configName

/-- The loop over the targets in `writeSolutionFile`, each with its inner
configuration loop. -/
def writeProjectConfigurations :
    Targets → List ValueTree → TextStream → List ValueTree × TextStream
  | [], nodes, out => (nodes, out)
  | target :: rest, nodes, out =>
      let r := forEachConfig (fun config o => o ++ [projectConfigurationLine target config])
        nodes out
      writeProjectConfigurations rest r.1 r.2

/-- `MSVCProjectExporterBase::writeSolutionFile`, called by
`MSVCProjectExporterVC2010::create`. -/
def writeSolutionFile (owner : SolutionOwner) (out : TextStream) (versionString : Str)
    (commentString : Str) : TextStream :=
  let nestedProjects : StringArray := []
  let out := out ++ ["Microsoft Visual Studio Solution File, Format Version ".toList
    ++ versionString]
  let out := if commentString ≠ [] then out ++ [commentString, []] else out ++ [[]]
  let out := writeProjectDependencies owner.projectName owner.targets out
  let r := addSolutionFiles owner.md5Hex owner.solutionItemPath owner.allGroups
    (out, nestedProjects)
  let out := r.1
  let nestedProjects := r.2
  let out := out ++ ["Global".toList,
    "\tGlobalSection(SolutionConfigurationPlatforms) = preSolution".toList]
  let c := forEachConfig (fun config o => o ++ [solutionConfigurationLine config])
    owner.configurations out
  let out := c.2 ++ ["\tEndGlobalSection".toList,
    "\tGlobalSection(ProjectConfigurationPlatforms) = postSolution".toList]
  let p := writeProjectConfigurations owner.targets c.1 out
  let out := p.2 ++ ["\tEndGlobalSection".toList,
    "\tGlobalSection(SolutionProperties) = preSolution".toList,
    "\t\tHideSolutionNode = FALSE".toList,
    "\tEndGlobalSection".toList]
  let out :=
    if nestedProjects.length > 0 then
      out ++ ["\tGlobalSection(NestedProjects) = preSolution".toList,
        "\t\t".toList ++ StringArray.joinIntoString nestedProjects "\n\t\t".toList,
        "\tEndGlobalSection".toList]
    else out
  out ++ ["EndGlobal".toList]

/-! ## Migration of old settings -/

/-- The exporter-level settings node and the settings nodes of the
configurations, which `updateOldSettings` reads and updates. -/
structure ExporterSettings where
  settings : ValueTree
  configurations : List ValueTree
  deriving DecidableEq, Repr

/-- Modelled from the spec: a loop `for (ConfigIterator config (*this); config.next ();)`
(`ProjectExporter`, not in the exporter source) whose body may assign to a
value of the configuration: every step constructs the configuration object
over its settings node (inside the constructor of `MSVCProjectExporterBase` an
`MSVCBuildConfiguration`) and runs the body on it. -/
def updateEachConfig (body : MSVCBuildConfiguration → MSVCBuildConfiguration)
    (nodes : List ValueTree) : List ValueTree :=
  nodes.map (fun node => (body (MSVCBuildConfiguration.new node)).config)

/-- The first block of `updateOldSettings`: the old-style pre-build command. -/
def migratePrebuildCommand (e : ExporterSettings) : ExporterSettings :=
  let oldStylePrebuildCommand := (e.settings.getProperty Ids.prebuildCommand).toStr
  { settings := e.settings.removeProperty Ids.prebuildCommand,
    configurations :=
      if oldStylePrebuildCommand ≠ [] then
        updateEachConfig
          (fun config =>
            { config := config.config.setProperty Ids.prebuildCommand
                (.string oldStylePrebuildCommand) })
          e.configurations
      else e.configurations }

/-- The second block of `updateOldSettings`: the old-style debug library name. -/
def migrateLibraryNameDebug (e : ExporterSettings) : ExporterSettings :=
  let oldStyleLibName := (e.settings.getProperty Ids.libraryName_Debug).toStr
  { settings := e.settings.removeProperty Ids.libraryName_Debug,
    configurations :=
      if oldStyleLibName ≠ [] then
        updateEachConfig
          (fun config =>
            if config.isDebug
            then { config := config.config.setProperty Ids.targetName (.string oldStyleLibName) }
            else config)
          e.configurations
      else e.configurations }

/-- The third block of `updateOldSettings`: the old-style release library name. -/
def migrateLibraryNameRelease (e : ExporterSettings) : ExporterSettings :=
  let oldStyleLibName := (e.settings.getProperty Ids.libraryName_Release).toStr
  { settings := e.settings.removeProperty Ids.libraryName_Release,
    configurations :=
      if oldStyleLibName ≠ [] then
        updateEachConfig
          (fun config =>
            if !config.isDebug
            then { config := config.config.setProperty Ids.targetName (.string oldStyleLibName) }
            else config)
          e.configurations
      else e.configurations }

/-- `MSVCProjectExporterBase::updateOldSettings`: its three blocks in order. -/
def updateOldSettings (e : ExporterSettings) : ExporterSettings :=
  migrateLibraryNameRelease (migrateLibraryNameDebug (migratePrebuildCommand e))

/-! ## Project model and identifiers -/

/-- `MSVCProjectExporterBase::supportsTargetType`. -/
def supportsTargetType : TargetType → Bool
  | .StandalonePlugIn | .GUIApp | .ConsoleApp | .StaticLibrary | .SharedCodeTarget
  | .AggregateTarget | .VSTPlugIn | .VST3PlugIn | .AAXPlugIn | .RTASPlugIn
  | .DynamicLibrary => true
  | _ => false

/-- The part of the project model the identifiers and the solution document
are built from: the project UID, the target types of the project type with
what `ProjectType::Target` gives for each (`getName ()`, `getTargetFileType ()`),
the file name of each target's document (`getVCProjFile ().getFileName ()`),
the build-configuration nodes and the file groups. -/
structure ProjectModel where
  projectUID : Str
  vcProjFileName : TargetType → Str
  targetTypes : List TargetType
  targetName : TargetType → Str
  targetFileType : TargetType → TargetFileType
  configurations : List ValueTree
  groups : List Item

/-- The targets built by
`MSVCProjectExporterVC2010::addPlatformSpecificSettingsForProjectType`: one
`MSVC2010Target` for every supported target type of the project, the aggregate
target left out. -/
def createTargets (md5Hex : Str → Str) (model : ProjectModel) : Targets :=
  ((model.targetTypes.filter supportsTargetType).filter
      (fun type => type ≠ TargetType.AggregateTarget)).map
    (fun type =>
      MSVCTargetBase.new md5Hex model.projectUID type (model.targetName type)
        (model.targetFileType type) (model.vcProjFileName type))

/-- The solution writer's view of a project model. -/
def solutionOwner (md5Hex : Str → Str) (solutionItemPath : Str → Str) (projectName : Str)
    (model : ProjectModel) : SolutionOwner :=
  { projectName := projectName,
    targets := createTargets md5Hex model,
    configurations := model.configurations,
    allGroups := model.groups,
    md5Hex := md5Hex,
    solutionItemPath := solutionItemPath }

/-- The identifier of a file group: `createGUID (item.getID ())`. -/
def groupGuid (md5Hex : Str → Str) (item : Item) : Str := createGUID md5Hex item.info.id

/-! ## Components of a version number -/

/-- The comma-separated components of a text. -/
def commaSeparatedComponents (s : Str) : List Str := s.splitOn ','

/-- A numeric component: a non-empty run of decimal digits. -/
def isNumericComponent (c : Str) : Bool := !c.isEmpty && c.all Char.isDigit

/-- The effect of the first block of `updateOldSettings` on the settings node
of one configuration, for the old-style pre-build command `prebuild`: the
configuration is constructed, then assigned. -/
def migrateNodePrebuild (prebuild : Str) (node : ValueTree) : ValueTree :=
  if prebuild ≠ [] then
    (MSVCBuildConfiguration.new node).config.setProperty Ids.prebuildCommand (.string prebuild)
  else node

/-- The effect of the second block of `updateOldSettings` on one node. -/
def migrateNodeDebug (libDebug : Str) (node : ValueTree) : ValueTree :=
  if libDebug ≠ [] then
    (if (MSVCBuildConfiguration.new node).isDebug
     then (MSVCBuildConfiguration.new node).config.setProperty Ids.targetName (.string libDebug)
     else (MSVCBuildConfiguration.new node).config)
  else node

/-- The effect of the third block of `updateOldSettings` on one node. -/
def migrateNodeRelease (libRelease : Str) (node : ValueTree) : ValueTree :=
  if libRelease ≠ [] then
    (if !(MSVCBuildConfiguration.new node).isDebug
     then (MSVCBuildConfiguration.new node).config.setProperty Ids.targetName
       (.string libRelease)
     else (MSVCBuildConfiguration.new node).config)
  else node

/-- The effect of `updateOldSettings` on the settings node of one
configuration, for the old-style pre-build command and the old-style debug and
release library names read from the exporter settings. -/
def migrateNode (prebuild libDebug libRelease : Str) (node : ValueTree) : ValueTree :=
  migrateNodeRelease libRelease (migrateNodeDebug libDebug (migrateNodePrebuild prebuild node))

/-- The old-style pre-build command read by `updateOldSettings`. -/
def oldStylePrebuildCommand (e : ExporterSettings) : Str :=
  (e.settings.getProperty Ids.prebuildCommand).toStr

/-- The old-style debug library name read by `updateOldSettings`. -/
def oldStyleLibNameDebug (e : ExporterSettings) : Str :=
  (e.settings.getProperty Ids.libraryName_Debug).toStr

/-- The old-style release library name read by `updateOldSettings`. -/
def oldStyleLibNameRelease (e : ExporterSettings) : Str :=
  (e.settings.getProperty Ids.libraryName_Release).toStr

/-! ## Group containers of the solution, described by the group tree -/

/-- The `SolutionItems` lines of a container: one line for every child that is
a file, in order. -/
def solutionItemLines (solutionItemPath : Str → Str) (children : List Item) : TextStream :=
  (children.filter Item.isFile).map
    (fun child => "\t\t".toList ++ solutionItemPath child.info.filePath ++ " = ".toList
      ++ solutionItemPath child.info.filePath)

/-- The declaration block of the container of one group: the `Project` line,
the `SolutionItems` section when the group has a file child, and `EndProject`. -/
def folderBlock (md5Hex : Str → Str) (solutionItemPath : Str → Str) (group : Item) :
    TextStream :=
  [folderLine md5Hex group.info]
    ++ (if solutionItemLines solutionItemPath group.children ≠ [] then
          ["\tProjectSection(SolutionItems) = preProject".toList]
            ++ solutionItemLines solutionItemPath group.children
            ++ ["\tEndProjectSection".toList]
        else [])
    ++ ["EndProject".toList]

mutual

/-- The groups visited from an item, depth first: the item itself, then, for
every child that is a group, in order, the groups visited from that child. -/
def visitedGroups : Item → List Item
  | .mk info children => Item.mk info children :: visitedGroupsList children

/-- The groups visited from the children of an item. -/
def visitedGroupsList : List Item → List Item
  | [] => []
  | child :: rest =>
      (if child.isGroup then visitedGroups child else []) ++ visitedGroupsList rest

end

mutual

/-- The pairs (group, parent group) below an item, each pair after the pairs
below its group. -/
def childParentPairs : Item → List (Item × Item)
  | .mk info children => childParentPairsList children (Item.mk info children)

/-- The pairs (group, parent group) for the children of `parent`. -/
def childParentPairsList : List Item → Item → List (Item × Item)
  | [], _ => []
  | child :: rest, parent =>
      (if child.isGroup then childParentPairs child ++ [(child, parent)] else [])
        ++ childParentPairsList rest parent

end

/-- The relation entry `GUID (child) = GUID (parent)` of a pair. -/
def relationEntry (md5Hex : Str → Str) (pair : Item × Item) : Str :=
  groupGuid md5Hex pair.1 ++ " = ".toList ++ groupGuid md5Hex pair.2

/-- The items for which the top-level `addSolutionFiles` declares a container:
the top-level items that have a child. -/
def topLevelContainers (allGroups : List Item) : List Item :=
  (topLevelItems allGroups).filter (fun item => item.getNumChildren > 0)

/-- The `NestedProjects` section written by `writeSolutionFile` for a list of
relation entries. -/
def nestedProjectsSection (nestedProjects : StringArray) : TextStream :=
  if nestedProjects.length > 0 then
    ["\tGlobalSection(NestedProjects) = preSolution".toList,
     "\t\t".toList ++ StringArray.joinIntoString nestedProjects "\n\t\t".toList,
     "\tEndGlobalSection".toList]
  else []

/-- A line that starts with 'P': in the project part of a solution these are
the `Project` declaration lines. -/
def isProjectLine (line : Str) : Bool := line.head? == some 'P'

/-- The composite key `name|architecture` under which a configuration node is
listed in a solution: `createMSVCConfigName` of the configuration constructed
over the node. -/
def solutionConfigKey (node : ValueTree) : Str :=
  (VC2010BuildConfiguration.new node).createMSVCConfigName

/-- The part of a solution that `writeSolutionFile` writes before the group
containers: the header, the comment and the declarations of the targets. -/
def solutionProjectsPart (owner : SolutionOwner) (out : TextStream) (versionString : Str)
    (commentString : Str) : TextStream :=
  let out := out ++ ["Microsoft Visual Studio Solution File, Format Version ".toList
    ++ versionString]
  let out := if commentString ≠ [] then out ++ [commentString, []] else out ++ [[]]
  writeProjectDependencies owner.projectName owner.targets out

/-- The groups for which a solution declares a container, in the order of
their declarations. -/
def declaredContainers (allGroups : List Item) : List Item :=
  (topLevelContainers allGroups).flatMap visitedGroups

/-- The pairs (group, parent group) among the declared containers. -/
def containerRelations (allGroups : List Item) : List (Item × Item) :=
  (topLevelContainers allGroups).flatMap childParentPairs

/-! ## Library search paths and external libraries -/

/-- Modelled from the spec: `BuildConfiguration::getTargetBinaryRelativePathString`
(base class): the `binaryPath` setting as text. -/
def getTargetBinaryRelativePathString (c : MSVCBuildConfiguration) : Str :=
  (c.config.getProperty Ids.binaryPath).toStr

/-- What the library functions read from the exporter and from collaborators
that are not part of the exporter source: the targets, the configuration's own
`getLibrarySearchPaths ()`, the exporter's `windowsLibs`,
`RelativePath::isAbsolute` of a binary path, the binary path rebased from the
project folder to the target folder in Windows style
(`binaryRelPath.rebased (...).toWindowsStyle ()`), `FileHelpers::isAbsolutePath`
and `ProjectExporter::replacePreprocessorTokens`. -/
structure LinkOwner where
  targets : Targets
  librarySearchPaths : MSVCBuildConfiguration → StringArray
  windowsLibs : StringArray
  relativePathIsAbsolute : Str → Bool
  rebasedBinaryPath : Str → Str
  isAbsolutePath : Str → Bool
  replacePreprocessorTokens : MSVCBuildConfiguration → Str → Str

/-- `MSVCProjectExporterBase::prependDot`. -/
def prependDot (owner : LinkOwner) (filename : Str) : Str :=
  if owner.isAbsolutePath filename then filename else ".\\".toList ++ filename

/-- `MSVCTargetBase::getSolutionTargetPath`. -/
def getSolutionTargetPath (owner : LinkOwner) (config : MSVCBuildConfiguration) : Str :=
  let binaryPath := trim (getTargetBinaryRelativePathString config)
  if binaryPath.isEmpty then "$(SolutionDir)$(Configuration)".toList
  else if owner.relativePathIsAbsolute binaryPath then windowsStylePath binaryPath
  else prependDot owner (owner.rebasedBinaryPath binaryPath)

/-- `MSVCTargetBase::getConfigTargetPath`. -/
def getConfigTargetPath (owner : LinkOwner) (target : MSVCTargetBase)
    (config : MSVCBuildConfiguration) : Str :=
  let solutionTargetFolder := getSolutionTargetPath owner config
  solutionTargetFolder ++ "\\".toList ++ target.name

/-- `MSVCTargetBase::getLibrarySearchPaths`. -/
def getLibrarySearchPaths (owner : LinkOwner) (target : MSVCTargetBase)
    (config : MSVCBuildConfiguration) : StringArray :=
  let librarySearchPaths := owner.librarySearchPaths config
  if target.type ≠ TargetType.SharedCodeTarget then
    match getSharedCodeTarget owner.targets with
    | some shared => librarySearchPaths ++ [getConfigTargetPath owner shared config]
    | none => librarySearchPaths
  else librarySearchPaths

/-- The text of the `LibraryPath` element that `MSVC2010Target::fillInProjectXml`
adds to the property group for a configuration, when it adds one. -/
def libraryPathElement (owner : LinkOwner) (target : MSVCTargetBase)
    (config : MSVCBuildConfiguration) : Option Str :=
  let librarySearchPaths := getLibrarySearchPaths owner target config
  if librarySearchPaths.length > 0 then
    some ("$(LibraryPath);".toList ++ StringArray.joinIntoString librarySearchPaths ";".toList)
  else none

/-- The text of the `AdditionalLibraryDirectories` element that
`MSVC2010Target::fillInProjectXml` adds to the `Link` section for a
configuration, when it adds one. -/
def additionalLibraryDirectoriesElement (owner : LinkOwner)
    (config : MSVCBuildConfiguration) : Option Str :=
  let librarySearchPaths := owner.librarySearchPaths config
  if librarySearchPaths.length > 0 then
    some (owner.replacePreprocessorTokens config
        (StringArray.joinIntoString librarySearchPaths ";".toList)
      ++ ";%(AdditionalLibraryDirectories)".toList)
  else none

/-- `MSVCProjectExporterBase::getModuleLibs`. -/
def getModuleLibs (owner : LinkOwner) : StringArray :=
  owner.windowsLibs.foldl (fun result lib => result ++ [lib ++ ".lib".toList]) []

/-- `MSVCTargetBase::getExternalLibraries`. -/
def getExternalLibraries (steps : StepsOwner) (owner : LinkOwner) (target : MSVCTargetBase)
    (config : MSVCBuildConfiguration) (otherLibs : Str) : Str :=
  let libraries : StringArray := []
  let libraries := if otherLibs ≠ [] then libraries ++ [otherLibs] else libraries
  let moduleLibs := getModuleLibs owner
  let libraries := if !moduleLibs.isEmpty then libraries ++ moduleLibs else libraries
  let libraries :=
    if target.type ≠ TargetType.SharedCodeTarget then
      match getSharedCodeTarget owner.targets with
      | some shared => libraries ++ [getBinaryNameWithSuffix steps shared config]
      | none => libraries
    else libraries
  StringArray.joinIntoString libraries ";".toList

/-- The name from which `getOutputFilename` builds file names: the trimmed
target binary name made legal (`target` in the source). -/
def legalTargetName (owner : StepsOwner) (config : MSVCBuildConfiguration) : Str :=
  owner.createLegalFileName (trim config.getTargetBinaryNameString)

/-! ## Preprocessor definitions: the sequence of writes -/

/-- The keys of a `StringPairArray` after a `set` of `key`, described on the
list of keys: unchanged when a key equal to `key` under the array's comparison
is present, `key` added at the end otherwise. -/
def insertKey (ignoreCase : Bool) (keys : List Str) (key : Str) : List Str :=
  if keys.any (fun k => keyEquals ignoreCase k key) then keys else keys ++ [key]

/-- The value a list of pairs holds for `key`: the value of the first entry
whose key equals `key` under the comparison. -/
def lookupValue (ignoreCase : Bool) (pairs : List (Str × Str)) (key : Str) : Option Str :=
  (pairs.find? (fun p => keyEquals ignoreCase p.1 key)).map Prod.snd

/-- The `set` calls that `getPreprocessorDefs` makes on the copy of the
exporter's extra defines, in order, as (key, value) pairs: the platform
markers, the debug or release markers, the merged project and module defines,
the define of `addExtraPreprocessorDefines`, and the library marker. -/
def defineWrites (owner : DefsOwner) (target : MSVCTargetBase)
    (config : MSVCBuildConfiguration) : List (Str × Str) :=
  [("WIN32".toList, []), ("_WINDOWS".toList, [])]
    ++ (if config.isDebug then [("DEBUG".toList, []), ("_DEBUG".toList, [])]
        else [("NDEBUG".toList, [])])
    ++ (owner.getAllPreprocessorDefs config target.type).pairs
    ++ (match target.type with
        | .AAXPlugIn => [("JucePlugin_AAXLibs_path".toList, owner.aaxLibsRebasedPath)]
        | .RTASPlugIn => [("JucePlugin_WinBag_path".toList, owner.rtasWinBagRebasedPath)]
        | _ => [])
    ++ (if target.fileType = TargetFileType.staticLibrary
            ∨ target.fileType = TargetFileType.sharedLibraryOrDLL
        then [("_LIB".toList, [])] else [])

/-- The entry written for one define: `KEY`, or `KEY=value` when the value is
not empty. -/
def renderDefine (p : Str × Str) : Str :=
  if p.2 ≠ [] then p.1 ++ "=".toList ++ p.2 else p.1

/-- The value of the last write to `key` in a sequence of writes, if any. -/
def lastWrite (ignoreCase : Bool) (writes : List (Str × Str)) (key : Str) : Option Str :=
  lookupValue ignoreCase writes.reverse key

/-- The keys that `getPreprocessorDefs` writes by itself: the platform markers,
the debug and release markers, the keys of `addExtraPreprocessorDefines` and
the library marker. -/
def fixedDefineKeys : List Str :=
  ["WIN32".toList, "_WINDOWS".toList, "DEBUG".toList, "_DEBUG".toList, "NDEBUG".toList,
   "JucePlugin_AAXLibs_path".toList, "JucePlugin_WinBag_path".toList, "_LIB".toList]

/-- The marker keys `getPreprocessorDefs` sets for a configuration: the
platform markers and the debug or release markers. -/
def markerKeys (config : MSVCBuildConfiguration) : List Str :=
  ["WIN32".toList, "_WINDOWS".toList]
    ++ (if config.isDebug then ["DEBUG".toList, "_DEBUG".toList] else ["NDEBUG".toList])

/-- The debug or release markers `getPreprocessorDefs` does not set for a
configuration. -/
def otherMarkerKeys (config : MSVCBuildConfiguration) : List Str :=
  if config.isDebug then ["NDEBUG".toList] else ["DEBUG".toList, "_DEBUG".toList]

/-- Whether a list of keys holds a key equal to `key` under the comparison of
the array. -/
def hasKey (ignoreCase : Bool) (keys : List Str) (key : Str) : Bool :=
  keys.any (fun k => keyEquals ignoreCase k key)

/-- The keys `getPreprocessorDefs` writes for a target after the merge of the
project and module defines: the key of `addExtraPreprocessorDefines` and the
library marker. -/
def targetDefineKeys (target : MSVCTargetBase) : List Str :=
  (match target.type with
    | .AAXPlugIn => ["JucePlugin_AAXLibs_path".toList]
    | .RTASPlugIn => ["JucePlugin_WinBag_path".toList]
    | _ => [])
  ++ (if target.fileType = TargetFileType.staticLibrary
          ∨ target.fileType = TargetFileType.sharedLibraryOrDLL
      then ["_LIB".toList] else [])

/-! ## Resource script -/

/-- The `newLine` written to a stream: carriage return and line feed. -/
def newLine : Str := "\r\n".toList

/-- Modelled from the spec: `String::quoted ()` (juce_core): the text between
double quotes, a quote being added at an end that has none. -/
def quoted (s : Str) : Str :=
  if s.isEmpty then "\"\"".toList
  else
    let t := if s.head? == some '"' then s else '"' :: s
    if t.getLast? == some '"' then t else t ++ ['"']

/-- What `createRCFile` reads from the project: `getVersionString ()`,
`getCompanyName ().toString ()` and `getTitle ()`. -/
structure ProjectInfo where
  versionString : Str
  companyName : Str
  title : Str

/-- `MSVCProjectExporterBase::writeRCValue`, for the escaping function
`CppTokeniserFunctions::addEscapeChars`. -/
def writeRCValue (addEscapeChars : Str → Str) (mo : Str) (name value : Str) : Str :=
  if value ≠ [] then
    mo ++ "      VALUE \"".toList ++ name ++ "\",  \"".toList ++ addEscapeChars value
      ++ "\\0\"".toList ++ newLine
  else mo

/-- The text `createRCFile` writes before the `FILEVERSION` line. -/
def rcOpening : Str :=
  "#ifdef JUCE_USER_DEFINED_RC_FILE".toList ++ newLine
    ++ " #include JUCE_USER_DEFINED_RC_FILE".toList ++ newLine
    ++ "#else".toList ++ newLine
    ++ newLine
    ++ "#undef  WIN32_LEAN_AND_MEAN".toList ++ newLine
    ++ "#define WIN32_LEAN_AND_MEAN".toList ++ newLine
    ++ "#include <windows.h>".toList ++ newLine
    ++ newLine
    ++ "VS_VERSION_INFO VERSIONINFO".toList ++ newLine

/-- The text `createRCFile` writes between the `FILEVERSION` line and the
`VALUE` lines. -/
def rcBlockOpening : Str :=
  "BEGIN".toList ++ newLine
    ++ "  BLOCK \"StringFileInfo\"".toList ++ newLine
    ++ "  BEGIN".toList ++ newLine
    ++ "    BLOCK \"040904E4\"".toList ++ newLine
    ++ "    BEGIN".toList ++ newLine

/-- The text `createRCFile` writes after the `VALUE` lines, up to `#endif`. -/
def rcClosing : Str :=
  "    END".toList ++ newLine
    ++ "  END".toList ++ newLine
    ++ newLine
    ++ "  BLOCK \"VarFileInfo\"".toList ++ newLine
    ++ "  BEGIN".toList ++ newLine
    ++ "    VALUE \"Translation\", 0x409, 1252".toList ++ newLine
    ++ "  END".toList ++ newLine
    ++ "END".toList ++ newLine
    ++ newLine
    ++ "#endif".toList ++ newLine

/-- The text `createRCFile` writes to `resources.rc`, for the icon file of the
exporter (`none` is the empty `File ()`), given as its file name. -/
def rcFileText (addEscapeChars : Str → Str) (project : ProjectInfo)
    (iconFileName : Option Str) : Str :=
  let version := project.versionString
  let mo : Str :=
    rcOpening
      ++ "FILEVERSION  ".toList ++ getCommaSeparatedVersionNumber version ++ newLine
      ++ rcBlockOpening
  let mo := writeRCValue addEscapeChars mo "CompanyName".toList project.companyName
  let mo := writeRCValue addEscapeChars mo "FileDescription".toList project.title
  let mo := writeRCValue addEscapeChars mo "FileVersion".toList version
  let mo := writeRCValue addEscapeChars mo "ProductName".toList project.title
  let mo := writeRCValue addEscapeChars mo "ProductVersion".toList version
  let mo := mo ++ rcClosing
  match iconFileName with
  | some iconName =>
      mo ++ newLine
        ++ "IDI_ICON1 ICON DISCARDABLE ".toList ++ quoted iconName
        ++ newLine
        ++ "IDI_ICON2 ICON DISCARDABLE ".toList ++ quoted iconName
  | none => mo

/-! ## Files written by a generation run -/

/-- The content of a generated file: the bytes of the icon, the lines of the
solution, or the text of the resource script or of a target document. -/
inductive FileContent where
  | bytes (data : Bytes)
  | lines (text : TextStream)
  | text (text : Str)
  deriving DecidableEq, Repr

/-- A file on disk: its content and its modification time. -/
structure FileEntry where
  content : FileContent
  modified : Nat
  deriving DecidableEq, Repr

/-- The files on disk, by path. -/
abbrev Disk := Str → Option FileEntry

/-- Modelled from the spec: `overwriteFileIfDifferentOrThrow (file, newData)`
(Projucer utilities, not in the exporter source), the "overwrite only if
content differs" write: a file whose content equals the new data is left as it
is, with its modification time; otherwise the file gets the new data and the
time of the write. The write is taken to succeed. -/
def overwriteFileIfDifferent (disk : Disk) (file : Str) (newData : FileContent) (now : Nat) :
    Disk :=
  match disk file with
  | some entry =>
      if entry.content = newData then disk
      else fun path => if path = file then some { content := newData, modified := now }
        else disk path
  | none => fun path => if path = file then some { content := newData, modified := now }
      else disk path

/-- Modelled from the spec: `writeXmlOrThrow (xml, file, encoding, maxCharsPerLine)`
(Projucer utilities): the document is written to a memory stream and the file
is overwritten only if its content differs. -/
def writeXml (disk : Disk) (file : Str) (xmlText : Str) (now : Nat) : Disk :=
  overwriteFileIfDifferent disk file (.text xmlText) now

/-- What `create` reads from the exporter and from collaborators that are not
part of the exporter source: `hasResourceFile ()`'s project type test,
`getBestIconForSize (size, true)` (`none` for an invalid image), the PNG
encoder, the project texts, `addEscapeChars`, the path of a child of the
target folder, `File::getFileName`, what `writeSolutionFile` reads,
`getSolutionComment ()`, the path of the solution file, the path of each
target's document (`getVCProjFile ()`), and the serialised document that
`fillInProjectXml` builds for a target; the document depends on the exporter's
icon file and on whether `icon.ico` exists in the target folder
(`getAAXIconFile`). -/
structure CreateOwner where
  isStaticLibrary : Bool
  getBestIconForSize : Nat → Option Image
  png : Image → Bytes
  project : ProjectInfo
  addEscapeChars : Str → Str
  targetFolderChild : Str → Str
  getFileName : Str → Str
  solution : SolutionOwner
  solutionComment : Str
  slnFile : Str
  vcProjFile : MSVCTargetBase → Str
  projectXml : Option Str → Bool → MSVCTargetBase → Str

/-- The state a generation run works on: the disk and the exporter's mutable
`iconFile` (`none` is the empty `File ()`). -/
structure ExportState where
  disk : Disk
  iconFile : Option Str

/-- `MSVCProjectExporterBase::hasResourceFile`. -/
def hasResourceFile (o : CreateOwner) : Bool := !o.isStaticLibrary

/-- `MSVCProjectExporterBase::createRCFile`. -/
def createRCFile (o : CreateOwner) (s : ExportState) (now : Nat) : ExportState :=
  let rcFile := o.targetFolderChild "resources.rc".toList
  let mo := rcFileText o.addEscapeChars o.project (s.iconFile.map o.getFileName)
  { s with disk := overwriteFileIfDifferent s.disk rcFile (.text mo) now }

/-- The images `createResourcesAndIcon` collects: the valid best icons for the
sizes 16, 32, 48 and 256. -/
def collectIconImages (o : CreateOwner) : List Image :=
  [16, 32, 48, 256].foldl
    (fun images size =>
      match o.getBestIconForSize size with
      | some im => images ++ [im]
      | none => images)
    []

/-- `MSVCProjectExporterBase::createResourcesAndIcon`. -/
def createResourcesAndIcon (o : CreateOwner) (s : ExportState) (now : Nat) : ExportState :=
  if hasResourceFile o then
    let images := collectIconImages o
    let s :=
      if images.length > 0 then
        let iconFile := o.targetFolderChild "icon.ico".toList
        let mo := writeIconFile o.png images []
        { disk := overwriteFileIfDifferent s.disk iconFile (.bytes mo) now,
          iconFile := some iconFile }
      else s
    createRCFile o s now
  else s

/-- `MSVCTargetBase::writeProjectFile`: the document is built and written with
`writeXmlOrThrow`. -/
def writeProjectFile (o : CreateOwner) (target : MSVCTargetBase) (s : ExportState)
    (now : Nat) : ExportState :=
  let iconExists := (s.disk (o.targetFolderChild "icon.ico".toList)).isSome
  let projectXml := o.projectXml s.iconFile iconExists target
  { s with disk := writeXml s.disk (o.vcProjFile target) projectXml now }

/-- `MSVCProjectExporterVC2010::create`. -/
def create (o : CreateOwner) (s : ExportState) (now : Nat) : ExportState :=
  let s := createResourcesAndIcon o s now
  let s := o.solution.targets.foldl (fun s target => writeProjectFile o target s now) s
  let mo := writeSolutionFile o.solution [] "11.00".toList o.solutionComment
  { s with disk := overwriteFileIfDifferent s.disk o.slnFile (.lines mo) now }

/-- The paths of the files a generation run may write: the icon, the resource
script, the target documents and the solution. -/
def createPaths (o : CreateOwner) : List Str :=
  [o.targetFolderChild "icon.ico".toList, o.targetFolderChild "resources.rc".toList]
    ++ o.solution.targets.map o.vcProjFile ++ [o.slnFile]

/-- The exporter's icon file after `createResourcesAndIcon`. -/
def iconFileAfter (o : CreateOwner) (s : ExportState) : Option Str :=
  if hasResourceFile o = true ∧ (collectIconImages o).length > 0
  then some (o.targetFolderChild "icon.ico".toList) else s.iconFile

/-- Whether `icon.ico` exists in the target folder after
`createResourcesAndIcon`. -/
def iconExistsAfter (o : CreateOwner) (s : ExportState) : Bool :=
  (hasResourceFile o && decide ((collectIconImages o).length > 0))
    || (s.disk (o.targetFolderChild "icon.ico".toList)).isSome

/-- The files a generation run produces from a state, with their contents, in
the order in which they are written. -/
def createWrites (o : CreateOwner) (s : ExportState) : List (Str × FileContent) :=
  (if hasResourceFile o then
      (if (collectIconImages o).length > 0 then
          [(o.targetFolderChild "icon.ico".toList,
            FileContent.bytes (writeIconFile o.png (collectIconImages o) []))]
        else [])
      ++ [(o.targetFolderChild "resources.rc".toList,
            FileContent.text (rcFileText o.addEscapeChars o.project
              ((iconFileAfter o s).map o.getFileName)))]
    else [])
  ++ o.solution.targets.map (fun target =>
      (o.vcProjFile target,
        FileContent.text (o.projectXml (iconFileAfter o s) (iconExistsAfter o s) target)))
  ++ [(o.slnFile,
        FileContent.lines (writeSolutionFile o.solution [] "11.00".toList o.solutionComment))]

/-- A sequence of writes (path, content), each made with
`overwriteFileIfDifferent` at the time `now`. -/
def applyWrites (writes : List (Str × FileContent)) (disk : Disk) (now : Nat) : Disk :=
  writes.foldl (fun d w => overwriteFileIfDifferent d w.1 w.2 now) disk

/-! ## Configurations in a target document -/

/-- A `ProjectConfiguration` element of a target document: its `Include`
attribute and the texts of its `Configuration` and `Platform` children. -/
structure ProjectConfigurationElement where
  includeAttribute : Str
  configuration : Str
  platform : Str
  deriving DecidableEq, Repr

/-- The body of the first configuration loop of `MSVC2010Target::fillInProjectXml`. -/
def projectConfigurationElement (config : MSVCBuildConfiguration) :
    ProjectConfigurationElement :=
  { includeAttribute := config.createMSVCConfigName,
    configuration := config.getName,
    platform := if is64Bit config then "x64".toList else "Win32".toList }

/-- The `Condition` attribute set by `MSVC2010Target::setConditionAttribute`. -/
def conditionAttribute (config : MSVCBuildConfiguration) : Str :=
  "'$(Configuration)|$(Platform)'=='".toList ++ config.createMSVCConfigName ++ "'".toList

/-! ## Resource script, described by its parts -/

/-- The five product fields of the resource script with their texts, in the
order in which `createRCFile` writes them. -/
def rcFields (project : ProjectInfo) : List (Str × Str) :=
  [("CompanyName".toList, project.companyName),
   ("FileDescription".toList, project.title),
   ("FileVersion".toList, project.versionString),
   ("ProductName".toList, project.title),
   ("ProductVersion".toList, project.versionString)]

/-- The `VALUE` line of a field, with its text escaped. -/
def rcValueLine (addEscapeChars : Str → Str) (field : Str × Str) : Str :=
  "      VALUE \"".toList ++ field.1 ++ "\",  \"".toList ++ addEscapeChars field.2
    ++ "\\0\"".toList ++ newLine

/-- The icon references at the end of the resource script: none without an
icon file, and the two references to the icon file otherwise. -/
def rcIconReferences (iconFileName : Option Str) : Str :=
  match iconFileName with
  | some iconName =>
      newLine ++ "IDI_ICON1 ICON DISCARDABLE ".toList ++ quoted iconName
        ++ newLine ++ "IDI_ICON2 ICON DISCARDABLE ".toList ++ quoted iconName
  | none => []

/-! ## The group assertion of `addSolutionFiles` -/

mutual

/-- Whether `jassert (item.isGroup ())` holds in the call of the recursive
`addSolutionFiles` on `item` and in every call made from it. -/
def groupAssertionItem : Item → Bool
  | .mk info children =>
      (Item.mk info children).isGroup && groupAssertionChildren children

/-- The assertions of the calls made by the second loop of the recursive
`addSolutionFiles`, one call for every child that is a group. -/
def groupAssertionChildren : List Item → Bool
  | [] => true
  | child :: rest =>
      (if child.isGroup then groupAssertionItem child else true)
        && groupAssertionChildren rest

end

/-- The assertions of the calls made by the loop of the top-level
`addSolutionFiles`, one call for every top-level item that has a child. -/
def groupAssertionLoop : List Item → Bool
  | [] => true
  | group :: rest =>
      (if group.getNumChildren > 0 then groupAssertionItem group else true)
        && groupAssertionLoop rest

/-- Whether no assertion fails in `addSolutionFiles (out, nestedProjects)` for
the groups `allGroups`. -/
def groupAssertion (allGroups : List Item) : Bool :=
  groupAssertionLoop (topLevelItems allGroups)

mutual

/-- An item and all items below it. -/
def allItems : Item → List Item
  | .mk info children => Item.mk info children :: allItemsList children

/-- All items below the children of an item, the children included. -/
def allItemsList : List Item → List Item
  | [] => []
  | child :: rest => allItems child ++ allItemsList rest

end

/-! ## The bitmap written by `writeBMPImage`, described by its parts -/

/-- The mask bit of a pixel: 1 when its alpha is at most the threshold. -/
def maskBit (pixel : Colour) : Nat := if pixel.alpha ≤ alphaThreshold then 1 else 0

/-- The four bytes of a pixel in the colour block: zero for a pixel whose alpha
is at most the threshold, blue, green, red, alpha otherwise. -/
def colourEntry (pixel : Colour) : Bytes :=
  if pixel.alpha ≤ alphaThreshold then [0, 0, 0, 0]
  else [pixel.blue % 256, pixel.green % 256, pixel.red % 256, pixel.alpha % 256]

/-- The number whose binary digits, most significant first, are the mask bits
of the `len` pixels of row `y` from `x = start` on. -/
def maskBits (image : Image) (y start len : Nat) : Nat :=
  ((List.range len).map (fun i => maskBit (image.pixel (start + i) y))).foldl
    (fun mask bit => mask * 2 + bit) 0

/-- The bytes of row `y` in the colour block: the entries of the pixels from
left to right. -/
def colourRowBytes (image : Image) (w y : Nat) : Bytes :=
  (List.range w).flatMap (fun x => colourEntry (image.pixel x y))

/-- The bytes of row `y` in the mask block: one byte for every full group of
eight pixels, from left to right, then the byte of the remaining pixels when
it is not zero, then `maskStride - w / 8` zero bytes. -/
def maskRowBytes (image : Image) (w y : Nat) : Bytes :=
  (List.range (w / 8)).map (fun j => maskBits image y (8 * j) 8)
    ++ (if maskBits image y (8 * (w / 8)) (w % 8) ≠ 0
        then [maskBits image y (8 * (w / 8)) (w % 8)] else [])
    ++ List.replicate (maskStride w - w / 8) 0

/-- The forty bytes of the header written by `writeBMPImage`. -/
def bmpHeader (w h : Nat) : Bytes :=
  let out := writeInt [] 40
  let out := writeInt out w
  let out := writeInt out (wrapInt32 (h * 2))
  let out := writeShort out 1
  let out := writeShort out 32
  let out := writeInt out 0
  let out := writeInt out (wrapInt32 (h * w * 4 + h * maskStride w))
  let out := writeInt out 0
  let out := writeInt out 0
  let out := writeInt out 0
  writeInt out 0

/-! ## Files to compile -/

/-- Modelled from the spec: `String::startsWithIgnoreCase` (juce_core): the
first characters of the string, as many as the other text has, equal that text
when case is ignored. -/
def startsWithIgnoreCase (s text : Str) : Bool :=
  equalsIgnoreCase (s.take text.length) text

/-- What `addFilesToCompile` reads from the project and from `RelativePath`,
neither of which is in the exporter source:
`getProject ().getProjectType ().isAudioPlugin ()`,
`getProject ().getTargetTypeFromFilePath (file, true)`, the path
`RelativePath (file, getTargetFolder (), buildTargetFolder)` of a file, and on
such a path `hasFileExtension (cOrCppFileExtensions)`,
`hasFileExtension (asmFileExtensions)`, `toWindowsStyle ()` and
`getFileNameWithoutExtension ()`. -/
structure CompileOwner where
  isAudioPlugin : Bool
  getTargetTypeFromFilePath : Str → TargetType
  relativePath : Str → Str
  hasCOrCppFileExtension : Str → Bool
  hasAsmFileExtension : Str → Bool
  toWindowsStyle : Str → Str
  getFileNameWithoutExtension : Str → Str

/-- `MSVCTargetBase::shouldUseStdCall`. -/
def shouldUseStdCall (o : CompileOwner) (path : Str) : Bool :=
  startsWithIgnoreCase (o.getFileNameWithoutExtension path)
    "juce_audio_plugin_client_RTAS_".toList

/-- A child element of one of the item groups filled by `addFilesToCompile`:
its tag, its `Include` attribute, and the text of its `CallingConvention`
child when it has one. -/
structure CompileElement where
  tag : Str
  includeAttribute : Str
  callingConvention : Option Str := none
  deriving DecidableEq, Repr

/-- The three elements `cpps`, `headers` and `otherFiles` handed to
`addFilesToCompile`, each as the list of its children. -/
structure CompileGroups where
  cpps : List CompileElement
  headers : List CompileElement
  otherFiles : List CompileElement
  deriving DecidableEq, Repr

/-- The `ClCompile` element created by `addFilesToCompile` for a path. -/
def clCompileElement (o : CompileOwner) (path : Str) : CompileElement :=
  { tag := "ClCompile".toList, includeAttribute := o.toWindowsStyle path,
    callingConvention := if shouldUseStdCall o path then some "StdCall".toList else none }

mutual

/-- `MSVC2010Target::addFilesToCompile`, for the target of type `type`. -/
def addFilesToCompile (o : CompileOwner) (type : TargetType) :
    Item → CompileGroups → CompileGroups
  | .mk info children, groups =>
    let targetType := if o.isAudioPlugin then type else TargetType.SharedCodeTarget
    if info.kind = ItemKind.group then
      addFilesToCompileChildren o type children groups
    else if info.shouldBeAddedToTargetProject then
      let path := o.relativePath info.filePath
      if info.shouldBeCompiled
          && (o.hasCOrCppFileExtension path || o.hasAsmFileExtension path)
          && o.getTargetTypeFromFilePath info.filePath == targetType then
        { groups with cpps := groups.cpps ++ [clCompileElement o path] }
      else groups
    else groups

/-- The loop of `addFilesToCompile` over the children of a group. -/
def addFilesToCompileChildren (o : CompileOwner) (type : TargetType) :
    List Item → CompileGroups → CompileGroups
  | [], groups => groups
  | child :: rest, groups =>
      addFilesToCompileChildren o type rest (addFilesToCompile o type child groups)

end

mutual

/-- The items that are not groups and are reached from an item through groups
only, in the order of the tree. -/
def walkedFiles : Item → List ItemInfo
  | .mk info children =>
    if info.kind = ItemKind.group then walkedFilesList children else [info]

/-- The items that are not groups and are reached from a list of items. -/
def walkedFilesList : List Item → List ItemInfo
  | [] => []
  | child :: rest => walkedFiles child ++ walkedFilesList rest

end


/-- The test made by `addFilesToCompile` on an item that is not a group. -/
def isCompiledFor (o : CompileOwner) (type : TargetType) (info : ItemInfo) : Bool :=
  info.shouldBeAddedToTargetProject
    && (info.shouldBeCompiled
        && (o.hasCOrCppFileExtension (o.relativePath info.filePath)
            || o.hasAsmFileExtension (o.relativePath info.filePath))
        && o.getTargetTypeFromFilePath info.filePath
            == (if o.isAudioPlugin then type else TargetType.SharedCodeTarget))


/-! ## Concrete inputs -/

/-- The defines of the specification's merge example: global defines
`{A:"", WIN32:""}` and module/project defines `{A:"1", B:""}`. -/
def mergeExampleOwner : DefsOwner :=
  { msvcExtraPreprocessorDefs := { pairs := [("A".toList, []), ("WIN32".toList, [])] },
    getAllPreprocessorDefs := fun _ _ => { pairs := [("A".toList, "1".toList), ("B".toList, [])] },
    aaxLibsRebasedPath := [],
    rtasWinBagRebasedPath := [] }

/-- A GUI application target. -/
def guiAppTarget : MSVCTargetBase :=
  { type := .GUIApp, name := "App".toList, fileType := .executable,
    projectGuid := "\x7bG-APP\x7d".toList, vcProjFileName := "Demo (App).vcxproj".toList }

/-- An AAX plug-in target. -/
def aaxTarget : MSVCTargetBase :=
  { type := .AAXPlugIn, name := "AAX".toList, fileType := .pluginBundle,
    projectGuid := "\x7bG-AAX\x7d".toList, vcProjFileName := "Demo (AAX).vcxproj".toList }

/-- Build-step collaborators that leave names and paths as they are. -/
def plainStepsOwner : StepsOwner :=
  { createLegalFileName := fun s => s,
    isAbsolutePath := fun _ => false,
    replacePreprocessorTokens := fun _ s => s,
    bundleScriptRebasedPath := "CreatePackage.bat".toList,
    aaxIconRebasedPath := "icon.ico".toList }

/-- A stand-in digest for examples: every seed gets the same 32 digits. -/
def constantDigest : Str → Str := fun _ => "0123456789ABCDEF0123456789ABCDEF".toList

/-- Three targets of a plug-in project with the UID "uid", as their
constructor builds them: VST, shared code, AAX. -/
def pluginTargets : Targets :=
  [ MSVCTargetBase.new constantDigest "uid".toList .VSTPlugIn "VST".toList .pluginBundle
      "Demo (VST).vcxproj".toList,
    MSVCTargetBase.new constantDigest "uid".toList .SharedCodeTarget "Shared Code".toList
      .staticLibrary "Demo (Shared Code).vcxproj".toList,
    MSVCTargetBase.new constantDigest "uid".toList .AAXPlugIn "AAX".toList .pluginBundle
      "Demo (AAX).vcxproj".toList ]

/-- A PNG encoder stand-in for examples that writes three bytes. -/
def stubPng : Image → Bytes := fun _ => [137, 80, 78]

/-- A fully transparent 1 x 1 image. -/
def transparentPixelImage : Image :=
  { width := 1, height := 1, pixel := fun _ _ => { red := 0, green := 0, blue := 0, alpha := 0 } }

/-- An opaque 1 x 1 image. -/
def opaquePixelImage : Image :=
  { width := 1, height := 1,
    pixel := fun _ _ => { red := 1, green := 2, blue := 3, alpha := 255 } }

/-- A 256 x 256 image, which `writeIconFile` hands to the PNG encoder. -/
def largeImage : Image :=
  { width := 256, height := 256,
    pixel := fun _ _ => { red := 0, green := 0, blue := 0, alpha := 255 } }

/-- Three icon images: two small bitmaps and one PNG. -/
def iconImages : List Image := [opaquePixelImage, transparentPixelImage, largeImage]

/-- A 9 x 1 image whose last pixel is fully transparent and whose other
pixels are opaque. -/
def nineWideImage : Image :=
  { width := 9, height := 1,
    pixel := fun x _ =>
      if x = 8 then { red := 0, green := 0, blue := 0, alpha := 0 }
      else { red := 1, green := 2, blue := 3, alpha := 255 } }

/-- The names of targets used in examples. -/
def demoTargetName : TargetType → Str
  | .VSTPlugIn => "VST".toList
  | .AAXPlugIn => "AAX".toList
  | .SharedCodeTarget => "Shared Code".toList
  | .AggregateTarget => "All".toList
  | _ => "App".toList

/-- The file types of targets used in examples. -/
def demoTargetFileType : TargetType → TargetFileType
  | .GUIApp | .ConsoleApp | .StandalonePlugIn => .executable
  | .StaticLibrary | .SharedCodeTarget => .staticLibrary
  | .DynamicLibrary => .sharedLibraryOrDLL
  | .VSTPlugIn | .VST3PlugIn | .AAXPlugIn | .RTASPlugIn | .AudioUnitPlugIn => .pluginBundle
  | _ => .unknown

/-- A "Source" group holding the file `Main.cpp`, which is compiled, and an
empty subgroup "Empty". -/
def sourceGroup : Item :=
  .mk { id := "g1".toList, name := "Source".toList, kind := .group }
    [ .mk { id := "f1".toList, name := "Main.cpp".toList, kind := .file,
            filePath := "Source/Main.cpp".toList, shouldBeCompiled := true } [],
      .mk { id := "g3".toList, name := "Empty".toList, kind := .group } [] ]

/-- A "Docs" group holding the file `readme.txt`. -/
def docsGroup : Item :=
  .mk { id := "g2".toList, name := "Docs".toList, kind := .group }
    [ .mk { id := "f2".toList, name := "readme.txt".toList, kind := .file,
            filePath := "Docs/readme.txt".toList } [] ]

/-- A plug-in project with one debug configuration whose optimisation level
is "off", and two file groups. -/
def demoModel : ProjectModel :=
  { projectUID := "uid".toList,
    vcProjFileName := fun type => "Demo (".toList ++ demoTargetName type ++ ").vcxproj".toList,
    targetTypes := [.VSTPlugIn, .AudioUnitPlugIn, .SharedCodeTarget, .AAXPlugIn,
      .AggregateTarget],
    targetName := demoTargetName,
    targetFileType := demoTargetFileType,
    configurations :=
      [[(Ids.name, .string "Debug".toList), (Ids.isDebug, .bool true),
        (Ids.optimisation, .int 1)]],
    groups := [sourceGroup, docsGroup] }

/-- The same project with the optimisation level of its configuration changed
to "maximise speed". -/
def demoModelOptimised : ProjectModel :=
  { demoModel with
    configurations :=
      [[(Ids.name, .string "Debug".toList), (Ids.isDebug, .bool true),
        (Ids.optimisation, .int 3)]] }

/-- Exporter settings with the three old-style values and two configurations,
"Debug" and "Release". -/
def oldStyleSettings : ExporterSettings :=
  { settings :=
      [(Ids.prebuildCommand, .string "echo pre".toList),
       (Ids.libraryName_Debug, .string "demo_d".toList),
       (Ids.libraryName_Release, .string "demo".toList)],
    configurations :=
      [[(Ids.name, .string "Debug".toList), (Ids.isDebug, .bool true)],
       [(Ids.name, .string "Release".toList), (Ids.isDebug, .bool false)]] }

/-- The solution writer's view of the plug-in project `demoModel`, with two
configurations: "Debug" with no architecture set and "Release" for "Win32". -/
def demoSolution : SolutionOwner :=
  solutionOwner constantDigest (fun path => path) "Demo".toList
    { demoModel with
      configurations :=
        [[(Ids.name, .string "Debug".toList), (Ids.isDebug, .bool true)],
         [(Ids.name, .string "Release".toList), (Ids.isDebug, .bool false),
          (Ids.winArchitecture, .string "Win32".toList)]] }


/-- The project of `demoSolution` with the single root group "Source". -/
def singleRootSolution : SolutionOwner :=
  { demoSolution with allGroups := [sourceGroup] }


/-- Library collaborators of the plug-in project `pluginTargets`: no library
search path of its own, two module libraries, relative paths only. -/
def pluginLinkOwner : LinkOwner :=
  { targets := pluginTargets,
    librarySearchPaths := fun _ => [],
    windowsLibs := ["ws2_32".toList, "winmm".toList],
    relativePathIsAbsolute := fun _ => false,
    rebasedBinaryPath := fun p => windowsStylePath p,
    isAbsolutePath := fun _ => false,
    replacePreprocessorTokens := fun _ s => s }

/-- The same project with the library search path "libs" set on its
configurations. -/
def pluginLinkOwnerWithPath : LinkOwner :=
  { pluginLinkOwner with librarySearchPaths := fun _ => ["libs".toList] }

/-- The VST target of `pluginTargets`. -/
def vstTarget : MSVCTargetBase :=
  MSVCTargetBase.new constantDigest "uid".toList .VSTPlugIn "VST".toList .pluginBundle
    "Demo (VST).vcxproj".toList

/-- The shared-code target of `pluginTargets`. -/
def sharedCodeTarget : MSVCTargetBase :=
  MSVCTargetBase.new constantDigest "uid".toList .SharedCodeTarget "Shared Code".toList
    .staticLibrary "Demo (Shared Code).vcxproj".toList

/-- A release configuration whose target binary name "My.Plugin" contains a
'.', with no runtime-library choice. -/
def dottedNameConfig : MSVCBuildConfiguration :=
  { config := [(Ids.name, .string "Release".toList), (Ids.targetName, .string "My.Plugin".toList),
      (Ids.winArchitecture, .string "x64".toList)] }

/-- A release configuration with the target binary name "MyPlugin". -/
def plainNameConfig : MSVCBuildConfiguration :=
  { config := [(Ids.name, .string "Release".toList), (Ids.targetName, .string "MyPlugin".toList),
      (Ids.winArchitecture, .string "x64".toList)] }


/-- A static library target. -/
def staticLibraryTarget : MSVCTargetBase :=
  { type := .StaticLibrary, name := "Static Library".toList, fileType := .staticLibrary,
    projectGuid := "\x7bG-LIB\x7d".toList, vcProjFileName := "Demo (Static Library).vcxproj".toList }


/-- A generation run's view of the plug-in project `demoSolution`: every file
goes to the folder "Builds", there is one valid icon image (for size 16), and
the document of a target is a stand-in text that names the target, the icon
file and whether `icon.ico` exists. -/
def demoCreateOwner : CreateOwner :=
  { isStaticLibrary := false,
    getBestIconForSize := fun size => if size = 16 then some opaquePixelImage else none,
    png := stubPng,
    project := { versionString := "1.2".toList, companyName := "ACME".toList,
                 title := "Demo".toList },
    addEscapeChars := fun s => s,
    targetFolderChild := fun name => "Builds/".toList ++ name,
    getFileName := fun path => path.drop 7,
    solution := demoSolution,
    solutionComment := "# Visual Studio 2010".toList,
    slnFile := "Builds/Demo.sln".toList,
    vcProjFile := fun target => "Builds/".toList ++ target.vcProjFileName,
    projectXml := fun iconFile iconExists target =>
      "<Project target=\"".toList ++ target.name ++ "\" icon=\"".toList
        ++ iconFile.getD [] ++ (if iconExists then "\" aaxIcon=\"icon.ico\"/>".toList
                                else "\"/>".toList) }

/-- The state before a first run: no file on disk and no icon file set. -/
def freshState : ExportState := { disk := fun _ => none, iconFile := none }


/-- A 16 x 2 image whose left half is fully transparent and whose right half
is opaque. -/
def sixteenWideImage : Image :=
  { width := 16, height := 2,
    pixel := fun x _ =>
      if x < 8 then { red := 0, green := 0, blue := 0, alpha := 0 }
      else { red := 1, green := 2, blue := 3, alpha := 255 } }


/-- A project whose paths are kept as they are, where every path ending in
".cpp" is a C++ file and every path ending in ".asm" an assembly file, and
where the files of the folder "RTAS/" belong to the RTAS target and all other
files to the shared code. -/
def demoCompileOwner (isAudioPlugin : Bool) : CompileOwner :=
  { isAudioPlugin := isAudioPlugin,
    getTargetTypeFromFilePath := fun file =>
      if "RTAS/".toList.isPrefixOf file then TargetType.RTASPlugIn
      else TargetType.SharedCodeTarget,
    relativePath := fun file => file,
    hasCOrCppFileExtension := fun path => ".cpp".toList.isSuffixOf path,
    hasAsmFileExtension := fun path => ".asm".toList.isSuffixOf path,
    toWindowsStyle := fun path => path.map (fun c => if c = '/' then '\\' else c),
    getFileNameWithoutExtension := fun path =>
      let reversedName := path.reverse.takeWhile (fun c => c != '/')
      if '.' ∈ reversedName then ((reversedName.dropWhile (fun c => c != '.')).drop 1).reverse
      else reversedName.reverse }

/-- A group holding a source file, a header, a group with an RTAS wrapper file,
and a source file that is not to be compiled. -/
def demoCompileTree : Item :=
  Item.mk { id := "g".toList, name := "Source".toList, kind := ItemKind.group }
    [ Item.mk { id := "a".toList, name := "Main.cpp".toList, kind := ItemKind.file,
                filePath := "Source/Main.cpp".toList, shouldBeCompiled := true } [],
      Item.mk { id := "b".toList, name := "Main.h".toList, kind := ItemKind.file,
                filePath := "Source/Main.h".toList, shouldBeCompiled := true } [],
      Item.mk { id := "h".toList, name := "RTAS".toList, kind := ItemKind.group }
        [ Item.mk { id := "c".toList, name := "wrapper".toList, kind := ItemKind.file,
                    filePath := "RTAS/JUCE_audio_plugin_client_rtas_1.cpp".toList,
                    shouldBeCompiled := true } [] ],
      Item.mk { id := "d".toList, name := "Skipped.cpp".toList, kind := ItemKind.file,
                filePath := "Source/Skipped.cpp".toList } [] ]


/-- The defines of a command-line project: the global extra defines are those
set by `addPlatformSpecificSettingsForProjectType`, and the project defines
`_LIB=1` and `JUCE_APP`. -/
def consoleOwner : DefsOwner :=
  { msvcExtraPreprocessorDefs :=
      addPlatformSpecificSettingsForProjectType true { pairs := [] },
    getAllPreprocessorDefs := fun _ _ =>
      { pairs := [("_LIB".toList, "1".toList), ("JUCE_APP".toList, [])] },
    aaxLibsRebasedPath := [],
    rtasWinBagRebasedPath := [] }


/-! # Theorems -/

/-! ## Lemmas on strings and tokens -/

theorem tokenLoop_eq_go (breakCharacters : Str) (text cur : Str) :
    tokenLoop breakCharacters text cur
      = List.splitOnP.go (fun c => breakCharacters.contains c) text cur.reverse := by
  induction text generalizing cur with
  | nil => simp [tokenLoop, List.splitOnP.go]
  | cons c cs ih =>
    simp only [tokenLoop, List.splitOnP.go]
    split
    · simp [ih]
    · rw [ih]; simp

theorem tokenLoop_eq_splitOnP (breakCharacters : Str) (text : Str) :
    tokenLoop breakCharacters text [] = text.splitOnP (fun c => breakCharacters.contains c) := by
  rw [tokenLoop_eq_go]; rfl

theorem trim_any_nonWhitespace (s : Str) :
    containsNonWhitespaceChars (trim s) = decide (trim s ≠ []) := by
  unfold containsNonWhitespaceChars
  by_cases h : trim s = []
  · simp [h]
  · simp only [h, ne_eq, not_false_eq_true, decide_True]
    unfold trim trimEnd at h ⊢
    set t := trimStart s with ht
    have h2 : t.reverse.dropWhile isWhitespace ≠ [] := by
      intro hc; apply h; simp [hc]
    rw [List.any_eq_true]
    obtain ⟨c, cs, hcs⟩ := List.exists_cons_of_ne_nil h2
    refine ⟨c, ?_, ?_⟩
    · simp [hcs]
    · have := List.head_dropWhile_not isWhitespace t.reverse h2
      simp only [hcs, List.head_cons] at this
      simp [this]

theorem padVersionParts_four (parts : StringArray) :
    padVersionParts 4 parts = parts ++ List.replicate (4 - parts.length) "0".toList := by
  rcases parts with _ | ⟨a, _ | ⟨b, _ | ⟨c, _ | ⟨d, rest⟩⟩⟩⟩ <;>
    simp [padVersionParts, List.replicate]

theorem versionParts_eq_versionTokens (version : Str) :
    ((StringArray.addTokens [] version ",.".toList).trim).removeEmptyStrings
      = versionTokens version := by
  have hbreak : (fun c : Char => (",.".toList).contains c) = (fun c => c == ',' || c == '.') := by
    funext c
    simp only [List.contains, List.elem]
    cases c == ',' <;> cases c == '.' <;> rfl
  have hfilter : ∀ l : List Str, (l.map trim).filter containsNonWhitespaceChars
      = (l.map trim).filter (fun t => t ≠ []) := by
    intro l
    induction l with
    | nil => rfl
    | cons a l ih =>
      simp only [List.map_cons, List.filter_cons, trim_any_nonWhitespace, ih]
  unfold StringArray.addTokens StringArray.trim StringArray.removeEmptyStrings versionTokens
  by_cases hv : version = []
  · subst hv
    simp [List.splitOnP, List.splitOnP.go, trim, trimEnd, trimStart]
  · have : version.isEmpty = false := by cases version <;> simp_all
    simp only [this, Bool.false_eq_true, if_false, List.nil_append, tokenLoop_eq_splitOnP, hbreak]
    exact hfilter _

/-! ## ValueTree lemmas -/

theorem getProperty_setProperty_same (t : ValueTree) (name : Identifier) (v : Var) :
    (t.setProperty name v).getProperty name = v := by
  induction t with
  | nil => simp [ValueTree.setProperty, ValueTree.getProperty]
  | cons p rest ih =>
    obtain ⟨k, w⟩ := p
    by_cases h : k = name
    · simp [ValueTree.setProperty, ValueTree.getProperty, h]
    · simp [ValueTree.setProperty, ValueTree.getProperty, h, ih]

theorem getProperty_setProperty_ne (t : ValueTree) (name other : Identifier) (v : Var)
    (hne : name ≠ other) :
    (t.setProperty name v).getProperty other = t.getProperty other := by
  induction t with
  | nil => simp [ValueTree.setProperty, ValueTree.getProperty, hne]
  | cons p rest ih =>
    obtain ⟨k, w⟩ := p
    by_cases h : k = name
    · subst h
      simp [ValueTree.setProperty, ValueTree.getProperty, hne]
    · by_cases h2 : k = other
      · subst h2
        simp [ValueTree.setProperty, ValueTree.getProperty, h]
      · simp [ValueTree.setProperty, ValueTree.getProperty, h, h2, ih]

theorem new_getProperty_winWarningLevel (settings : ValueTree) :
    (MSVCBuildConfiguration.new settings).config.getProperty Ids.winWarningLevel
      = (if (settings.getProperty Ids.winWarningLevel).toInt = 0 then Var.int 4
         else settings.getProperty Ids.winWarningLevel) := by
  have hne : Ids.generateManifest ≠ Ids.winWarningLevel := by decide
  simp only [MSVCBuildConfiguration.new, MSVCBuildConfiguration.getWarningLevel, setValueIfVoid]
  by_cases h : (settings.getProperty Ids.winWarningLevel).toInt = 0
  · simp only [h, if_true]
    by_cases h2 : ((settings.setProperty Ids.winWarningLevel (Var.int 4)).getProperty
        Ids.generateManifest).isVoid = true
    · simp [h2, getProperty_setProperty_ne _ _ _ _ hne, getProperty_setProperty_same]
    · simp [h2, getProperty_setProperty_same]
  · simp only [h, if_false]
    by_cases h2 : (settings.getProperty Ids.generateManifest).isVoid = true
    · simp [h2, getProperty_setProperty_ne _ _ _ _ hne]
    · simp [h2]

theorem new_getProperty_generateManifest (settings : ValueTree) :
    (MSVCBuildConfiguration.new settings).config.getProperty Ids.generateManifest
      = (if (settings.getProperty Ids.generateManifest).isVoid then Var.bool true
         else settings.getProperty Ids.generateManifest) := by
  have hne : Ids.winWarningLevel ≠ Ids.generateManifest := by decide
  simp only [MSVCBuildConfiguration.new, MSVCBuildConfiguration.getWarningLevel, setValueIfVoid]
  by_cases h : (settings.getProperty Ids.winWarningLevel).toInt = 0
  · simp only [h, if_true, getProperty_setProperty_ne _ _ _ _ hne]
    by_cases h2 : (settings.getProperty Ids.generateManifest).isVoid = true
    · simp [h2, getProperty_setProperty_same]
    · simp [h2, getProperty_setProperty_ne _ _ _ _ hne]
  · simp only [h, if_false]
    by_cases h2 : (settings.getProperty Ids.generateManifest).isVoid = true
    · simp [h2, getProperty_setProperty_same]
    · simp [h2]

theorem hasTarget_iff (targets : Targets) (type : TargetType) :
    hasTarget targets type = true ↔ ∃ t ∈ targets, t.type = type := by
  induction targets with
  | nil => simp [hasTarget]
  | cons t rest ih =>
    by_cases h : t.type = type
    · simp [hasTarget, h]
    · simp [hasTarget, h, ih]

/-! ## Lemmas on the project declarations -/

theorem createGUID_ne_nil (md5Hex : Str → Str) (seed : Str) : createGUID md5Hex seed ≠ [] := by
  simp [createGUID]

theorem writeProjectBlock_append (projectName g : Str) (t : MSVCTargetBase) (out : TextStream) :
    writeProjectBlock projectName g t out = out ++ writeProjectBlock projectName g t [] := by
  unfold writeProjectBlock
  split <;> simp

theorem writeProjectBlocks_eq (projectName g : Str) (targets : Targets) (out : TextStream) :
    writeProjectBlocks projectName g targets out
      = out ++ (targets.map (fun t => writeProjectBlock projectName g t [])).flatten := by
  induction targets generalizing out with
  | nil => simp [writeProjectBlocks]
  | cons t rest ih =>
    rw [writeProjectBlocks, ih, writeProjectBlock_append]
    simp

theorem getSharedCodeGuid_eq (targets : Targets) :
    getSharedCodeGuid targets
      = match getSharedCodeTarget targets with
        | some s => s.projectGuid
        | none => [] := by
  induction targets with
  | nil => rfl
  | cons t rest ih =>
    by_cases h : t.type = TargetType.SharedCodeTarget
    · simp [getSharedCodeGuid, getSharedCodeTarget, h]
    · simp [getSharedCodeGuid, getSharedCodeTarget, h, ih]

theorem getSharedCodeTarget_some_of_hasTarget (targets : Targets)
    (h : hasTarget targets TargetType.SharedCodeTarget = true) :
    ∃ s ∈ targets, s.type = TargetType.SharedCodeTarget ∧ getSharedCodeTarget targets = some s := by
  induction targets with
  | nil => simp [hasTarget] at h
  | cons t rest ih =>
    by_cases ht : t.type = TargetType.SharedCodeTarget
    · exact ⟨t, List.mem_cons_self _ _, ht, by simp [getSharedCodeTarget, ht]⟩
    · simp only [hasTarget, ht, if_false] at h
      obtain ⟨s, hs, hst, hget⟩ := ih h
      exact ⟨s, List.mem_cons_of_mem _ hs, hst, by simp [getSharedCodeTarget, ht, hget]⟩

theorem getSharedCodeTarget_none_of_not_hasTarget (targets : Targets)
    (h : hasTarget targets TargetType.SharedCodeTarget = false) :
    getSharedCodeTarget targets = none := by
  induction targets with
  | nil => rfl
  | cons t rest ih =>
    by_cases ht : t.type = TargetType.SharedCodeTarget
    · simp [hasTarget, ht] at h
    · simp only [hasTarget, ht, if_false] at h
      simp [getSharedCodeTarget, ht, ih h]

theorem getSharedCodeGuid_ne_nil_iff (md5Hex : Str → Str) (projectUID : Str) (targets : Targets)
    (hguid : ∀ t ∈ targets, t.projectGuid = createGUID md5Hex (projectUID ++ t.name)) :
    getSharedCodeGuid targets ≠ [] ↔ hasTarget targets TargetType.SharedCodeTarget = true := by
  rw [getSharedCodeGuid_eq]
  cases h : hasTarget targets TargetType.SharedCodeTarget
  · simp [getSharedCodeTarget_none_of_not_hasTarget targets h]
  · obtain ⟨s, hs, _, hget⟩ := getSharedCodeTarget_some_of_hasTarget targets h
    simp [hget, hguid s hs, createGUID_ne_nil]

theorem projectLine_ne_dependencySectionLine (projectName : Str) (t : MSVCTargetBase) :
    projectLine projectName t ≠ dependencySectionLine := by
  intro h
  have h2 := congrArg List.head? h
  simp [projectLine, dependencySectionLine] at h2

theorem writeProjectBlock_count (projectName g : Str) (t : MSVCTargetBase) :
    (writeProjectBlock projectName g t []).count dependencySectionLine
      = if g ≠ [] ∧ t.type ≠ TargetType.SharedCodeTarget then 1 else 0 := by
  have h1 := projectLine_ne_dependencySectionLine projectName t
  have h2 : "EndProject".toList ≠ dependencySectionLine := by decide
  have h3 : "\tEndProjectSection".toList ≠ dependencySectionLine := by decide
  have h4 : "\t\t".toList ++ g ++ " = ".toList ++ g ≠ dependencySectionLine := by
    intro h
    have h5 := congrArg (fun l => l.drop 1 |>.head?) h
    simp [dependencySectionLine] at h5
  unfold writeProjectBlock
  split
  · simp only [List.nil_append, List.cons_append, List.count_cons, List.count_nil, beq_iff_eq,
      h1, h2, h3, h4, if_false]
    simp [dependencySectionLine]
  · simp only [List.nil_append, List.cons_append, List.count_cons, List.count_nil, beq_iff_eq,
      h1, h2, if_false]

theorem writeProjectBlocks_count (projectName g : Str) (targets : Targets) :
    ((targets.map (fun t => writeProjectBlock projectName g t [])).flatten).count
        dependencySectionLine
      = if g ≠ [] then (targets.filter (fun t => t.type ≠ TargetType.SharedCodeTarget)).length
        else 0 := by
  induction targets with
  | nil => simp
  | cons t rest ih =>
    simp only [List.map_cons, List.flatten_cons, List.count_append, ih, writeProjectBlock_count,
      List.filter_cons]
    by_cases hg : g = [] <;> by_cases ht : t.type = TargetType.SharedCodeTarget <;>
      simp [hg, ht]
    omega

/-! ## Lemmas on the icon file -/

theorem readInt_writeInt (v : Int) (rest : Bytes) :
    readInt (writeInt [] v ++ rest) = (v % 4294967296).toNat := by
  simp only [readInt, writeInt, List.nil_append, List.cons_append, List.getD_cons_zero,
    List.getD_cons_succ]
  omega

theorem wrapInt32_emod (x : Int) : wrapInt32 x % 4294967296 = x % 4294967296 := by
  unfold wrapInt32
  simp only
  split <;> omega

theorem wrapInt32_of_lt (x : Nat) (h : x < 2147483648) : wrapInt32 x = x := by
  unfold wrapInt32
  simp only
  split <;> omega

theorem foldl_appends {α : Type} (f : Bytes → α → Bytes)
    (hf : ∀ out x, f out x = out ++ f [] x) (xs : List α) (out : Bytes) :
    xs.foldl f out = out ++ xs.foldl f [] := by
  induction xs generalizing out with
  | nil => simp
  | cons x xs ih =>
    simp only [List.foldl_cons]
    rw [ih (f out x), ih (f [] x), hf out x, List.append_assoc]

theorem writeByte_append (out : Bytes) (v : Int) : writeByte out v = out ++ writeByte [] v := by
  simp [writeByte]

theorem writeShort_append (out : Bytes) (v : Int) : writeShort out v = out ++ writeShort [] v := by
  simp [writeShort]

theorem writeInt_append (out : Bytes) (v : Int) : writeInt out v = out ++ writeInt [] v := by
  simp [writeInt]

theorem writeColourRow_append (image : Image) (w y : Nat) (out : Bytes) :
    writeColourRow image w y out = out ++ writeColourRow image w y [] := by
  unfold writeColourRow
  apply foldl_appends
  intro o x
  by_cases h : (image.pixel x y).alpha ≤ alphaThreshold
  · simp [h, writeInt]
  · simp [h, writeByte]

theorem maskStep_fold_append (image : Image) (y : Nat) (xs : List Nat) (out : Bytes)
    (mask count : Nat) :
    xs.foldl (maskStep image y) (out, mask, count)
      = (out ++ (xs.foldl (maskStep image y) ([], mask, count)).1,
          (xs.foldl (maskStep image y) ([], mask, count)).2) := by
  induction xs generalizing out mask count with
  | nil => simp
  | cons x xs ih =>
    simp only [List.foldl_cons]
    by_cases h : count + 1 = 8
    · have h1 : ∀ o, maskStep image y (o, mask, count) x
          = (writeByte o (if (image.pixel x y).alpha ≤ alphaThreshold
              then ((mask <<< 1 ||| 1 : Nat) : Int) else ((mask <<< 1 : Nat) : Int)), 0, 0) := by
        intro o
        simp only [maskStep, h, if_true]
        split <;> rfl
      rw [h1 out, h1 [], ih, ih (writeByte [] _), writeByte_append out]
      simp
    · have h1 : ∀ o, maskStep image y (o, mask, count) x
          = (o, (if (image.pixel x y).alpha ≤ alphaThreshold
              then (mask <<< 1 ||| 1) else (mask <<< 1)), count + 1) := by
        intro o
        simp only [maskStep, h, if_false]
      rw [h1 out, h1 [], ih]

theorem writeMaskRow_append (image : Image) (w y : Nat) (out : Bytes) :
    writeMaskRow image w y out = out ++ writeMaskRow image w y [] := by
  unfold writeMaskRow
  rw [maskStep_fold_append]
  simp only
  rw [foldl_appends (fun o (_ : Nat) => writeByte o 0) (fun o _ => writeByte_append o 0)]
  conv_rhs => rw [foldl_appends (fun o (_ : Nat) => writeByte o 0) (fun o _ => writeByte_append o 0)]
  split
  · rw [writeByte_append]
    conv_rhs => rw [writeByte_append]
    simp
  · simp

theorem writeBMPImage_append (image : Image) (w h : Nat) (out : Bytes) :
    writeBMPImage image w h out = out ++ writeBMPImage image w h [] := by
  unfold writeBMPImage
  simp only
  rw [foldl_appends (fun o y => writeMaskRow image w y o) (fun o y => writeMaskRow_append image w y o)]
  conv_rhs => rw [foldl_appends (fun o y => writeMaskRow image w y o)
    (fun o y => writeMaskRow_append image w y o)]
  rw [foldl_appends (fun o y => writeColourRow image w y o)
    (fun o y => writeColourRow_append image w y o)]
  conv_rhs => rw [foldl_appends (fun o y => writeColourRow image w y o)
    (fun o y => writeColourRow_append image w y o)]
  simp [writeInt, writeShort]

theorem imageData_append (png : Image → Bytes) (image : Image) (dataBlock : Bytes) :
    (if image.width ≥ 256 ∨ image.height ≥ 256 then dataBlock ++ png image
      else writeBMPImage image image.width image.height dataBlock)
      = dataBlock ++ imageData png image := by
  unfold imageData
  split
  · rfl
  · exact writeBMPImage_append _ _ _ _

theorem writeIconEntry_eq (png : Image → Bytes) (start : Int) (image : Image)
    (out dataBlock : Bytes) :
    writeIconEntry png start image (out, dataBlock)
      = (out ++ dirEntry image.width image.height (wrapInt32 ((imageData png image).length))
            (wrapInt32 (start + wrapInt32 dataBlock.length)),
          dataBlock ++ imageData png image) := by
  unfold writeIconEntry
  simp only [imageData_append]
  have hlen : ((dataBlock ++ imageData png image).length : Int) - (dataBlock.length : Int)
      = ((imageData png image).length : Int) := by
    simp
  rw [hlen]
  simp [dirEntry, writeInt, writeShort, writeByte]

theorem writeIconEntries_eq (png : Image → Bytes) (start : Int) (images : List Image)
    (out dataBlock : Bytes) :
    images.foldl (fun s image => writeIconEntry png start image s) (out, dataBlock)
      = (out ++ (dirEntries png start dataBlock.length images).flatten,
          dataBlock ++ (images.map (imageData png)).flatten) := by
  induction images generalizing out dataBlock with
  | nil => simp [dirEntries]
  | cons image rest ih =>
    simp only [List.foldl_cons, writeIconEntry_eq, ih, dirEntries, List.length_append,
      List.map_cons, List.flatten_cons, List.append_assoc]

theorem dirEntries_append (png : Image → Bytes) (start : Int) (old : Nat)
    (pre post : List Image) :
    dirEntries png start old (pre ++ post)
      = dirEntries png start old pre ++ dirEntries png start (old + dataSize png pre) post := by
  induction pre generalizing old with
  | nil => simp [dirEntries, dataSize]
  | cons image rest ih =>
    rw [List.cons_append, dirEntries, dirEntries, ih, List.cons_append]
    simp only [dataSize, List.map_cons, List.sum_cons, Nat.add_assoc]

theorem dirEntry_length (w h : Nat) (size offset : Int) : (dirEntry w h size offset).length = 16 := by
  simp [dirEntry, writeInt, writeShort, writeByte]

theorem dirEntries_flatten_length (png : Image → Bytes) (start : Int) (old : Nat)
    (images : List Image) :
    ((dirEntries png start old images).flatten).length = 16 * images.length := by
  induction images generalizing old with
  | nil => simp [dirEntries]
  | cons image rest ih =>
    simp only [dirEntries, List.flatten_cons, List.length_append, dirEntry_length, ih,
      List.length_cons]
    omega

theorem dataSize_eq_length (png : Image → Bytes) (images : List Image) :
    ((images.map (imageData png)).flatten).length = dataSize png images := by
  simp [dataSize, List.length_flatten, List.map_map, Function.comp_def]

theorem dataSize_append (png : Image → Bytes) (pre post : List Image) :
    dataSize png (pre ++ post) = dataSize png pre + dataSize png post := by
  simp [dataSize]

theorem iconHeader_length (n : Int) :
    (writeShort (writeShort (writeShort [] 0) 1) n).length = 6 := by
  simp [writeShort]

theorem writeIconDirectory_eq (png : Image → Bytes) (images : List Image) (out : Bytes) :
    writeIconDirectory png images out
      = (out ++ writeShort (writeShort (writeShort [] 0) 1) (wrapInt32 images.length)
            ++ (dirEntries png (dataBlockStart images) 0 images).flatten,
          (images.map (imageData png)).flatten) := by
  unfold writeIconDirectory
  simp only [writeIconEntries_eq, List.length_nil, List.nil_append]
  simp [writeShort]

theorem dirEntries_cons (png : Image → Bytes) (start : Int) (old : Nat) (image : Image)
    (post : List Image) :
    dirEntries png start old (image :: post)
      = dirEntry image.width image.height (wrapInt32 ((imageData png image).length))
            (wrapInt32 (start + wrapInt32 old))
          :: dirEntries png start (old + (imageData png image).length) post := by
  rw [dirEntries]

theorem writeIconFile_of_directory (png : Image → Bytes) (images : List Image) (x y : Bytes)
    (h : writeIconDirectory png images [] = (x, y)) :
    writeIconFile png images [] = x ++ y := by
  unfold writeIconFile
  rw [h]

/-- The icon file of `pre ++ image :: post`, cut at the directory entry and at
the data of `image`. -/
theorem writeIconFile_split (png : Image → Bytes) (pre post : List Image) (image : Image) :
    ∃ A B Dpre Dpost : Bytes,
      writeIconFile png (pre ++ image :: post) []
        = A ++ dirEntry image.width image.height (wrapInt32 ((imageData png image).length))
            (wrapInt32 (dataBlockStart (pre ++ image :: post) + wrapInt32 (dataSize png pre)))
          ++ B ++ Dpre ++ imageData png image ++ Dpost
      ∧ A.length = 6 + 16 * pre.length
      ∧ B.length = 16 * post.length
      ∧ Dpre.length = dataSize png pre := by
  refine ⟨writeShort (writeShort (writeShort [] 0) 1) (wrapInt32 (pre ++ image :: post).length)
      ++ (dirEntries png (dataBlockStart (pre ++ image :: post)) 0 pre).flatten,
    (dirEntries png (dataBlockStart (pre ++ image :: post))
      (dataSize png pre + (imageData png image).length) post).flatten,
    (pre.map (imageData png)).flatten, (post.map (imageData png)).flatten, ?_, ?_, ?_, ?_⟩
  · rw [writeIconFile_of_directory png _ _ _ (writeIconDirectory_eq png _ []),
      dirEntries_append, Nat.zero_add, dirEntries_cons]
    generalize writeShort (writeShort (writeShort [] 0) 1)
      (wrapInt32 (pre ++ image :: post).length) = hdr
    generalize dirEntry image.width image.height (wrapInt32 ((imageData png image).length))
      (wrapInt32 (dataBlockStart (pre ++ image :: post) + wrapInt32 (dataSize png pre))) = entry
    simp only [List.flatten_append, List.flatten_cons, List.map_append, List.map_cons,
      List.append_assoc, List.nil_append]
  · rw [List.length_append, iconHeader_length, dirEntries_flatten_length]
  · exact dirEntries_flatten_length _ _ _ _
  · exact dataSize_eq_length _ _

theorem readInt_dirEntry_size (w h : Nat) (size offset : Int) (rest : Bytes) :
    readInt ((dirEntry w h size offset ++ rest).drop 8) = (size % 4294967296).toNat := by
  simp only [dirEntry, writeInt, writeShort, writeByte, List.nil_append, List.cons_append,
    List.drop_succ_cons, List.drop_zero, readInt, List.getD_cons_zero, List.getD_cons_succ]
  omega

theorem readInt_dirEntry_offset (w h : Nat) (size offset : Int) (rest : Bytes) :
    readInt ((dirEntry w h size offset ++ rest).drop 12) = (offset % 4294967296).toNat := by
  simp only [dirEntry, writeInt, writeShort, writeByte, List.nil_append, List.cons_append,
    List.drop_succ_cons, List.drop_zero, readInt, List.getD_cons_zero, List.getD_cons_succ]
  omega

theorem split_at_index (images : List Image) (i : Nat) (image : Image)
    (h : images[i]? = some image) :
    images = images.take i ++ image :: images.drop (i + 1) ∧ (images.take i).length = i := by
  obtain ⟨hlt, hget⟩ := List.getElem?_eq_some.mp h
  constructor
  · rw [← hget, ← List.drop_eq_getElem_cons hlt, List.take_append_drop]
  · rw [List.length_take]; omega

/-- The fields of the directory entry of `image` in the icon file of
`pre ++ image :: post`, and the bytes found at the declared position. -/
theorem writeIconFile_entry (png : Image → Bytes) (pre post : List Image) (image : Image)
    (hfit : 6 + 16 * (pre ++ image :: post).length + dataSize png (pre ++ image :: post)
      < 4294967296) :
    declaredLength (writeIconFile png (pre ++ image :: post) []) pre.length
        = (imageData png image).length
      ∧ declaredOffset (writeIconFile png (pre ++ image :: post) []) pre.length
        = 6 + 16 * (pre ++ image :: post).length + dataSize png pre
      ∧ ((writeIconFile png (pre ++ image :: post) []).drop
            (6 + 16 * (pre ++ image :: post).length + dataSize png pre)).take
          (imageData png image).length = imageData png image := by
  obtain ⟨A, B, Dpre, Dpost, hfile, hA, hB, hD⟩ := writeIconFile_split png pre post image
  have hsize : dataSize png (pre ++ image :: post)
      = dataSize png pre + ((imageData png image).length + dataSize png post) := by
    rw [dataSize_append]
    simp [dataSize]
  have hlen : (pre ++ image :: post).length = pre.length + 1 + post.length := by
    simp; omega
  rw [hsize] at hfit
  refine ⟨?_, ?_, ?_⟩
  · unfold declaredLength
    rw [hfile, ← hA]
    simp only [List.append_assoc, Nat.add_assoc, List.drop_append]
    rw [readInt_dirEntry_size, wrapInt32_emod]
    omega
  · unfold declaredOffset
    rw [hfile, ← hA]
    simp only [List.append_assoc, Nat.add_assoc, List.drop_append]
    rw [readInt_dirEntry_offset, wrapInt32_emod]
    have h1 := wrapInt32_emod (6 + ((pre ++ image :: post).length : Int) * 16)
    have h2 := wrapInt32_emod (dataSize png pre : Int)
    unfold dataBlockStart
    rw [hlen] at hfit h1 ⊢
    omega
  · rw [hfile]
    have hpos : 6 + 16 * (pre ++ image :: post).length + dataSize png pre
        = (A ++ dirEntry image.width image.height (wrapInt32 ((imageData png image).length))
            (wrapInt32 (dataBlockStart (pre ++ image :: post) + wrapInt32 (dataSize png pre)))
          ++ B ++ Dpre).length + 0 := by
      simp only [List.length_append, hA, hB, hD, dirEntry_length, hlen]
      omega
    rw [hpos]
    simp only [List.append_assoc]
    have hassoc : ∀ (a b c d e f : Bytes),
        a ++ (b ++ (c ++ (d ++ (e ++ f)))) = (a ++ (b ++ (c ++ d))) ++ (e ++ f) := by
      intros; simp
    rw [hassoc, List.drop_append, List.drop_zero]
    exact List.take_left _ _

/-! ## Lemmas on version components -/

theorem mem_trim (s : Str) (x : Char) (h : x ∈ trim s) : x ∈ s := by
  unfold trim trimEnd trimStart at h
  rw [List.mem_reverse] at h
  have h1 := (List.dropWhile_sublist isWhitespace).subset h
  rw [List.mem_reverse] at h1
  exact (List.dropWhile_sublist isWhitespace).subset h1

theorem splitOnP_no_separator (p : Char → Bool) (l : Str) :
    ∀ t ∈ l.splitOnP p, ∀ x ∈ t, p x = false := by
  induction l with
  | nil => simp [List.splitOnP_nil]
  | cons a l ih =>
    rw [List.splitOnP_cons]
    by_cases ha : p a = true
    · simp only [ha, if_true, List.mem_cons]
      rintro t (rfl | ht) x hx
      · simp at hx
      · exact ih t ht x hx
    · simp only [ha, Bool.false_eq_true, if_false]
      cases hsplit : List.splitOnP p l with
      | nil => simp [List.modifyHead]
      | cons hd tl =>
        rw [hsplit] at ih
        simp only [List.modifyHead, List.mem_cons]
        rintro t (rfl | ht) x hx
        · rcases List.mem_cons.mp hx with rfl | hx
          · simpa using ha
          · exact ih hd (List.mem_cons_self _ _) x hx
        · exact ih t (List.mem_cons_of_mem _ ht) x hx

theorem versionTokens_no_comma (version : Str) : ∀ t ∈ versionTokens version, ',' ∉ t := by
  intro t ht hc
  unfold versionTokens at ht
  rw [List.mem_filter, List.mem_map] at ht
  obtain ⟨⟨u, hu, rfl⟩, _⟩ := ht
  have h1 := splitOnP_no_separator _ version u hu ',' (mem_trim u ',' hc)
  simp at h1

theorem components_getCommaSeparatedVersionNumber (version : Str) :
    commaSeparatedComponents (getCommaSeparatedVersionNumber version)
      = versionTokens version
          ++ List.replicate (4 - (versionTokens version).length) "0".toList := by
  unfold getCommaSeparatedVersionNumber commaSeparatedComponents
  simp only [versionParts_eq_versionTokens, padVersionParts_four, StringArray.joinIntoString]
  apply List.splitOn_intercalate
  · intro l hl
    rcases List.mem_append.mp hl with h | h
    · exact versionTokens_no_comma version l h
    · rw [List.mem_replicate] at h
      rw [h.2]
      decide
  · intro hnil
    have h := congrArg List.length hnil
    rw [List.length_append, List.length_replicate, List.length_nil] at h
    omega

/-! ## Lemmas on the migration of old settings -/

theorem removeProperty_cons (k : Identifier) (w : Var) (rest : ValueTree) (name : Identifier) :
    ValueTree.removeProperty ((k, w) :: rest) name
      = if k = name then ValueTree.removeProperty rest name
        else (k, w) :: ValueTree.removeProperty rest name := by
  unfold ValueTree.removeProperty
  by_cases h : k = name
  · rw [if_pos h, List.filter_cons_of_neg (by simp [h])]
  · rw [if_neg h, List.filter_cons_of_pos (by simp [h])]

theorem getProperty_removeProperty_same (t : ValueTree) (name : Identifier) :
    (t.removeProperty name).getProperty name = Var.void := by
  induction t with
  | nil => rfl
  | cons p rest ih =>
    obtain ⟨k, w⟩ := p
    rw [removeProperty_cons]
    by_cases h : k = name
    · rw [if_pos h]; exact ih
    · rw [if_neg h, ValueTree.getProperty, if_neg h]; exact ih

theorem getProperty_removeProperty_ne (t : ValueTree) (name other : Identifier)
    (hne : name ≠ other) :
    (t.removeProperty name).getProperty other = t.getProperty other := by
  induction t with
  | nil => rfl
  | cons p rest ih =>
    obtain ⟨k, w⟩ := p
    rw [removeProperty_cons]
    by_cases h : k = name
    · have hk : ¬k = other := fun hc => hne (h.symm.trans hc)
      rw [if_pos h, ih, ValueTree.getProperty, if_neg hk]
    · rw [if_neg h]
      by_cases h2 : k = other
      · rw [ValueTree.getProperty, if_pos h2, ValueTree.getProperty, if_pos h2]
      · rw [ValueTree.getProperty, if_neg h2, ih, ValueTree.getProperty, if_neg h2]

theorem removeProperty_absent (t : ValueTree) (name : Identifier) :
    ∀ p ∈ t.removeProperty name, p.1 ≠ name := by
  intro p hp
  simp only [ValueTree.removeProperty, List.mem_filter, decide_eq_true_eq] at hp
  exact hp.2

theorem removeProperty_of_absent (t : ValueTree) (name : Identifier)
    (h : ∀ p ∈ t, p.1 ≠ name) : t.removeProperty name = t := by
  simp only [ValueTree.removeProperty, List.filter_eq_self, decide_eq_true_eq]
  exact h

theorem mem_removeProperty (t : ValueTree) (name : Identifier) (p : Identifier × Var)
    (h : p ∈ t.removeProperty name) : p ∈ t := by
  simp only [ValueTree.removeProperty, List.mem_filter] at h
  exact h.1

theorem new_getProperty_other (settings : ValueTree) (k : Identifier)
    (h1 : Ids.winWarningLevel ≠ k) (h2 : Ids.generateManifest ≠ k) :
    (MSVCBuildConfiguration.new settings).config.getProperty k = settings.getProperty k := by
  simp only [MSVCBuildConfiguration.new, MSVCBuildConfiguration.getWarningLevel, setValueIfVoid]
  by_cases h : (settings.getProperty Ids.winWarningLevel).toInt = 0
  · simp only [h, if_true]
    by_cases hv : ((settings.setProperty Ids.winWarningLevel (Var.int 4)).getProperty
        Ids.generateManifest).isVoid = true
    · simp only [hv, if_true]
      rw [getProperty_setProperty_ne _ _ _ _ h2, getProperty_setProperty_ne _ _ _ _ h1]
    · simp only [hv, Bool.false_eq_true, if_false]
      rw [getProperty_setProperty_ne _ _ _ _ h1]
  · simp only [h, if_false]
    by_cases hv : (settings.getProperty Ids.generateManifest).isVoid = true
    · simp only [hv, if_true]
      rw [getProperty_setProperty_ne _ _ _ _ h2]
    · simp only [hv, Bool.false_eq_true, if_false]

theorem new_idempotent (settings : ValueTree) :
    MSVCBuildConfiguration.new (MSVCBuildConfiguration.new settings).config
      = MSVCBuildConfiguration.new settings := by
  have hw := new_getProperty_winWarningLevel settings
  have hm := new_getProperty_generateManifest settings
  have hw0 : ((MSVCBuildConfiguration.new settings).config.getProperty
      Ids.winWarningLevel).toInt ≠ 0 := by
    rw [hw]
    by_cases h : (settings.getProperty Ids.winWarningLevel).toInt = 0
    · rw [if_pos h]; decide
    · rw [if_neg h]; exact h
  have hm0 : ((MSVCBuildConfiguration.new settings).config.getProperty
      Ids.generateManifest).isVoid = false := by
    rw [hm]
    by_cases h : (settings.getProperty Ids.generateManifest).isVoid = true
    · rw [if_pos h]; rfl
    · rw [if_neg h]; simpa using h
  generalize MSVCBuildConfiguration.new settings = c at hw0 hm0
  simp [MSVCBuildConfiguration.new, MSVCBuildConfiguration.getWarningLevel, hw0, hm0,
    setValueIfVoid]

theorem migratePrebuildCommand_configurations (e : ExporterSettings) :
    (migratePrebuildCommand e).configurations
      = e.configurations.map
          (migrateNodePrebuild (e.settings.getProperty Ids.prebuildCommand).toStr) := by
  unfold migratePrebuildCommand migrateNodePrebuild updateEachConfig
  by_cases h : (e.settings.getProperty Ids.prebuildCommand).toStr = []
  · simp [h]
  · simp [h]

theorem migrateLibraryNameDebug_configurations (e : ExporterSettings) :
    (migrateLibraryNameDebug e).configurations
      = e.configurations.map
          (migrateNodeDebug (e.settings.getProperty Ids.libraryName_Debug).toStr) := by
  unfold migrateLibraryNameDebug migrateNodeDebug updateEachConfig
  by_cases h : (e.settings.getProperty Ids.libraryName_Debug).toStr = []
  · simp [h]
  · simp only [h, ne_eq, not_false_eq_true, if_true]
    apply List.map_congr_left
    intro node _
    split <;> rfl

theorem migrateLibraryNameRelease_configurations (e : ExporterSettings) :
    (migrateLibraryNameRelease e).configurations
      = e.configurations.map
          (migrateNodeRelease (e.settings.getProperty Ids.libraryName_Release).toStr) := by
  unfold migrateLibraryNameRelease migrateNodeRelease updateEachConfig
  by_cases h : (e.settings.getProperty Ids.libraryName_Release).toStr = []
  · simp [h]
  · simp only [h, ne_eq, not_false_eq_true, if_true]
    apply List.map_congr_left
    intro node _
    split <;> rfl

theorem updateOldSettings_settings (e : ExporterSettings) :
    (updateOldSettings e).settings
      = ((e.settings.removeProperty Ids.prebuildCommand).removeProperty
          Ids.libraryName_Debug).removeProperty Ids.libraryName_Release := rfl

theorem updateOldSettings_configurations (e : ExporterSettings) :
    (updateOldSettings e).configurations
      = e.configurations.map
          (migrateNode (e.settings.getProperty Ids.prebuildCommand).toStr
            (e.settings.getProperty Ids.libraryName_Debug).toStr
            (e.settings.getProperty Ids.libraryName_Release).toStr) := by
  have h1 : ((migratePrebuildCommand e).settings.getProperty Ids.libraryName_Debug)
      = e.settings.getProperty Ids.libraryName_Debug :=
    getProperty_removeProperty_ne _ _ _ (by decide)
  have h2 : ((migrateLibraryNameDebug (migratePrebuildCommand e)).settings.getProperty
      Ids.libraryName_Release) = e.settings.getProperty Ids.libraryName_Release := by
    show (((e.settings.removeProperty Ids.prebuildCommand).removeProperty
      Ids.libraryName_Debug).getProperty Ids.libraryName_Release) = _
    rw [getProperty_removeProperty_ne _ _ _ (by decide),
      getProperty_removeProperty_ne _ _ _ (by decide)]
  unfold updateOldSettings
  rw [migrateLibraryNameRelease_configurations, migrateLibraryNameDebug_configurations,
    migratePrebuildCommand_configurations, h1, h2, List.map_map, List.map_map]
  rfl

theorem migrateNodePrebuild_getProperty (prebuild : Str) (node : ValueTree) (k : Identifier)
    (h1 : Ids.winWarningLevel ≠ k) (h2 : Ids.generateManifest ≠ k)
    (h3 : Ids.prebuildCommand ≠ k) :
    (migrateNodePrebuild prebuild node).getProperty k = node.getProperty k := by
  unfold migrateNodePrebuild
  by_cases h : prebuild = []
  · rw [if_neg (not_not.mpr h)]
  · rw [if_pos h, getProperty_setProperty_ne _ _ _ _ h3, new_getProperty_other _ _ h1 h2]

theorem migrateNodePrebuild_prebuild (prebuild : Str) (node : ValueTree) :
    (migrateNodePrebuild prebuild node).getProperty Ids.prebuildCommand
      = if prebuild ≠ [] then Var.string prebuild
        else node.getProperty Ids.prebuildCommand := by
  unfold migrateNodePrebuild
  by_cases h : prebuild = []
  · rw [if_neg (not_not.mpr h), if_neg (not_not.mpr h)]
  · rw [if_pos h, if_pos h, getProperty_setProperty_same]

theorem new_isDebug (node : ValueTree) :
    (MSVCBuildConfiguration.new node).isDebug = (node.getProperty Ids.isDebug).toBool := by
  unfold MSVCBuildConfiguration.isDebug
  rw [new_getProperty_other _ _ (by decide) (by decide)]

theorem migrateNodeDebug_getProperty (libDebug : Str) (node : ValueTree) (k : Identifier)
    (h1 : Ids.winWarningLevel ≠ k) (h2 : Ids.generateManifest ≠ k)
    (h3 : Ids.targetName ≠ k) :
    (migrateNodeDebug libDebug node).getProperty k = node.getProperty k := by
  unfold migrateNodeDebug
  by_cases h : libDebug = []
  · rw [if_neg (not_not.mpr h)]
  · rw [if_pos h]
    by_cases hd : (MSVCBuildConfiguration.new node).isDebug = true
    · rw [if_pos hd, getProperty_setProperty_ne _ _ _ _ h3, new_getProperty_other _ _ h1 h2]
    · rw [if_neg hd, new_getProperty_other _ _ h1 h2]

theorem migrateNodeDebug_targetName (libDebug : Str) (node : ValueTree) :
    (migrateNodeDebug libDebug node).getProperty Ids.targetName
      = if libDebug ≠ [] ∧ (node.getProperty Ids.isDebug).toBool = true
        then Var.string libDebug else node.getProperty Ids.targetName := by
  unfold migrateNodeDebug
  rw [new_isDebug]
  by_cases h : libDebug = []
  · rw [if_neg (not_not.mpr h), if_neg (fun hc => hc.1 h)]
  · rw [if_pos h]
    by_cases hd : (node.getProperty Ids.isDebug).toBool = true
    · rw [if_pos hd, if_pos ⟨h, hd⟩, getProperty_setProperty_same]
    · rw [if_neg hd, if_neg (fun hc => hd hc.2),
        new_getProperty_other _ _ (by decide) (by decide)]

theorem migrateNodeRelease_getProperty (libRelease : Str) (node : ValueTree) (k : Identifier)
    (h1 : Ids.winWarningLevel ≠ k) (h2 : Ids.generateManifest ≠ k)
    (h3 : Ids.targetName ≠ k) :
    (migrateNodeRelease libRelease node).getProperty k = node.getProperty k := by
  unfold migrateNodeRelease
  by_cases h : libRelease = []
  · rw [if_neg (not_not.mpr h)]
  · rw [if_pos h]
    by_cases hd : (!(MSVCBuildConfiguration.new node).isDebug) = true
    · rw [if_pos hd, getProperty_setProperty_ne _ _ _ _ h3, new_getProperty_other _ _ h1 h2]
    · rw [if_neg hd, new_getProperty_other _ _ h1 h2]

theorem migrateNodeRelease_targetName (libRelease : Str) (node : ValueTree) :
    (migrateNodeRelease libRelease node).getProperty Ids.targetName
      = if libRelease ≠ [] ∧ (node.getProperty Ids.isDebug).toBool = false
        then Var.string libRelease else node.getProperty Ids.targetName := by
  unfold migrateNodeRelease
  rw [new_isDebug]
  by_cases h : libRelease = []
  · rw [if_neg (not_not.mpr h), if_neg (fun hc => hc.1 h)]
  · rw [if_pos h]
    cases hd : (node.getProperty Ids.isDebug).toBool
    · rw [if_pos (by decide), if_pos ⟨h, rfl⟩, getProperty_setProperty_same]
    · rw [if_neg (by decide), if_neg (fun hc => Bool.noConfusion hc.2),
        new_getProperty_other _ _ (by decide) (by decide)]

theorem migrateNode_nil (node : ValueTree) : migrateNode [] [] [] node = node := rfl

/-! ## Lemmas on the solution file -/

theorem writeSolutionItems_eq (solutionItemPath : Str → Str) (children : List Item)
    (out : TextStream) (hasSubFiles : Bool) :
    writeSolutionItems solutionItemPath children (out, hasSubFiles)
      = (out ++ (if hasSubFiles = false ∧ solutionItemLines solutionItemPath children ≠ []
                 then ["\tProjectSection(SolutionItems) = preProject".toList] else [])
            ++ solutionItemLines solutionItemPath children,
          hasSubFiles || decide (solutionItemLines solutionItemPath children ≠ [])) := by
  induction children generalizing out hasSubFiles with
  | nil => simp [writeSolutionItems, solutionItemLines]
  | cons child rest ih =>
    by_cases hf : child.isFile = true
    · rw [writeSolutionItems, if_pos hf, ih]
      cases hasSubFiles <;> simp [solutionItemLines, List.filter_cons, hf]
    · rw [writeSolutionItems, if_neg hf, ih]
      simp [solutionItemLines, List.filter_cons, hf]

theorem folderBlock_eq (md5Hex : Str → Str) (solutionItemPath : Str → Str)
    (info : ItemInfo) (children : List Item) (out : TextStream) :
    (if (writeSolutionItems solutionItemPath children
          (out ++ [folderLine md5Hex info], false)).2 = true
      then (writeSolutionItems solutionItemPath children
          (out ++ [folderLine md5Hex info], false)).1 ++ ["\tEndProjectSection".toList]
      else (writeSolutionItems solutionItemPath children
          (out ++ [folderLine md5Hex info], false)).1) ++ ["EndProject".toList]
      = out ++ folderBlock md5Hex solutionItemPath (Item.mk info children) := by
  rw [writeSolutionItems_eq]
  unfold folderBlock
  by_cases h : solutionItemLines solutionItemPath children = []
  · simp [h, Item.children, Item.info]
  · simp [h, Item.children, Item.info]

mutual

theorem addSolutionFilesItem_eq (md5Hex : Str → Str) (solutionItemPath : Str → Str) :
    ∀ (item : Item) (parentGuid : Str) (s : TextStream × StringArray),
      addSolutionFilesItem md5Hex solutionItemPath item parentGuid s
        = (s.1 ++ (visitedGroups item).flatMap (folderBlock md5Hex solutionItemPath),
            s.2 ++ (childParentPairs item).map (relationEntry md5Hex)
              ++ (if parentGuid ≠ [] then
                    [groupGuid md5Hex item ++ " = ".toList ++ parentGuid] else []))
  | .mk info children, parentGuid, s => by
    have hguid : createGUID md5Hex info.id = groupGuid md5Hex (Item.mk info children) := rfl
    rw [addSolutionFilesItem]
    rw [folderBlock_eq, hguid,
      addSolutionFilesChildren_eq md5Hex solutionItemPath children (Item.mk info children)]
    rw [visitedGroups, childParentPairs]
    by_cases hp : parentGuid = []
    · simp [hp, List.flatMap_cons, List.flatMap_append]
    · simp [hp, List.flatMap_cons, List.flatMap_append, groupGuid, Item.info]

theorem addSolutionFilesChildren_eq (md5Hex : Str → Str) (solutionItemPath : Str → Str) :
    ∀ (children : List Item) (parent : Item) (s : TextStream × StringArray),
      addSolutionFilesChildren md5Hex solutionItemPath children (groupGuid md5Hex parent) s
        = (s.1 ++ (visitedGroupsList children).flatMap (folderBlock md5Hex solutionItemPath),
            s.2 ++ (childParentPairsList children parent).map (relationEntry md5Hex))
  | [], parent, s => by
    simp [addSolutionFilesChildren, visitedGroupsList, childParentPairsList]
  | child :: rest, parent, s => by
    rw [addSolutionFilesChildren, visitedGroupsList, childParentPairsList]
    by_cases hg : child.isGroup = true
    · rw [if_pos hg, if_pos hg, if_pos hg, addSolutionFilesItem_eq md5Hex solutionItemPath child,
        addSolutionFilesChildren_eq md5Hex solutionItemPath rest parent]
      have hne : groupGuid md5Hex parent ≠ [] := createGUID_ne_nil _ _
      simp [hne, List.flatMap_append, relationEntry]
    · rw [if_neg hg, if_neg hg, if_neg hg,
        addSolutionFilesChildren_eq md5Hex solutionItemPath rest parent]
      simp

end

theorem VC2010_new_idempotent (settings : ValueTree) :
    VC2010BuildConfiguration.new (VC2010BuildConfiguration.new settings).config
      = VC2010BuildConfiguration.new settings := by
  unfold VC2010BuildConfiguration.new
  by_cases h : ((MSVCBuildConfiguration.new settings).config.getProperty
      Ids.winArchitecture).toStr.isEmpty = true
  · simp only [h, if_true]
    have hother : ∀ k, Ids.winArchitecture ≠ k →
        ((MSVCBuildConfiguration.new settings).config.setProperty Ids.winArchitecture
          (Var.string "x64".toList)).getProperty k
          = (MSVCBuildConfiguration.new settings).config.getProperty k :=
      fun k hk => getProperty_setProperty_ne _ _ _ _ hk
    have hw : (((MSVCBuildConfiguration.new settings).config.setProperty Ids.winArchitecture
        (Var.string "x64".toList)).getProperty Ids.winWarningLevel).toInt ≠ 0 := by
      rw [hother _ (by decide), new_getProperty_winWarningLevel]
      by_cases h0 : (settings.getProperty Ids.winWarningLevel).toInt = 0
      · rw [if_pos h0]; decide
      · rw [if_neg h0]; exact h0
    have hm : (((MSVCBuildConfiguration.new settings).config.setProperty Ids.winArchitecture
        (Var.string "x64".toList)).getProperty Ids.generateManifest).isVoid = false := by
      rw [hother _ (by decide), new_getProperty_generateManifest]
      by_cases h0 : (settings.getProperty Ids.generateManifest).isVoid = true
      · rw [if_pos h0]; rfl
      · rw [if_neg h0]; simpa using h0
    have hnew : MSVCBuildConfiguration.new
        ((MSVCBuildConfiguration.new settings).config.setProperty Ids.winArchitecture
          (Var.string "x64".toList))
        = { config := (MSVCBuildConfiguration.new settings).config.setProperty
              Ids.winArchitecture (Var.string "x64".toList) } := by
      generalize (MSVCBuildConfiguration.new settings).config.setProperty Ids.winArchitecture
        (Var.string "x64".toList) = t at hw hm
      simp [MSVCBuildConfiguration.new, MSVCBuildConfiguration.getWarningLevel, hw, hm,
        setValueIfVoid]
    rw [hnew]
    have harch : (((MSVCBuildConfiguration.new settings).config.setProperty
        Ids.winArchitecture (Var.string "x64".toList)).getProperty
        Ids.winArchitecture).toStr.isEmpty = false := by
      rw [getProperty_setProperty_same]; rfl
    simp only [harch, Bool.false_eq_true, if_false]
  · simp only [h, Bool.false_eq_true, if_false]
    rw [new_idempotent]
    simp only [h, Bool.false_eq_true, if_false]

theorem forEachConfig_append (f : MSVCBuildConfiguration → Str) (nodes : List ValueTree)
    (out : TextStream) :
    forEachConfig (fun config o => o ++ [f config]) nodes out
      = (nodes.map (fun node => (VC2010BuildConfiguration.new node).config),
          out ++ nodes.map (fun node => f (VC2010BuildConfiguration.new node))) := by
  induction nodes generalizing out with
  | nil => simp [forEachConfig]
  | cons node rest ih =>
    rw [forEachConfig, ih]
    simp

theorem constructed_nodes_fixed (nodes : List ValueTree) :
    (nodes.map (fun node => (VC2010BuildConfiguration.new node).config)).map
        (fun node => (VC2010BuildConfiguration.new node).config)
      = nodes.map (fun node => (VC2010BuildConfiguration.new node).config) := by
  rw [List.map_map]
  apply List.map_congr_left
  intro node _
  simp only [Function.comp_apply, VC2010_new_idempotent]

theorem writeProjectConfigurations_eq (targets : Targets) (nodes : List ValueTree)
    (out : TextStream) :
    writeProjectConfigurations targets
        (nodes.map (fun node => (VC2010BuildConfiguration.new node).config)) out
      = (nodes.map (fun node => (VC2010BuildConfiguration.new node).config),
          out ++ targets.flatMap (fun target =>
            nodes.map (fun node =>
              projectConfigurationLine target (VC2010BuildConfiguration.new node)))) := by
  induction targets generalizing out with
  | nil => simp [writeProjectConfigurations]
  | cons target rest ih =>
    rw [writeProjectConfigurations, forEachConfig_append, constructed_nodes_fixed, ih]
    simp only [List.map_map, List.flatMap_cons, List.append_assoc, Prod.mk.injEq, true_and,
      List.append_cancel_left_eq]
    congr 1
    apply List.map_congr_left
    intro node _
    simp only [Function.comp_apply, VC2010_new_idempotent]

theorem addSolutionFilesLoop_eq (md5Hex : Str → Str) (solutionItemPath : Str → Str)
    (items : List Item) (s : TextStream × StringArray) :
    addSolutionFilesLoop md5Hex solutionItemPath items s
      = (s.1 ++ ((items.filter (fun item => item.getNumChildren > 0)).flatMap
              visitedGroups).flatMap (folderBlock md5Hex solutionItemPath),
          s.2 ++ ((items.filter (fun item => item.getNumChildren > 0)).flatMap
              childParentPairs).map (relationEntry md5Hex)) := by
  induction items generalizing s with
  | nil => simp [addSolutionFilesLoop]
  | cons item rest ih =>
    by_cases h : item.getNumChildren > 0
    · rw [addSolutionFilesLoop, if_pos h, ih, addSolutionFilesItem_eq]
      simp [List.filter_cons, h, List.flatMap_cons, List.flatMap_append]
    · rw [addSolutionFilesLoop, if_neg h, ih]
      simp [List.filter_cons, h]

theorem addSolutionFiles_eq (md5Hex : Str → Str) (solutionItemPath : Str → Str)
    (allGroups : List Item) (s : TextStream × StringArray) :
    addSolutionFiles md5Hex solutionItemPath allGroups s
      = (s.1 ++ ((topLevelContainers allGroups).flatMap visitedGroups).flatMap
              (folderBlock md5Hex solutionItemPath),
          s.2 ++ ((topLevelContainers allGroups).flatMap childParentPairs).map
              (relationEntry md5Hex)) := by
  unfold addSolutionFiles topLevelContainers
  rw [addSolutionFilesLoop_eq]

theorem writeSolutionFile_layout (owner : SolutionOwner) (out : TextStream)
    (versionString commentString : Str) :
    writeSolutionFile owner out versionString commentString
      = solutionProjectsPart owner out versionString commentString
        ++ (declaredContainers owner.allGroups).flatMap
            (folderBlock owner.md5Hex owner.solutionItemPath)
        ++ ["Global".toList,
            "\tGlobalSection(SolutionConfigurationPlatforms) = preSolution".toList]
        ++ owner.configurations.map
            (fun node => solutionConfigurationLine (VC2010BuildConfiguration.new node))
        ++ ["\tEndGlobalSection".toList,
            "\tGlobalSection(ProjectConfigurationPlatforms) = postSolution".toList]
        ++ owner.targets.flatMap (fun target =>
            owner.configurations.map (fun node =>
              projectConfigurationLine target (VC2010BuildConfiguration.new node)))
        ++ ["\tEndGlobalSection".toList,
            "\tGlobalSection(SolutionProperties) = preSolution".toList,
            "\t\tHideSolutionNode = FALSE".toList,
            "\tEndGlobalSection".toList]
        ++ nestedProjectsSection
            ((containerRelations owner.allGroups).map (relationEntry owner.md5Hex))
        ++ ["EndGlobal".toList] := by
  unfold writeSolutionFile solutionProjectsPart declaredContainers containerRelations
    nestedProjectsSection
  simp only []
  rw [addSolutionFiles_eq, forEachConfig_append, writeProjectConfigurations_eq]
  simp only [List.nil_append]
  split <;> simp only [List.append_assoc, List.append_nil]

theorem solutionConfigKey_eq (node : ValueTree) :
    solutionConfigKey node
      = (node.getProperty Ids.name).toStr ++ "|".toList
        ++ (if ((node.getProperty Ids.winArchitecture).toStr.isEmpty
                || (node.getProperty Ids.winArchitecture).equalsStr "x64".toList) = true
            then "x64".toList else "Win32".toList) := by
  have harch : (MSVCBuildConfiguration.new node).config.getProperty Ids.winArchitecture
      = node.getProperty Ids.winArchitecture :=
    new_getProperty_other node _ (by decide) (by decide)
  have hname : (MSVCBuildConfiguration.new node).config.getProperty Ids.name
      = node.getProperty Ids.name :=
    new_getProperty_other node _ (by decide) (by decide)
  unfold solutionConfigKey VC2010BuildConfiguration.new
  simp only [harch]
  by_cases h : (node.getProperty Ids.winArchitecture).toStr.isEmpty = true
  · simp only [h, if_true, Bool.true_or]
    unfold MSVCBuildConfiguration.createMSVCConfigName MSVCBuildConfiguration.getName
    simp only []
    rw [getProperty_setProperty_same,
      getProperty_setProperty_ne _ _ _ _ (by decide : Ids.winArchitecture ≠ Ids.name), hname]
    rfl
  · simp only [h, Bool.false_eq_true, if_false, Bool.false_or]
    unfold MSVCBuildConfiguration.createMSVCConfigName MSVCBuildConfiguration.getName
    rw [harch, hname]

theorem length_flatMap_map {α β γ : Type} (xs : List α) (ys : List β) (f : α → β → γ) :
    (xs.flatMap (fun x => ys.map (f x))).length = xs.length * ys.length := by
  induction xs with
  | nil => simp
  | cons x rest ih =>
    rw [List.flatMap_cons, List.length_append, ih, List.length_map, List.length_cons,
      Nat.succ_mul, Nat.add_comm]

theorem visitedGroupsList_eq (children : List Item) :
    visitedGroupsList children = (children.filter Item.isGroup).flatMap visitedGroups := by
  induction children with
  | nil => simp [visitedGroupsList]
  | cons child rest ih =>
    rw [visitedGroupsList, ih]
    by_cases hg : child.isGroup = true
    · simp [List.filter_cons, hg, List.flatMap_cons]
    · simp [List.filter_cons, hg]

theorem visitedGroups_eq (item : Item) :
    visitedGroups item = item :: (item.children.filter Item.isGroup).flatMap visitedGroups := by
  cases item with
  | mk info children => rw [visitedGroups, visitedGroupsList_eq]; rfl

theorem visitedGroups_cons_tail (item : Item) :
    visitedGroups item = item :: (visitedGroups item).tail := by
  cases item with
  | mk info children => rw [visitedGroups]; rfl

mutual

theorem childParentPairs_perm :
    ∀ item : Item, ((childParentPairs item).map Prod.fst).Perm (visitedGroups item).tail
  | .mk info children => by
    rw [childParentPairs, visitedGroups]
    exact childParentPairsList_perm children (Item.mk info children)

theorem childParentPairsList_perm :
    ∀ (children : List Item) (parent : Item),
      ((childParentPairsList children parent).map Prod.fst).Perm (visitedGroupsList children)
  | [], parent => by simp [childParentPairsList, visitedGroupsList]
  | child :: rest, parent => by
    rw [childParentPairsList, visitedGroupsList]
    by_cases hg : child.isGroup = true
    · rw [if_pos hg, if_pos hg, List.map_append, List.map_append]
      refine List.Perm.append ?_ (childParentPairsList_perm rest parent)
      rw [visitedGroups_cons_tail child]
      exact (List.perm_append_singleton _ _).trans
        (List.Perm.cons _ (childParentPairs_perm child))
    · rw [if_neg hg, if_neg hg]
      simpa using childParentPairsList_perm rest parent

end

mutual

theorem childParentPairs_mem :
    ∀ (item : Item) (pair : Item × Item), pair ∈ childParentPairs item →
      pair.1 ∈ pair.2.children ∧ pair.1.isGroup = true ∧ pair.2 ∈ visitedGroups item
  | .mk info children, pair, h => by
    rw [childParentPairs] at h
    rw [visitedGroups]
    rcases childParentPairsList_mem children (Item.mk info children) pair h with
      ⟨h2, h1, hg⟩ | ⟨h1, hg, h2⟩
    · refine ⟨?_, hg, ?_⟩
      · rw [h2]; exact h1
      · rw [h2]; exact List.mem_cons_self _ _
    · exact ⟨h1, hg, List.mem_cons_of_mem _ h2⟩

theorem childParentPairsList_mem :
    ∀ (children : List Item) (parent : Item) (pair : Item × Item),
      pair ∈ childParentPairsList children parent →
        (pair.2 = parent ∧ pair.1 ∈ children ∧ pair.1.isGroup = true)
        ∨ (pair.1 ∈ pair.2.children ∧ pair.1.isGroup = true
            ∧ pair.2 ∈ visitedGroupsList children)
  | [], parent, pair, h => by simp [childParentPairsList] at h
  | child :: rest, parent, pair, h => by
    rw [childParentPairsList] at h
    rw [visitedGroupsList]
    rcases List.mem_append.mp h with h | h
    · by_cases hg : child.isGroup = true
      · rw [if_pos hg] at h
        rw [if_pos hg]
        rcases List.mem_append.mp h with h | h
        · obtain ⟨h1, hg1, h2⟩ := childParentPairs_mem child pair h
          exact Or.inr ⟨h1, hg1, List.mem_append_left _ h2⟩
        · rw [List.mem_singleton] at h
          subst h
          exact Or.inl ⟨rfl, List.mem_cons_self _ _, hg⟩
      · rw [if_neg hg] at h
        simp at h
    · rcases childParentPairsList_mem rest parent pair h with ⟨h2, h1, hg⟩ | ⟨h1, hg, h2⟩
      · exact Or.inl ⟨h2, List.mem_cons_of_mem _ h1, hg⟩
      · exact Or.inr ⟨h1, hg, List.mem_append_right _ h2⟩

end

theorem containerRelations_perm (allGroups : List Item) :
    ((containerRelations allGroups).map Prod.fst).Perm
      ((topLevelContainers allGroups).flatMap (fun top => (visitedGroups top).tail)) := by
  unfold containerRelations
  induction topLevelContainers allGroups with
  | nil => simp
  | cons top rest ih =>
    rw [List.flatMap_cons, List.flatMap_cons, List.map_append]
    exact List.Perm.append (childParentPairs_perm top) ih

theorem containerRelations_mem (allGroups : List Item) (pair : Item × Item)
    (h : pair ∈ containerRelations allGroups) :
    pair.1 ∈ pair.2.children ∧ pair.1.isGroup = true
      ∧ pair.2 ∈ declaredContainers allGroups := by
  unfold containerRelations at h
  unfold declaredContainers
  obtain ⟨top, htop, hp⟩ := List.mem_flatMap.mp h
  obtain ⟨h1, hg, h2⟩ := childParentPairs_mem top pair hp
  exact ⟨h1, hg, List.mem_flatMap.mpr ⟨top, htop, h2⟩⟩

theorem isProjectLine_folderLine (md5Hex : Str → Str) (info : ItemInfo) :
    isProjectLine (folderLine md5Hex info) = true := rfl

theorem isProjectLine_solutionItemLines (solutionItemPath : Str → Str) (children : List Item) :
    (solutionItemLines solutionItemPath children).filter isProjectLine = [] := by
  rw [List.filter_eq_nil_iff]
  intro line hline
  unfold solutionItemLines at hline
  obtain ⟨child, _, rfl⟩ := List.mem_map.mp hline
  exact Bool.false_ne_true

theorem folderBlock_filter (md5Hex : Str → Str) (solutionItemPath : Str → Str) (group : Item) :
    (folderBlock md5Hex solutionItemPath group).filter isProjectLine
      = [folderLine md5Hex group.info] := by
  unfold folderBlock
  have h1 : isProjectLine "\tProjectSection(SolutionItems) = preProject".toList = false := rfl
  have h2 : isProjectLine "\tEndProjectSection".toList = false := rfl
  have h3 : isProjectLine "EndProject".toList = false := rfl
  split
  · simp only [List.filter_append, List.filter_cons, List.filter_nil, isProjectLine_folderLine,
      isProjectLine_solutionItemLines, h1, h2, h3, if_true, Bool.false_eq_true, if_false,
      List.append_nil]
  · simp only [List.filter_append, List.filter_cons, List.filter_nil, isProjectLine_folderLine,
      h3, if_true, Bool.false_eq_true, if_false, List.append_nil]

theorem containers_filter (md5Hex : Str → Str) (solutionItemPath : Str → Str)
    (groups : List Item) :
    (groups.flatMap (folderBlock md5Hex solutionItemPath)).filter isProjectLine
      = groups.map (fun group => folderLine md5Hex group.info) := by
  induction groups with
  | nil => rfl
  | cons group rest ih =>
    rw [List.flatMap_cons, List.filter_append, folderBlock_filter, ih]
    rfl

theorem topLevelItems_of_length_ne_one (allGroups : List Item) (h : allGroups.length ≠ 1) :
    topLevelItems allGroups = allGroups := by
  unfold topLevelItems
  split
  · simp at h
  · rfl

/-! ## Lemmas on file names and libraries -/

theorem upToLastDot_split (s : Str) (h : s.contains '.' = true) :
    ∃ ext : Str, '.' ∉ ext ∧ s = upToLastDot s ++ '.' :: ext := by
  have hmem : '.' ∈ s.reverse := by
    rw [List.mem_reverse]
    simpa using h
  have hne : s.reverse.dropWhile (fun c => c != '.') ≠ [] := by
    intro hnil
    rw [List.dropWhile_eq_nil_iff] at hnil
    have := hnil '.' hmem
    simp at this
  obtain ⟨x, rest, hdrop⟩ := List.exists_cons_of_ne_nil hne
  have hx : x = '.' := by
    have hhead := List.head_dropWhile_not (fun c => c != '.') s.reverse hne
    simp only [hdrop, List.head_cons] at hhead
    simpa using hhead
  subst hx
  have hsplit := List.takeWhile_append_dropWhile (fun c => c != '.') s.reverse
  rw [hdrop] at hsplit
  refine ⟨(s.reverse.takeWhile (fun c => c != '.')).reverse, ?_, ?_⟩
  · rw [List.mem_reverse]
    intro hin
    have := List.mem_takeWhile_imp hin
    simp at this
  · unfold upToLastDot
    rw [if_pos h, hdrop, List.tail_cons]
    have hs : s = (s.reverse).reverse := (List.reverse_reverse s).symm
    rw [← hsplit] at hs
    rw [List.reverse_append, List.reverse_cons, List.append_assoc] at hs
    exact hs

theorem upToLastDot_of_no_dot (s : Str) (h : s.contains '.' = false) : upToLastDot s = s := by
  unfold upToLastDot
  rw [h]
  rfl

theorem getModuleLibs_eq (owner : LinkOwner) :
    getModuleLibs owner = owner.windowsLibs.map (fun lib => lib ++ ".lib".toList) := by
  unfold getModuleLibs
  have h : ∀ (libs : StringArray) (acc : StringArray),
      libs.foldl (fun result lib => result ++ [lib ++ ".lib".toList]) acc
        = acc ++ libs.map (fun lib => lib ++ ".lib".toList) := by
    intro libs
    induction libs with
    | nil => intro acc; simp
    | cons lib rest ih => intro acc; rw [List.foldl_cons, ih]; simp
  rw [h]
  rfl

/-! ## Lemmas on preprocessor definitions -/

theorem keyEquals_refl (ic : Bool) (a : Str) : keyEquals ic a a = true := by
  unfold keyEquals equalsIgnoreCase
  cases ic <;> simp

theorem keyEquals_symm (ic : Bool) (a b : Str) : keyEquals ic a b = keyEquals ic b a := by
  have hcomm : ∀ x y : Str, (x == y) = (y == x) := by
    intro x y
    by_cases h : x = y
    · subst h; rfl
    · have h2 : ¬ y = x := fun e => h e.symm
      rw [beq_eq_false_iff_ne.mpr h, beq_eq_false_iff_ne.mpr h2]
  unfold keyEquals equalsIgnoreCase
  cases ic
  · simp only [Bool.false_eq_true, if_false]
    exact hcomm a b
  · simp only [if_true]
    exact hcomm _ _

theorem keyEquals_trans (ic : Bool) (a b c : Str) (h1 : keyEquals ic a b = true)
    (h2 : keyEquals ic b c = true) : keyEquals ic a c = true := by
  unfold keyEquals equalsIgnoreCase at *
  cases ic
  · simp only [Bool.false_eq_true, if_false, beq_iff_eq] at *
    rw [h1, h2]
  · simp only [if_true, beq_iff_eq] at *
    rw [h1, h2]

theorem keyEquals_congr_right (ic : Bool) (a b c : Str) (h : keyEquals ic b c = true) :
    keyEquals ic a b = keyEquals ic a c := by
  cases h1 : keyEquals ic a b
  · cases h2 : keyEquals ic a c
    · rfl
    · have h3 : keyEquals ic c b = true := by rw [keyEquals_symm]; exact h
      rw [keyEquals_trans ic a c b h2 h3] at h1
      cases h1
  · exact (keyEquals_trans ic a b c h1 h).symm

theorem setPair_keys (ic : Bool) (l : List (Str × Str)) (key value : Str) :
    (setPair ic l key value).map Prod.fst = insertKey ic (l.map Prod.fst) key := by
  induction l with
  | nil => simp [setPair, insertKey]
  | cons p rest ih =>
    obtain ⟨k, v⟩ := p
    by_cases h : keyEquals ic k key = true
    · simp [setPair, insertKey, h]
    · have hf : keyEquals ic k key = false := by simpa using h
      rw [setPair, if_neg h, List.map_cons, ih]
      unfold insertKey
      simp only [List.map_cons, List.any_cons, hf, Bool.false_or]
      split <;> simp

theorem lookupValue_setPair (ic : Bool) (l : List (Str × Str)) (key value other : Str) :
    lookupValue ic (setPair ic l key value) other
      = if keyEquals ic key other = true then some value else lookupValue ic l other := by
  induction l with
  | nil =>
    unfold lookupValue
    by_cases h : keyEquals ic key other = true
    · simp [setPair, h]
    · simp [setPair, h]
  | cons p rest ih =>
    obtain ⟨k, v⟩ := p
    by_cases hk : keyEquals ic k key = true
    · rw [setPair, if_pos hk]
      have hcongr : keyEquals ic k other = keyEquals ic key other := by
        rw [keyEquals_symm ic k other, keyEquals_symm ic key other]
        exact keyEquals_congr_right ic other k key hk
      unfold lookupValue
      by_cases ho : keyEquals ic key other = true
      · simp [List.find?_cons, hcongr, ho]
      · simp [List.find?_cons, hcongr, ho]
    · rw [setPair, if_neg hk]
      unfold lookupValue at ih ⊢
      by_cases ho : keyEquals ic k other = true
      · have hne : ¬ keyEquals ic key other = true := by
          intro hko
          apply hk
          have : keyEquals ic other key = true := by rw [keyEquals_symm]; exact hko
          exact keyEquals_trans ic k other key ho this
        simp [List.find?_cons, ho, hne]
      · simp only [List.find?_cons, ho]
        exact ih

theorem foldl_set_eq (ws : List (Str × Str)) (d : StringPairArray) :
    ws.foldl (fun defs p => defs.set p.1 p.2) d
      = { pairs := ws.foldl (fun l p => setPair d.ignoreCase l p.1 p.2) d.pairs,
          ignoreCase := d.ignoreCase } := by
  induction ws generalizing d with
  | nil => rfl
  | cons w rest ih =>
    rw [List.foldl_cons, ih]
    rfl

theorem foldl_setPair_keys (ic : Bool) (ws : List (Str × Str)) (l : List (Str × Str)) :
    (ws.foldl (fun l p => setPair ic l p.1 p.2) l).map Prod.fst
      = (ws.map Prod.fst).foldl (insertKey ic) (l.map Prod.fst) := by
  induction ws generalizing l with
  | nil => rfl
  | cons w rest ih =>
    rw [List.foldl_cons, ih, setPair_keys]
    rfl

theorem lookupValue_append (ic : Bool) (l m : List (Str × Str)) (key : Str) :
    lookupValue ic (l ++ m) key
      = match lookupValue ic l key with
        | some v => some v
        | none => lookupValue ic m key := by
  unfold lookupValue
  rw [List.find?_append]
  cases List.find? (fun p => keyEquals ic p.1 key) l <;> rfl

theorem lastWrite_cons (ic : Bool) (w : Str × Str) (rest : List (Str × Str)) (key : Str) :
    lastWrite ic (w :: rest) key
      = match lastWrite ic rest key with
        | some v => some v
        | none => if keyEquals ic w.1 key = true then some w.2 else none := by
  unfold lastWrite
  rw [List.reverse_cons, lookupValue_append]
  cases lookupValue ic rest.reverse key
  · simp only
    unfold lookupValue
    by_cases h : keyEquals ic w.1 key = true
    · simp [List.find?_cons, h]
    · simp [List.find?_cons, h]
  · rfl

theorem lookupValue_foldl_setPair (ic : Bool) (ws : List (Str × Str)) (l : List (Str × Str))
    (key : Str) :
    lookupValue ic (ws.foldl (fun l p => setPair ic l p.1 p.2) l) key
      = match lastWrite ic ws key with
        | some v => some v
        | none => lookupValue ic l key := by
  induction ws generalizing l with
  | nil => rfl
  | cons w rest ih =>
    rw [List.foldl_cons, ih, lastWrite_cons, lookupValue_setPair]
    cases lastWrite ic rest key
    · simp only
      by_cases h : keyEquals ic w.1 key = true
      · simp [h]
      · simp [h]
    · rfl

theorem insertKey_initial (ic : Bool) (keys : List Str) (key : Str) :
    keys <+: insertKey ic keys key := by
  unfold insertKey
  split
  · exact List.prefix_refl _
  · exact List.prefix_append _ _

theorem foldl_insertKey_initial (ic : Bool) (ks : List Str) (acc : List Str) :
    acc <+: ks.foldl (insertKey ic) acc := by
  induction ks generalizing acc with
  | nil => exact List.prefix_refl _
  | cons k rest ih =>
    rw [List.foldl_cons]
    exact (insertKey_initial ic acc k).trans (ih _)

theorem mem_insertKey (ic : Bool) (keys : List Str) (key x : Str)
    (h : x ∈ insertKey ic keys key) : x ∈ keys ∨ x = key := by
  unfold insertKey at h
  split at h
  · exact Or.inl h
  · rcases List.mem_append.mp h with h | h
    · exact Or.inl h
    · exact Or.inr (List.mem_singleton.mp h)

theorem mem_foldl_insertKey (ic : Bool) (ks : List Str) (acc : List Str) (x : Str)
    (h : x ∈ ks.foldl (insertKey ic) acc) : x ∈ acc ∨ x ∈ ks := by
  induction ks generalizing acc with
  | nil => exact Or.inl h
  | cons k rest ih =>
    rw [List.foldl_cons] at h
    rcases ih _ h with h | h
    · rcases mem_insertKey ic acc k x h with h | h
      · exact Or.inl h
      · exact Or.inr (h ▸ List.mem_cons_self _ _)
    · exact Or.inr (List.mem_cons_of_mem _ h)

theorem any_insertKey_self (ic : Bool) (keys : List Str) (key : Str) :
    (insertKey ic keys key).any (fun k => keyEquals ic k key) = true := by
  unfold insertKey
  by_cases h : keys.any (fun k => keyEquals ic k key) = true
  · rw [if_pos h]; exact h
  · rw [if_neg h, List.any_append]
    simp [keyEquals_refl]

theorem any_of_initial (ic : Bool) (a b : List Str) (key : Str) (hp : a <+: b)
    (h : a.any (fun k => keyEquals ic k key) = true) :
    b.any (fun k => keyEquals ic k key) = true := by
  rw [List.any_eq_true] at h ⊢
  obtain ⟨x, hx, hk⟩ := h
  exact ⟨x, hp.subset hx, hk⟩

theorem any_foldl_insertKey (ic : Bool) (ks : List Str) (acc : List Str) (key : Str)
    (h : key ∈ ks) : (ks.foldl (insertKey ic) acc).any (fun k => keyEquals ic k key) = true := by
  induction ks generalizing acc with
  | nil => cases h
  | cons k rest ih =>
    rw [List.foldl_cons]
    rcases List.mem_cons.mp h with h | h
    · subst h
      exact any_of_initial ic _ _ key (foldl_insertKey_initial ic rest _)
        (any_insertKey_self ic acc key)
    · exact ih _ h

theorem pairwise_insertKey (ic : Bool) (keys : List Str) (key : Str)
    (h : keys.Pairwise (fun a b => keyEquals ic a b = false)) :
    (insertKey ic keys key).Pairwise (fun a b => keyEquals ic a b = false) := by
  unfold insertKey
  by_cases ha : keys.any (fun k => keyEquals ic k key) = true
  · rw [if_pos ha]; exact h
  · rw [if_neg ha, List.pairwise_append]
    refine ⟨h, List.pairwise_singleton _ _, ?_⟩
    intro a hmem b hb
    rw [List.mem_singleton] at hb
    subst hb
    cases hk : keyEquals ic a b
    · rfl
    · exact absurd (List.any_eq_true.mpr ⟨a, hmem, hk⟩) ha

theorem pairwise_foldl_insertKey (ic : Bool) (ks : List Str) (acc : List Str)
    (h : acc.Pairwise (fun a b => keyEquals ic a b = false)) :
    (ks.foldl (insertKey ic) acc).Pairwise (fun a b => keyEquals ic a b = false) := by
  induction ks generalizing acc with
  | nil => exact h
  | cons k rest ih =>
    rw [List.foldl_cons]
    exact ih _ (pairwise_insertKey ic acc k h)

theorem not_any_foldl_insertKey (ic : Bool) (ks : List Str) (acc : List Str) (key : Str)
    (hacc : acc.any (fun k => keyEquals ic k key) = false)
    (hks : ks.any (fun k => keyEquals ic k key) = false) :
    (ks.foldl (insertKey ic) acc).any (fun k => keyEquals ic k key) = false := by
  cases h : (ks.foldl (insertKey ic) acc).any (fun k => keyEquals ic k key)
  · rfl
  · obtain ⟨x, hx, hk⟩ := List.any_eq_true.mp h
    rcases mem_foldl_insertKey ic ks acc x hx with hx | hx
    · rw [List.any_eq_true.mpr ⟨x, hx, hk⟩] at hacc
      cases hacc
    · rw [List.any_eq_true.mpr ⟨x, hx, hk⟩] at hks
      cases hks

theorem preprocessorDefines_eq_writes (owner : DefsOwner) (target : MSVCTargetBase)
    (config : MSVCBuildConfiguration) :
    preprocessorDefines owner target config
      = (defineWrites owner target config).foldl (fun defs p => defs.set p.1 p.2)
          owner.msvcExtraPreprocessorDefs := by
  unfold preprocessorDefines defineWrites mergePreprocessorDefs addExtraPreprocessorDefines
  simp only [List.foldl_append, List.foldl_cons, List.foldl_nil]
  cases hd : config.isDebug <;>
    by_cases hl : (target.fileType = TargetFileType.staticLibrary
      ∨ target.fileType = TargetFileType.sharedLibraryOrDLL) <;>
    cases ht : target.type <;>
    simp [hl]

theorem preprocessorDefines_keys (owner : DefsOwner) (target : MSVCTargetBase)
    (config : MSVCBuildConfiguration) :
    (preprocessorDefines owner target config).pairs.map Prod.fst
      = ((defineWrites owner target config).map Prod.fst).foldl
          (insertKey owner.msvcExtraPreprocessorDefs.ignoreCase)
          (owner.msvcExtraPreprocessorDefs.pairs.map Prod.fst) := by
  rw [preprocessorDefines_eq_writes, foldl_set_eq, foldl_setPair_keys]

theorem preprocessorDefines_lookup (owner : DefsOwner) (target : MSVCTargetBase)
    (config : MSVCBuildConfiguration) (key : Str) :
    lookupValue owner.msvcExtraPreprocessorDefs.ignoreCase
        (preprocessorDefines owner target config).pairs key
      = match lastWrite owner.msvcExtraPreprocessorDefs.ignoreCase
            (defineWrites owner target config) key with
        | some v => some v
        | none => lookupValue owner.msvcExtraPreprocessorDefs.ignoreCase
            owner.msvcExtraPreprocessorDefs.pairs key := by
  rw [preprocessorDefines_eq_writes, foldl_set_eq, lookupValue_foldl_setPair]

theorem fixedDefineKeys_distinct (ic : Bool) :
    ∀ a ∈ fixedDefineKeys, ∀ b ∈ fixedDefineKeys, a ≠ b → keyEquals ic a b = false := by
  cases ic <;> decide

theorem hasKey_foldl_insertKey (ic : Bool) (ks : List Str) (acc : List Str) (key : Str)
    (h : key ∈ ks) : hasKey ic (ks.foldl (insertKey ic) acc) key = true :=
  any_foldl_insertKey ic ks acc key h

theorem not_hasKey_foldl_insertKey (ic : Bool) (ks : List Str) (acc : List Str) (key : Str)
    (hacc : hasKey ic acc key = false) (hks : hasKey ic ks key = false) :
    hasKey ic (ks.foldl (insertKey ic) acc) key = false :=
  not_any_foldl_insertKey ic ks acc key hacc hks

theorem mem_foldl_insertKey_of_fresh (ic : Bool) (acc pre post : List Str) (key : Str)
    (hacc : hasKey ic acc key = false) (hpre : hasKey ic pre key = false) :
    key ∈ (pre ++ key :: post).foldl (insertKey ic) acc := by
  rw [List.foldl_append, List.foldl_cons]
  have hfresh := not_hasKey_foldl_insertKey ic pre acc key hacc hpre
  have hins : insertKey ic (pre.foldl (insertKey ic) acc) key
      = pre.foldl (insertKey ic) acc ++ [key] := by
    generalize pre.foldl (insertKey ic) acc = acc2 at hfresh ⊢
    unfold insertKey
    unfold hasKey at hfresh
    rw [hfresh]
    rfl
  rw [hins]
  exact (foldl_insertKey_initial ic post _).subset (List.mem_append_right _ (List.mem_singleton.mpr rfl))

theorem hasKey_of_subset_fixed (ic : Bool) (ks : List Str) (key : Str)
    (hks : ∀ k ∈ ks, k ∈ fixedDefineKeys) (hkey : key ∈ fixedDefineKeys) (hne : key ∉ ks) :
    hasKey ic ks key = false := by
  unfold hasKey
  cases h : ks.any (fun k => keyEquals ic k key)
  · rfl
  · obtain ⟨x, hx, hk⟩ := List.any_eq_true.mp h
    have hxne : x ≠ key := fun e => hne (e ▸ hx)
    rw [fixedDefineKeys_distinct ic x (hks x hx) key hkey hxne] at hk
    cases hk

theorem defineWrites_keys (owner : DefsOwner) (target : MSVCTargetBase)
    (config : MSVCBuildConfiguration) :
    (defineWrites owner target config).map Prod.fst
      = markerKeys config
        ++ (owner.getAllPreprocessorDefs config target.type).pairs.map Prod.fst
        ++ targetDefineKeys target := by
  unfold defineWrites markerKeys targetDefineKeys
  cases hd : config.isDebug <;>
    by_cases hl : (target.fileType = TargetFileType.staticLibrary
      ∨ target.fileType = TargetFileType.sharedLibraryOrDLL) <;>
    cases ht : target.type <;>
    simp [hl]

theorem markerKeys_subset_fixed (config : MSVCBuildConfiguration) :
    ∀ k ∈ markerKeys config, k ∈ fixedDefineKeys := by
  unfold markerKeys
  cases config.isDebug <;> decide

theorem otherMarkerKeys_subset_fixed (config : MSVCBuildConfiguration) :
    ∀ k ∈ otherMarkerKeys config, k ∈ fixedDefineKeys ∧ k ∉ markerKeys config := by
  unfold otherMarkerKeys markerKeys
  cases config.isDebug <;> decide

theorem targetDefineKeys_subset_fixed (target : MSVCTargetBase) :
    ∀ k ∈ targetDefineKeys target, k ∈ fixedDefineKeys := by
  unfold targetDefineKeys
  by_cases hl : (target.fileType = TargetFileType.staticLibrary
      ∨ target.fileType = TargetFileType.sharedLibraryOrDLL) <;>
    cases ht : target.type <;>
    simp only [hl, if_true, if_false] <;> decide

theorem markerKeys_not_target (config : MSVCBuildConfiguration) (target : MSVCTargetBase) :
    ∀ k, (k ∈ markerKeys config ∨ k ∈ otherMarkerKeys config) → k ∉ targetDefineKeys target := by
  intro k hk
  have hk2 : k ∈ ["WIN32".toList, "_WINDOWS".toList, "DEBUG".toList, "_DEBUG".toList,
      "NDEBUG".toList] := by
    unfold markerKeys otherMarkerKeys at hk
    cases hd : config.isDebug <;> rw [hd] at hk <;> simp at hk <;> simp <;> tauto
  have hall : ∀ x ∈ targetDefineKeys target,
      x ∈ ["JucePlugin_AAXLibs_path".toList, "JucePlugin_WinBag_path".toList, "_LIB".toList] := by
    unfold targetDefineKeys
    by_cases hl : (target.fileType = TargetFileType.staticLibrary
        ∨ target.fileType = TargetFileType.sharedLibraryOrDLL) <;>
      cases ht : target.type <;>
      simp only [hl, if_true, if_false] <;> decide
  intro hin
  have h3 := hall k hin
  have hdisj : ∀ a ∈ ["WIN32".toList, "_WINDOWS".toList, "DEBUG".toList, "_DEBUG".toList,
      "NDEBUG".toList], a ∉ ["JucePlugin_AAXLibs_path".toList, "JucePlugin_WinBag_path".toList,
      "_LIB".toList] := by decide
  exact hdisj k hk2 h3

theorem mem_split_fresh (xs : List Str) (a : Str) (h : a ∈ xs) :
    ∃ pre post, xs = pre ++ a :: post ∧ a ∉ pre := by
  induction xs with
  | nil => cases h
  | cons x rest ih =>
    by_cases hx : a = x
    · exact ⟨[], rest, by rw [hx]; rfl, by simp⟩
    · have hr : a ∈ rest := by
        rcases List.mem_cons.mp h with h | h
        · exact absurd h hx
        · exact h
      obtain ⟨pre, post, heq, hfresh⟩ := ih hr
      refine ⟨x :: pre, post, by rw [heq]; rfl, ?_⟩
      intro hin
      rcases List.mem_cons.mp hin with hin | hin
      · exact hx hin
      · exact hfresh hin

theorem overwriteFileIfDifferent_apply (disk : Disk) (file : Str) (newData : FileContent)
    (now : Nat) (path : Str) :
    overwriteFileIfDifferent disk file newData now path
      = if path = file then
          (if (disk file).map FileEntry.content = some newData then disk file
           else some { content := newData, modified := now })
        else disk path := by
  unfold overwriteFileIfDifferent
  cases hd : disk file with
  | none =>
    by_cases hp : path = file
    · simp [hp]
    · simp [hp]
  | some entry =>
    by_cases hc : entry.content = newData
    · by_cases hp : path = file
      · simp [hc, hp, hd]
      · simp [hc, hp]
    · by_cases hp : path = file
      · simp [hc, hp]
      · simp [hc, hp]

theorem overwriteFileIfDifferent_other (disk : Disk) (file : Str) (newData : FileContent)
    (now : Nat) (path : Str) (h : path ≠ file) :
    overwriteFileIfDifferent disk file newData now path = disk path := by
  rw [overwriteFileIfDifferent_apply, if_neg h]

theorem overwriteFileIfDifferent_content (disk : Disk) (file : Str) (newData : FileContent)
    (now : Nat) :
    (overwriteFileIfDifferent disk file newData now file).map FileEntry.content
      = some newData := by
  rw [overwriteFileIfDifferent_apply, if_pos rfl]
  by_cases h : (disk file).map FileEntry.content = some newData
  · rw [if_pos h]; exact h
  · rw [if_neg h]; rfl

theorem overwriteFileIfDifferent_same (disk : Disk) (file : Str) (newData : FileContent)
    (now : Nat) (h : (disk file).map FileEntry.content = some newData) :
    overwriteFileIfDifferent disk file newData now = disk := by
  funext path
  rw [overwriteFileIfDifferent_apply]
  by_cases hp : path = file
  · rw [if_pos hp, if_pos h, hp]
  · rw [if_neg hp]

theorem overwriteFileIfDifferent_isSome (disk : Disk) (file : Str) (newData : FileContent)
    (now : Nat) (path : Str) :
    (overwriteFileIfDifferent disk file newData now path).isSome
      = ((disk path).isSome || decide (path = file)) := by
  rw [overwriteFileIfDifferent_apply]
  by_cases hp : path = file
  · subst hp
    cases hd : disk path with
    | none => simp
    | some entry =>
      by_cases hc : entry.content = newData
      · simp [hc]
      · simp [hc]
  · simp [hp]

theorem applyWrites_cons (w : Str × FileContent) (rest : List (Str × FileContent))
    (disk : Disk) (now : Nat) :
    applyWrites (w :: rest) disk now
      = applyWrites rest (overwriteFileIfDifferent disk w.1 w.2 now) now := rfl

theorem applyWrites_append (a b : List (Str × FileContent)) (disk : Disk) (now : Nat) :
    applyWrites (a ++ b) disk now = applyWrites b (applyWrites a disk now) now := by
  unfold applyWrites
  rw [List.foldl_append]

theorem applyWrites_not_mem (writes : List (Str × FileContent)) (disk : Disk) (now : Nat)
    (path : Str) (h : path ∉ writes.map Prod.fst) :
    applyWrites writes disk now path = disk path := by
  induction writes generalizing disk with
  | nil => rfl
  | cons w rest ih =>
    rw [List.map_cons, List.mem_cons, not_or] at h
    rw [applyWrites_cons, ih _ h.2, overwriteFileIfDifferent_other _ _ _ _ _ h.1]

theorem applyWrites_mem (writes : List (Str × FileContent)) (disk : Disk) (now : Nat)
    (hnodup : (writes.map Prod.fst).Nodup) (w : Str × FileContent) (hw : w ∈ writes) :
    applyWrites writes disk now w.1 = overwriteFileIfDifferent disk w.1 w.2 now w.1 := by
  induction writes generalizing disk with
  | nil => cases hw
  | cons v rest ih =>
    rw [List.map_cons, List.nodup_cons] at hnodup
    rw [applyWrites_cons]
    rcases List.mem_cons.mp hw with hw | hw
    · subst hw
      rw [applyWrites_not_mem _ _ _ _ hnodup.1]
    · have hne : w.1 ≠ v.1 := by
        intro heq
        apply hnodup.1
        rw [← heq]
        exact List.mem_map_of_mem _ hw
      rw [ih _ hnodup.2 hw, overwriteFileIfDifferent_apply, if_pos rfl,
        overwriteFileIfDifferent_apply _ w.1, if_pos rfl,
        overwriteFileIfDifferent_other _ _ _ _ _ hne]

theorem applyWrites_isSome (writes : List (Str × FileContent)) (disk : Disk) (now : Nat)
    (path : Str) :
    (applyWrites writes disk now path).isSome
      = ((disk path).isSome || decide (path ∈ writes.map Prod.fst)) := by
  induction writes generalizing disk with
  | nil => simp [applyWrites]
  | cons w rest ih =>
    rw [applyWrites_cons, ih, overwriteFileIfDifferent_isSome, List.map_cons]
    simp only [List.mem_cons, Bool.decide_or, Bool.or_assoc]

theorem applyWrites_fixed (writes : List (Str × FileContent)) (disk : Disk) (now : Nat)
    (h : ∀ w ∈ writes, (disk w.1).map FileEntry.content = some w.2) :
    applyWrites writes disk now = disk := by
  induction writes with
  | nil => rfl
  | cons w rest ih =>
    rw [applyWrites_cons, overwriteFileIfDifferent_same _ _ _ _ (h w (List.mem_cons_self _ _))]
    exact ih (fun v hv => h v (List.mem_cons_of_mem _ hv))

theorem applyWrites_idempotent (writes : List (Str × FileContent)) (disk : Disk)
    (now later : Nat) (hnodup : (writes.map Prod.fst).Nodup) :
    applyWrites writes (applyWrites writes disk now) later = applyWrites writes disk now := by
  apply applyWrites_fixed
  intro w hw
  rw [applyWrites_mem writes disk now hnodup w hw]
  exact overwriteFileIfDifferent_content _ _ _ _

theorem createResourcesAndIcon_eq (o : CreateOwner) (s : ExportState) (now : Nat) :
    createResourcesAndIcon o s now
      = { disk := applyWrites
            (if hasResourceFile o then
              (if (collectIconImages o).length > 0 then
                  [(o.targetFolderChild "icon.ico".toList,
                    FileContent.bytes (writeIconFile o.png (collectIconImages o) []))]
                else [])
              ++ [(o.targetFolderChild "resources.rc".toList,
                    FileContent.text (rcFileText o.addEscapeChars o.project
                      ((iconFileAfter o s).map o.getFileName)))]
            else []) s.disk now,
          iconFile := iconFileAfter o s } := by
  unfold createResourcesAndIcon iconFileAfter
  by_cases hres : hasResourceFile o = true
  · by_cases himg : (collectIconImages o).length > 0
    · simp only [hres, himg, if_true, and_self, createRCFile]
      rfl
    · simp only [hres, himg, if_true, if_false, and_false, createRCFile]
      rfl
  · simp only [hres, Bool.false_eq_true, if_false, false_and]
    rfl

theorem writeProjectFiles_eq (o : CreateOwner) (targets : Targets) (s : ExportState)
    (now : Nat)
    (hicon : ∀ t ∈ targets, o.vcProjFile t ≠ o.targetFolderChild "icon.ico".toList) :
    targets.foldl (fun s target => writeProjectFile o target s now) s
      = { disk := applyWrites
            (targets.map (fun target =>
              (o.vcProjFile target,
                FileContent.text (o.projectXml s.iconFile
                  (s.disk (o.targetFolderChild "icon.ico".toList)).isSome target))))
            s.disk now,
          iconFile := s.iconFile } := by
  induction targets generalizing s with
  | nil => rfl
  | cons t rest ih =>
    rw [List.foldl_cons, ih _ (fun u hu => hicon u (List.mem_cons_of_mem _ hu))]
    have hne : o.targetFolderChild "icon.ico".toList ≠ o.vcProjFile t :=
      fun h => hicon t (List.mem_cons_self _ _) h.symm
    simp only [writeProjectFile, writeXml, List.map_cons, applyWrites_cons,
      overwriteFileIfDifferent_other _ _ _ _ _ hne]

theorem createPaths_facts (o : CreateOwner) (h : (createPaths o).Nodup) :
    o.targetFolderChild "icon.ico".toList ≠ o.targetFolderChild "resources.rc".toList
      ∧ (∀ t ∈ o.solution.targets, o.vcProjFile t ≠ o.targetFolderChild "icon.ico".toList)
      ∧ o.slnFile ≠ o.targetFolderChild "icon.ico".toList := by
  unfold createPaths at h
  simp only [List.cons_append, List.nil_append, List.nodup_cons, List.mem_cons,
    List.mem_append, List.mem_map, List.mem_singleton, not_or] at h
  obtain ⟨⟨h1, h2, h3⟩, _⟩ := h
  refine ⟨h1, ?_, fun e => h3.1 e.symm⟩
  intro t ht heq
  exact h2 ⟨t, ht, heq⟩

theorem createWrites_paths_sublist (o : CreateOwner) (s : ExportState) :
    ((createWrites o s).map Prod.fst).Sublist (createPaths o) := by
  unfold createWrites createPaths
  simp only [List.map_append, List.map_map, List.map_cons, List.map_nil]
  refine List.Sublist.append (List.Sublist.append ?_ ?_) (List.Sublist.refl _)
  · by_cases hres : hasResourceFile o = true
    · by_cases himg : (collectIconImages o).length > 0
      · simp [hres, himg]
      · simp [hres, himg]
    · simp [hres]
  · exact List.Sublist.refl _

theorem createWrites_nodup (o : CreateOwner) (s : ExportState) (h : (createPaths o).Nodup) :
    ((createWrites o s).map Prod.fst).Nodup :=
  List.Nodup.sublist (createWrites_paths_sublist o s) h

theorem iconExists_after_resources (o : CreateOwner) (s : ExportState) (now : Nat)
    (hne : o.targetFolderChild "icon.ico".toList ≠ o.targetFolderChild "resources.rc".toList) :
    ((createResourcesAndIcon o s now).disk (o.targetFolderChild "icon.ico".toList)).isSome
      = iconExistsAfter o s := by
  rw [createResourcesAndIcon_eq]
  simp only
  rw [applyWrites_isSome]
  unfold iconExistsAfter
  generalize o.targetFolderChild "icon.ico".toList = icon at hne ⊢
  generalize o.targetFolderChild "resources.rc".toList = rc at hne ⊢
  by_cases hres : hasResourceFile o = true
  · by_cases himg : (collectIconImages o).length > 0
    · simp [hres, himg]
    · simp [hres, himg, hne]
  · simp [hres]

theorem create_eq (o : CreateOwner) (s : ExportState) (now : Nat)
    (hpaths : (createPaths o).Nodup) :
    create o s now
      = { disk := applyWrites (createWrites o s) s.disk now, iconFile := iconFileAfter o s } := by
  obtain ⟨hrc, htargets, _⟩ := createPaths_facts o hpaths
  have hexists := iconExists_after_resources o s now hrc
  unfold create
  simp only
  rw [writeProjectFiles_eq o _ _ now htargets, hexists]
  rw [createResourcesAndIcon_eq]
  simp only
  unfold createWrites
  rw [applyWrites_append, applyWrites_append]
  rfl

theorem createWrites_stable (o : CreateOwner) (s : ExportState) (now : Nat)
    (hpaths : (createPaths o).Nodup) :
    createWrites o (create o s now) = createWrites o s := by
  obtain ⟨hrc, htargets, hsln⟩ := createPaths_facts o hpaths
  have hicon : iconFileAfter o (create o s now) = iconFileAfter o s := by
    rw [create_eq o s now hpaths]
    unfold iconFileAfter
    by_cases h : hasResourceFile o = true ∧ (collectIconImages o).length > 0
    · simp only [h, and_self, if_true]
    · simp only [h, if_false]
  have hexists : iconExistsAfter o (create o s now) = iconExistsAfter o s := by
    rw [create_eq o s now hpaths]
    unfold iconExistsAfter
    simp only
    rw [applyWrites_isSome]
    have hmem : decide (o.targetFolderChild "icon.ico".toList
        ∈ (createWrites o s).map Prod.fst)
        = (hasResourceFile o && decide ((collectIconImages o).length > 0)) := by
      unfold createWrites
      simp only [List.map_append, List.map_map, List.map_cons, List.map_nil, List.mem_append,
        List.mem_singleton]
      have hmap : List.map (Prod.fst ∘ fun target =>
          (o.vcProjFile target,
            FileContent.text (o.projectXml (iconFileAfter o s) (iconExistsAfter o s) target)))
          o.solution.targets = o.solution.targets.map o.vcProjFile := rfl
      rw [hmap]
      generalize o.targetFolderChild "icon.ico".toList = icon at hrc htargets hsln ⊢
      generalize o.targetFolderChild "resources.rc".toList = rc at hrc ⊢
      have hnot : icon ∉ o.solution.targets.map o.vcProjFile := by
        intro hin
        obtain ⟨t, ht, heq⟩ := List.mem_map.mp hin
        exact htargets t ht heq
      have hsln2 : icon ≠ o.slnFile := Ne.symm hsln
      by_cases hres : hasResourceFile o = true
      · by_cases himg : (collectIconImages o).length > 0
        · simp [hres, himg]
        · simp [hres, himg, hrc, hnot, hsln2]
      · simp [hres, hnot, hsln2]
    rw [hmem]
    cases hasResourceFile o <;> cases decide ((collectIconImages o).length > 0) <;>
      cases (s.disk (o.targetFolderChild "icon.ico".toList)).isSome <;> rfl
  unfold createWrites
  rw [hicon, hexists]

theorem create_idempotent (o : CreateOwner) (s : ExportState) (now later : Nat)
    (hpaths : (createPaths o).Nodup) :
    create o (create o s now) later = create o s now := by
  have hicon : iconFileAfter o (create o s now) = iconFileAfter o s := by
    rw [create_eq o s now hpaths]
    unfold iconFileAfter
    by_cases h : hasResourceFile o = true ∧ (collectIconImages o).length > 0
    · simp only [h, and_self, if_true]
    · simp only [h, if_false]
  rw [create_eq o (create o s now) later hpaths, createWrites_stable o s now hpaths, hicon]
  rw [create_eq o s now hpaths]
  simp only
  rw [applyWrites_idempotent _ _ _ _ (createWrites_nodup o s hpaths)]

/-! ## Lemmas on version normalisation -/

theorem splitOnP_intercalate (p : Char → Bool) (sep : Char) (hsep : p sep = true)
    (ls : List Str) (h : ∀ l ∈ ls, ∀ x ∈ l, ¬ p x = true) (hne : ls ≠ []) :
    ([sep].intercalate ls).splitOnP p = ls := by
  induction ls with
  | nil => exact absurd rfl hne
  | cons hd tl ih =>
    cases tl with
    | nil =>
      have hsingle : [sep].intercalate [hd] = hd := by simp [List.intercalate]
      rw [hsingle]
      exact List.splitOnP_eq_single p hd (h hd (List.mem_cons_self _ _))
    | cons t rest =>
      have hcons : [sep].intercalate (hd :: t :: rest)
          = hd ++ sep :: [sep].intercalate (t :: rest) := by
        simp [List.intercalate]
      rw [hcons, List.splitOnP_first p hd (h hd (List.mem_cons_self _ _)) sep hsep,
        ih (fun l hl => h l (List.mem_cons_of_mem _ hl)) (List.cons_ne_nil _ _)]

theorem head_trimStart (s : Str) (c : Char) (h : (trimStart s).head? = some c) :
    isWhitespace c = false := by
  unfold trimStart at h
  induction s with
  | nil => simp at h
  | cons a rest ih =>
    by_cases ha : isWhitespace a = true
    · rw [List.dropWhile_cons_of_pos ha] at h
      exact ih h
    · rw [List.dropWhile_cons_of_neg ha] at h
      simp only [List.head?_cons, Option.some.injEq] at h
      rw [← h]
      simpa using ha

theorem trimEnd_initial (s : Str) : trimEnd s <+: s := by
  unfold trimEnd
  have h := List.dropWhile_suffix isWhitespace (l := s.reverse)
  have h2 := List.reverse_prefix.mpr h
  rw [List.reverse_reverse] at h2
  exact h2

theorem trimEnd_trimEnd (s : Str) : trimEnd (trimEnd s) = trimEnd s := by
  unfold trimEnd
  rw [List.reverse_reverse, List.dropWhile_idempotent]

theorem trimStart_of_head (t : Str)
    (h : ∀ c, t.head? = some c → isWhitespace c = false) : trimStart t = t := by
  unfold trimStart
  cases t with
  | nil => rfl
  | cons a rest =>
    have ha := h a rfl
    rw [List.dropWhile_cons_of_neg (by rw [ha]; exact Bool.false_ne_true)]

theorem trim_trim (s : Str) : trim (trim s) = trim s := by
  unfold trim
  have hstart : trimStart (trimEnd (trimStart s)) = trimEnd (trimStart s) := by
    apply trimStart_of_head
    intro c hc
    apply head_trimStart s c
    obtain ⟨r, hr⟩ := trimEnd_initial (trimStart s)
    cases ht : trimEnd (trimStart s) with
    | nil => rw [ht] at hc; simp at hc
    | cons a rest =>
      rw [ht] at hc hr
      rw [← hr]
      simpa using hc
  rw [hstart, trimEnd_trimEnd]

theorem getCommaSeparatedVersionNumber_eq (version : Str) :
    getCommaSeparatedVersionNumber version
      = ",".toList.intercalate
          (versionTokens version
            ++ List.replicate (4 - (versionTokens version).length) "0".toList) := by
  unfold getCommaSeparatedVersionNumber
  simp only [versionParts_eq_versionTokens, padVersionParts_four, StringArray.joinIntoString]

theorem versionTokens_trimmed (version : Str) :
    ∀ t ∈ versionTokens version, trim t = t ∧ t ≠ []
      ∧ ∀ x ∈ t, ¬ (x == ',' || x == '.') = true := by
  intro t ht
  unfold versionTokens at ht
  rw [List.mem_filter, List.mem_map] at ht
  obtain ⟨⟨u, hu, rfl⟩, hne⟩ := ht
  refine ⟨trim_trim u, by simpa using hne, ?_⟩
  intro x hx
  have := splitOnP_no_separator _ version u hu x (mem_trim u x hx)
  rw [this]
  exact Bool.false_ne_true

theorem versionTokens_of_normalised (parts : List Str) (hne : parts ≠ [])
    (h : ∀ t ∈ parts, trim t = t ∧ t ≠ [] ∧ ∀ x ∈ t, ¬ (x == ',' || x == '.') = true) :
    versionTokens (",".toList.intercalate parts) = parts := by
  unfold versionTokens
  have hsplit : (",".toList.intercalate parts).splitOnP (fun c => c == ',' || c == '.')
      = parts :=
    splitOnP_intercalate (fun c => c == ',' || c == '.') ',' rfl parts
      (fun l hl => (h l hl).2.2) hne
  rw [hsplit]
  have hmap : parts.map trim = parts := by
    conv_rhs => rw [← List.map_id parts]
    apply List.map_congr_left
    intro t ht
    exact (h t ht).1
  rw [hmap, List.filter_eq_self]
  intro t ht
  simpa using (h t ht).2.1

/-! ## Lemmas on the resource script -/

theorem writeRCValue_eq (addEscapeChars : Str → Str) (mo name value : Str) :
    writeRCValue addEscapeChars mo name value
      = mo ++ ([(name, value)].filter (fun field => decide (field.2 ≠ []))).flatMap
          (rcValueLine addEscapeChars) := by
  unfold writeRCValue rcValueLine
  by_cases h : value = []
  · simp [h]
  · simp [h]

theorem rcFileText_eq (addEscapeChars : Str → Str) (project : ProjectInfo)
    (iconFileName : Option Str) :
    rcFileText addEscapeChars project iconFileName
      = rcOpening
        ++ "FILEVERSION  ".toList ++ getCommaSeparatedVersionNumber project.versionString
        ++ newLine
        ++ rcBlockOpening
        ++ ((rcFields project).filter (fun field => decide (field.2 ≠ []))).flatMap
            (rcValueLine addEscapeChars)
        ++ rcClosing
        ++ rcIconReferences iconFileName := by
  unfold rcFileText rcFields rcIconReferences
  simp only [writeRCValue_eq]
  generalize rcOpening ++ "FILEVERSION  ".toList
    ++ getCommaSeparatedVersionNumber project.versionString ++ newLine
    ++ rcBlockOpening = start
  generalize rcClosing = closing
  generalize rcValueLine addEscapeChars = line
  generalize "CompanyName".toList = n1
  generalize "FileDescription".toList = n2
  generalize "FileVersion".toList = n3
  generalize "ProductName".toList = n4
  generalize "ProductVersion".toList = n5
  generalize "IDI_ICON1 ICON DISCARDABLE ".toList = i1
  generalize "IDI_ICON2 ICON DISCARDABLE ".toList = i2
  generalize newLine = nl
  have hfilter : ∀ (a b c d e : Str × Str),
      [a, b, c, d, e].filter (fun field => decide (field.2 ≠ []))
        = [a].filter (fun field => decide (field.2 ≠ []))
          ++ [b].filter (fun field => decide (field.2 ≠ []))
          ++ [c].filter (fun field => decide (field.2 ≠ []))
          ++ [d].filter (fun field => decide (field.2 ≠ []))
          ++ [e].filter (fun field => decide (field.2 ≠ [])) := by
    intro a b c d e
    rw [← List.filter_append, ← List.filter_append, ← List.filter_append,
      ← List.filter_append]
    rfl
  rw [hfilter]
  cases iconFileName <;>
    simp only [List.flatMap_append, List.append_assoc, List.append_nil]

/-! ## Lemmas on the group assertion -/

theorem visitedGroups_tail (item : Item) :
    (visitedGroups item).tail = visitedGroupsList item.children := by
  cases item with
  | mk info children => rw [visitedGroups]; rfl

mutual

theorem visitedGroups_tail_isGroup :
    ∀ (item : Item) (x : Item), x ∈ visitedGroupsList item.children → x.isGroup = true
  | .mk _ children, x, h => visitedGroupsList_isGroup children x h

theorem visitedGroupsList_isGroup :
    ∀ (children : List Item) (x : Item), x ∈ visitedGroupsList children → x.isGroup = true
  | [], x, h => by simp [visitedGroupsList] at h
  | child :: rest, x, h => by
    rw [visitedGroupsList] at h
    rcases List.mem_append.mp h with h | h
    · by_cases hg : child.isGroup = true
      · rw [if_pos hg, visitedGroups_cons_tail child, visitedGroups_tail] at h
        rcases List.mem_cons.mp h with h | h
        · rw [h]; exact hg
        · exact visitedGroups_tail_isGroup child x h
      · rw [if_neg hg] at h
        cases h
    · exact visitedGroupsList_isGroup rest x h

end

mutual

theorem groupAssertionItem_eq :
    ∀ item : Item, groupAssertionItem item = (visitedGroups item).all Item.isGroup
  | .mk info children => by
    rw [groupAssertionItem, visitedGroups, List.all_cons, groupAssertionChildren_eq children]

theorem groupAssertionChildren_eq :
    ∀ children : List Item,
      groupAssertionChildren children = (visitedGroupsList children).all Item.isGroup
  | [] => by simp [groupAssertionChildren, visitedGroupsList]
  | child :: rest => by
    rw [groupAssertionChildren, visitedGroupsList, List.all_append,
      groupAssertionChildren_eq rest]
    by_cases hg : child.isGroup = true
    · rw [if_pos hg, if_pos hg, groupAssertionItem_eq child]
    · rw [if_neg hg, if_neg hg]
      rfl

end

theorem groupAssertionLoop_eq (items : List Item) :
    groupAssertionLoop items
      = ((items.filter (fun item => item.getNumChildren > 0)).flatMap visitedGroups).all
          Item.isGroup := by
  induction items with
  | nil => rfl
  | cons item rest ih =>
    rw [groupAssertionLoop, ih]
    by_cases h : item.getNumChildren > 0
    · rw [if_pos h, groupAssertionItem_eq, List.filter_cons_of_pos (by simpa using h),
        List.flatMap_cons, List.all_append]
    · rw [if_neg h, List.filter_cons_of_neg (by simpa using h)]
      rfl

theorem mem_allItems_self (item : Item) : item ∈ allItems item := by
  cases item with
  | mk info children => rw [allItems]; exact List.mem_cons_self _ _

theorem mem_allItemsList_of_mem (children : List Item) (child : Item) (h : child ∈ children) :
    child ∈ allItemsList children := by
  induction children with
  | nil => cases h
  | cons c rest ih =>
    rw [allItemsList]
    rcases List.mem_cons.mp h with h | h
    · rw [h]; exact List.mem_append_left _ (mem_allItems_self c)
    · exact List.mem_append_right _ (ih h)

theorem topLevelItems_subset (allGroups : List Item) :
    ∀ item ∈ topLevelItems allGroups, item ∈ allGroups.flatMap allItems := by
  intro item hitem
  rcases allGroups with _ | ⟨root, _ | ⟨second, rest⟩⟩
  · cases hitem
  · have hchild : item ∈ root.children := hitem
    rw [List.flatMap_cons, List.flatMap_nil, List.append_nil]
    cases root with
    | mk info children =>
      rw [allItems]
      exact List.mem_cons_of_mem _ (mem_allItemsList_of_mem children item hchild)
  · have hmem : item ∈ root :: second :: rest := hitem
    exact List.mem_flatMap.mpr ⟨item, hmem, mem_allItems_self item⟩

/-! ## Lemmas on the bitmap and the icon directory -/

theorem maskStride_eq (w : Nat) (h : w < 256) : maskStride w = (w / 8 + 3) / 4 * 4 := by
  have hall : ∀ k : Fin 32, (k.val + 3) &&& 4294967292 = (k.val + 3) / 4 * 4 := by decide
  have hk : w / 8 < 32 := by omega
  exact hall ⟨w / 8, hk⟩

theorem toNat_emod_256 (n : Nat) : ((n : Int) % 256).toNat = n % 256 := by
  omega

theorem dirEntry_eq (w h : Nat) (size offset : Int) :
    dirEntry w h size offset
      = [w % 256, h % 256, 0, 0, 1, 0, 32, 0] ++ writeInt [] size ++ writeInt [] offset := by
  unfold dirEntry
  simp only [writeByte, writeShort, writeInt, List.nil_append, List.append_assoc,
    List.cons_append, toNat_emod_256]
  rfl

theorem foldl_flatMap_of_append {α : Type} (f : Bytes → α → Bytes) (g : α → Bytes)
    (hf : ∀ out x, f out x = out ++ g x) (xs : List α) (out : Bytes) :
    xs.foldl f out = out ++ xs.flatMap g := by
  induction xs generalizing out with
  | nil => simp
  | cons x rest ih =>
    rw [List.foldl_cons, ih, hf, List.flatMap_cons, List.append_assoc]

theorem writeColourRow_eq (image : Image) (w y : Nat) (out : Bytes) :
    writeColourRow image w y out = out ++ colourRowBytes image w y := by
  unfold writeColourRow colourRowBytes
  apply foldl_flatMap_of_append
  intro o x
  unfold colourEntry
  by_cases h : (image.pixel x y).alpha ≤ alphaThreshold
  · simp only [h, if_true]
    simp [writeInt]
  · simp only [h, if_false]
    simp only [writeByte, List.append_assoc, List.singleton_append, toNat_emod_256]
    rfl

theorem maskBits_zero (image : Image) (y start : Nat) : maskBits image y start 0 = 0 := rfl

theorem maskBits_succ (image : Image) (y start len : Nat) :
    maskBits image y start (len + 1)
      = maskBits image y start len * 2 + maskBit (image.pixel (start + len) y) := by
  unfold maskBits
  rw [List.range_succ, List.map_append, List.foldl_append]
  rfl

theorem maskBit_le_one (pixel : Colour) : maskBit pixel ≤ 1 := by
  unfold maskBit
  split <;> omega

theorem maskBits_lt (image : Image) (y start len : Nat) :
    maskBits image y start len < 2 ^ len := by
  induction len with
  | zero => rw [maskBits_zero]; exact Nat.one_pos
  | succ n ih =>
    rw [maskBits_succ, Nat.pow_succ]
    have := maskBit_le_one (image.pixel (start + n) y)
    omega

theorem shiftLeft_one_lor (mask : Nat) : mask <<< 1 ||| 1 = mask * 2 + 1 := by
  rw [Nat.shiftLeft_eq, Nat.pow_one, Nat.mul_comm mask 2]
  have h := Nat.mul_add_lt_is_or (i := 1) (b := 1) (by decide) mask
  rw [Nat.pow_one] at h
  exact h.symm

theorem maskStep_eq (image : Image) (y : Nat) (out : Bytes) (mask count x : Nat) :
    maskStep image y (out, mask, count) x
      = if count + 1 = 8
        then (out ++ [(mask * 2 + maskBit (image.pixel x y)) % 256], 0, 0)
        else (out, mask * 2 + maskBit (image.pixel x y), count + 1) := by
  have hmask : (if (image.pixel x y).alpha ≤ alphaThreshold then mask <<< 1 ||| 1
      else mask <<< 1) = mask * 2 + maskBit (image.pixel x y) := by
    unfold maskBit
    by_cases h : (image.pixel x y).alpha ≤ alphaThreshold
    · rw [if_pos h, if_pos h, shiftLeft_one_lor]
    · rw [if_neg h, if_neg h, Nat.shiftLeft_eq, Nat.pow_one]
      rfl
  unfold maskStep
  simp only [hmask, writeByte, toNat_emod_256]

theorem maskFold_eq (image : Image) (y : Nat) (out : Bytes) (n : Nat) :
    (List.range n).foldl (maskStep image y) (out, 0, 0)
      = (out ++ (List.range (n / 8)).map (fun j => maskBits image y (8 * j) 8),
          maskBits image y (8 * (n / 8)) (n % 8), n % 8) := by
  induction n with
  | zero => simp [maskBits_zero]
  | succ n ih =>
    rw [List.range_succ, List.foldl_append, ih, List.foldl_cons, List.foldl_nil, maskStep_eq]
    have hpos : 8 * (n / 8) + n % 8 = n := Nat.div_add_mod n 8
    have hbits : maskBits image y (8 * (n / 8)) (n % 8) * 2 + maskBit (image.pixel n y)
        = maskBits image y (8 * (n / 8)) (n % 8 + 1) := by
      rw [maskBits_succ, hpos]
    rw [hbits]
    by_cases h8 : n % 8 + 1 = 8
    · rw [if_pos h8]
      have hdiv : (n + 1) / 8 = n / 8 + 1 := by omega
      have hmod : (n + 1) % 8 = 0 := by omega
      have hlt := maskBits_lt image y (8 * (n / 8)) 8
      rw [hdiv, hmod, List.range_succ, List.map_append, h8, maskBits_zero,
        Nat.mod_eq_of_lt (by omega)]
      simp
    · rw [if_neg h8]
      have hdiv : (n + 1) / 8 = n / 8 := by omega
      have hmod : (n + 1) % 8 = n % 8 + 1 := by omega
      rw [hdiv, hmod]

theorem foldl_writeByte_zero (n : Nat) (out : Bytes) :
    (List.range n).foldl (fun out _ => writeByte out 0) out = out ++ List.replicate n 0 := by
  have h : ∀ (xs : List Nat) (out : Bytes),
      xs.foldl (fun out _ => writeByte out 0) out = out ++ List.replicate xs.length 0 := by
    intro xs
    induction xs with
    | nil => intro out; simp
    | cons x rest ih =>
      intro out
      rw [List.foldl_cons, ih]
      simp [writeByte, List.replicate_succ]
  rw [h, List.length_range]

theorem writeMaskRow_eq (image : Image) (w y : Nat) (out : Bytes) :
    writeMaskRow image w y out = out ++ maskRowBytes image w y := by
  unfold writeMaskRow maskRowBytes
  rw [maskFold_eq]
  simp only
  rw [foldl_writeByte_zero]
  have hlt := maskBits_lt image y (8 * (w / 8)) (w % 8)
  have hpow : 2 ^ (w % 8) ≤ 2 ^ 8 := Nat.pow_le_pow_right (by decide) (by omega)
  by_cases hm : maskBits image y (8 * (w / 8)) (w % 8) = 0
  · simp [hm]
  · have hbyte : ((maskBits image y (8 * (w / 8)) (w % 8) : Int) % 256).toNat
        = maskBits image y (8 * (w / 8)) (w % 8) := by
      rw [toNat_emod_256]
      exact Nat.mod_eq_of_lt (by omega)
    simp only [hm, ne_eq, not_false_eq_true, if_true, writeByte, hbyte, List.append_assoc]

theorem writeBMPImage_eq (image : Image) (w h : Nat) (out : Bytes) :
    writeBMPImage image w h out
      = out ++ bmpHeader w h
        ++ (List.range h).reverse.flatMap (colourRowBytes image w)
        ++ (List.range h).reverse.flatMap (maskRowBytes image w) := by
  rw [writeBMPImage_append]
  unfold writeBMPImage bmpHeader
  simp only
  rw [foldl_flatMap_of_append (fun o y => writeMaskRow image w y o) (maskRowBytes image w)
      (fun o y => writeMaskRow_eq image w y o),
    foldl_flatMap_of_append (fun o y => writeColourRow image w y o) (colourRowBytes image w)
      (fun o y => writeColourRow_eq image w y o)]
  simp only [List.append_assoc]

theorem length_flatMap_const {α : Type} (f : α → Bytes) (n : Nat)
    (hf : ∀ x, (f x).length = n) (xs : List α) :
    (xs.flatMap f).length = xs.length * n := by
  induction xs with
  | nil => simp
  | cons x rest ih =>
    rw [List.flatMap_cons, List.length_append, ih, hf, List.length_cons, Nat.succ_mul]
    omega

theorem colourEntry_length (pixel : Colour) : (colourEntry pixel).length = 4 := by
  unfold colourEntry
  split <;> rfl

theorem colourRowBytes_length (image : Image) (w y : Nat) :
    (colourRowBytes image w y).length = w * 4 := by
  unfold colourRowBytes
  rw [length_flatMap_const _ 4 (fun x => colourEntry_length _), List.length_range]

theorem bmpHeader_length (w h : Nat) : (bmpHeader w h).length = 40 := by
  simp [bmpHeader, writeInt, writeShort]

theorem maskRowBytes_of_multiple (image : Image) (w y : Nat) (hw8 : w % 8 = 0) :
    maskRowBytes image w y
      = (List.range (w / 8)).map (fun j => maskBits image y (8 * j) 8)
        ++ List.replicate (maskStride w - w / 8) 0 := by
  unfold maskRowBytes
  rw [hw8, maskBits_zero]
  simp

theorem maskRowBytes_length_of_multiple (image : Image) (w y : Nat) (hw8 : w % 8 = 0)
    (hw : w < 256) : (maskRowBytes image w y).length = maskStride w := by
  rw [maskRowBytes_of_multiple image w y hw8, List.length_append, List.length_map,
    List.length_range, List.length_replicate, maskStride_eq w hw]
  omega

theorem maskBits_digit (image : Image) (y start len i : Nat) (hi : i < len) :
    maskBits image y start len / 2 ^ (len - 1 - i) % 2 = maskBit (image.pixel (start + i) y) := by
  induction len with
  | zero => omega
  | succ n ih =>
    rw [maskBits_succ]
    have hb := maskBit_le_one (image.pixel (start + n) y)
    by_cases hin : i = n
    · subst hin
      have h0 : i + 1 - 1 - i = 0 := by omega
      rw [h0, Nat.pow_zero, Nat.div_one]
      omega
    · have hlt : i < n := by omega
      have hk : n + 1 - 1 - i = (n - 1 - i) + 1 := by omega
      have hdiv : (maskBits image y start n * 2 + maskBit (image.pixel (start + n) y)) / 2
          = maskBits image y start n := by omega
      rw [hk, Nat.pow_succ, Nat.mul_comm (2 ^ (n - 1 - i)) 2, ← Nat.div_div_eq_div_mul, hdiv]
      exact ih hlt

/-! ## Lemmas on the files to compile -/

mutual

theorem addFilesToCompile_eq (o : CompileOwner) (type : TargetType) :
    ∀ (item : Item) (groups : CompileGroups),
      addFilesToCompile o type item groups
        = { groups with
            cpps := groups.cpps
              ++ ((walkedFiles item).filter (isCompiledFor o type)).map
                  (fun info => clCompileElement o (o.relativePath info.filePath)) }
  | .mk info children, groups => by
    rw [addFilesToCompile, walkedFiles]
    by_cases hg : info.kind = ItemKind.group
    · rw [if_pos hg, if_pos hg]
      exact addFilesToCompileChildren_eq o type children groups
    · rw [if_neg hg, if_neg hg]
      by_cases ha : info.shouldBeAddedToTargetProject = true
      · by_cases hc : (info.shouldBeCompiled
            && (o.hasCOrCppFileExtension (o.relativePath info.filePath)
                || o.hasAsmFileExtension (o.relativePath info.filePath))
            && o.getTargetTypeFromFilePath info.filePath
                == (if o.isAudioPlugin then type else TargetType.SharedCodeTarget)) = true
        · have hcond : isCompiledFor o type info = true := by
            unfold isCompiledFor
            rw [ha, hc]
            rfl
          simp only [ha, hc, if_true, List.filter_cons_of_pos hcond, List.filter_nil,
            List.map_cons, List.map_nil]
        · have hcond : ¬ isCompiledFor o type info = true := by
            unfold isCompiledFor
            rw [Bool.and_eq_true]
            exact fun h => hc h.2
          simp only [ha, hc, if_true, if_false, List.filter_cons_of_neg hcond, List.filter_nil,
            List.map_nil, List.append_nil, Bool.false_eq_true]
      · have hcond : ¬ isCompiledFor o type info = true := by
          unfold isCompiledFor
          rw [Bool.and_eq_true]
          exact fun h => ha h.1
        simp only [ha, if_false, List.filter_cons_of_neg hcond, List.filter_nil,
          List.map_nil, List.append_nil, Bool.false_eq_true]

theorem addFilesToCompileChildren_eq (o : CompileOwner) (type : TargetType) :
    ∀ (children : List Item) (groups : CompileGroups),
      addFilesToCompileChildren o type children groups
        = { groups with
            cpps := groups.cpps
              ++ ((walkedFilesList children).filter (isCompiledFor o type)).map
                  (fun info => clCompileElement o (o.relativePath info.filePath)) }
  | [], groups => by
    rw [addFilesToCompileChildren, walkedFilesList]
    simp
  | child :: rest, groups => by
    rw [addFilesToCompileChildren, walkedFilesList, addFilesToCompile_eq o type child groups,
      addFilesToCompileChildren_eq o type rest]
    simp only [List.filter_append, List.map_append, List.append_assoc]

end

theorem addFilesToCompile_example :
    addFilesToCompile (demoCompileOwner false) TargetType.RTASPlugIn demoCompileTree
        { cpps := [], headers := [], otherFiles := [] }
      = { cpps := [{ tag := "ClCompile".toList,
                     includeAttribute := "Source\\Main.cpp".toList }],
          headers := [], otherFiles := [] }
    ∧ addFilesToCompile (demoCompileOwner true) TargetType.RTASPlugIn demoCompileTree
        { cpps := [], headers := [], otherFiles := [] }
      = { cpps := [{ tag := "ClCompile".toList,
                     includeAttribute := "RTAS\\JUCE_audio_plugin_client_rtas_1.cpp".toList,
                     callingConvention := some "StdCall".toList }],
          headers := [], otherFiles := [] } := by
  decide

/-! ## Lemmas on the spelling of define keys -/

theorem eq_of_keyEquals_exact (a b : Str) (h : keyEquals false a b = true) : a = b := by
  simpa [keyEquals] using h

theorem platformSettings_keys (ic isCommandLineApp : Bool) :
    ∀ k ∈ (addPlatformSpecificSettingsForProjectType isCommandLineApp
        { pairs := [], ignoreCase := ic }).pairs.map Prod.fst,
      ∀ key ∈ fixedDefineKeys, keyEquals ic k key = true → k = key := by
  cases ic <;> cases isCommandLineApp <;> decide

/-! ## Claims -/

/-- C1: for every version string, `getCommaSeparatedVersionNumber` gives the
tokens of the input (split at every ',' and '.', trimmed, empty tokens
dropped) in their order, followed by as many "0" components as are needed to
reach four, joined with ','; nothing is truncated: "1.2" gives "1,2,0,0" and
"1.2.3.4.5" gives "1,2,3,4,5". -/
theorem getCommaSeparatedVersionNumber_pads (version : Str) :
    getCommaSeparatedVersionNumber version
        = ",".toList.intercalate
            (versionTokens version
              ++ List.replicate (4 - (versionTokens version).length) "0".toList)
      ∧ getCommaSeparatedVersionNumber "1.2".toList = "1,2,0,0".toList
      ∧ getCommaSeparatedVersionNumber "1.2.3.4.5".toList = "1,2,3,4,5".toList := by
  refine ⟨?_, by decide, by decide⟩
  unfold getCommaSeparatedVersionNumber
  simp only [versionParts_eq_versionTokens, padVersionParts_four, StringArray.joinIntoString]

/-- C2: `getPostBuildSteps` and `getPreBuildSteps` give the injected step alone
when the user command is empty, the user command alone when the injected step
is empty, and user command, "\r\n", injected step when both are non-empty;
for a target that is not AAX the injected steps are empty and the results are
the user commands. -/
theorem buildSteps_join (owner : StepsOwner) (target : MSVCTargetBase)
    (config : MSVCBuildConfiguration) :
    (∀ u e : Str, appendExtraSteps u e
        = if e = [] then u else if u = [] then e else u ++ "\r\n".toList ++ e)
      ∧ getPostBuildSteps owner target config
          = appendExtraSteps config.getPostbuildCommandString
              (getExtraPostBuildSteps owner target config)
      ∧ getPreBuildSteps owner target config
          = appendExtraSteps config.getPrebuildCommandString
              (getExtraPreBuildSteps owner target config)
      ∧ (target.type ≠ TargetType.AAXPlugIn →
          getExtraPostBuildSteps owner target config = []
            ∧ getExtraPreBuildSteps owner target config = []
            ∧ getPostBuildSteps owner target config = config.getPostbuildCommandString
            ∧ getPreBuildSteps owner target config = config.getPrebuildCommandString) := by
  refine ⟨?_, rfl, rfl, ?_⟩
  · intro u e
    cases u <;> cases e <;> simp [appendExtraSteps]
  · intro h
    simp [getPostBuildSteps, getPreBuildSteps, getExtraPostBuildSteps, getExtraPreBuildSteps,
      appendExtraSteps, h]

/-- Witness for C2 on a GUI application target with the post-build command
"echo done", and the join of the AAX target's injected step. -/
theorem buildSteps_join_witness :
    getPostBuildSteps plainStepsOwner guiAppTarget
        { config := [(Ids.postbuildCommand, .string "echo done".toList)] } = "echo done".toList
      ∧ getPreBuildSteps plainStepsOwner guiAppTarget
        { config := [(Ids.postbuildCommand, .string "echo done".toList)] } = [] :=
  have h := (buildSteps_join plainStepsOwner guiAppTarget
    { config := [(Ids.postbuildCommand, .string "echo done".toList)] }).2.2.2 (by decide)
  ⟨by rw [h.2.2.1]; decide, by rw [h.2.2.2]; decide⟩

/-- C3 as stated fails: with no explicit runtime-library choice, a project
whose only target is the AAX plug-in gets the DLL runtime, and a project whose
only target is a GUI application gets the static runtime. -/
theorem runtimeDLL_default_counterexample :
    shouldUseRuntimeDLL [aaxTarget] { config := [] } = true
      ∧ runtimeLibraryText [aaxTarget] { config := [] } = "MultiThreadedDLL".toList
      ∧ shouldUseRuntimeDLL [guiAppTarget] { config := [] } = false
      ∧ runtimeLibraryText [guiAppTarget] { config := [] } = "MultiThreaded".toList := by
  decide

/-- C3, amended: an explicit runtime-library choice of the configuration is
used; without one the DLL runtime is used exactly when the exporter's target
list holds an AAX or RTAS target, and the static runtime otherwise; the
`RuntimeLibrary` text is the DLL or static name, in its debug form for a debug
configuration. -/
theorem shouldUseRuntimeDLL_resolution (targets : Targets) (config : MSVCBuildConfiguration) :
    shouldUseRuntimeDLL targets config
        = (if (config.config.getProperty Ids.useRuntimeLibDLL).isVoid
           then decide (∃ t ∈ targets,
                  t.type = TargetType.AAXPlugIn ∨ t.type = TargetType.RTASPlugIn)
           else (config.config.getProperty Ids.useRuntimeLibDLL).toBool)
      ∧ runtimeLibraryText targets config
        = (if shouldUseRuntimeDLL targets config
           then (if config.isDebug then "MultiThreadedDebugDLL".toList
                 else "MultiThreadedDLL".toList)
           else (if config.isDebug then "MultiThreadedDebug".toList
                 else "MultiThreaded".toList)) := by
  refine ⟨?_, rfl⟩
  unfold shouldUseRuntimeDLL
  split
  · rw [Bool.eq_iff_iff]
    simp only [Bool.or_eq_true, hasTarget_iff, decide_eq_true_eq]
    constructor
    · rintro (⟨t, ht, h⟩ | ⟨t, ht, h⟩)
      · exact ⟨t, ht, Or.inl h⟩
      · exact ⟨t, ht, Or.inr h⟩
    · rintro ⟨t, ht, h | h⟩
      · exact Or.inl ⟨t, ht, h⟩
      · exact Or.inr ⟨t, ht, h⟩
  · rfl

/-- C9: the default optimisation level of a configuration is `optimisationOff`
(1) when it is a debug configuration and `optimiseMaxSpeed` (3) otherwise. -/
theorem getDefaultOptimisationLevel_default (config : MSVCBuildConfiguration) :
    config.getDefaultOptimisationLevel = (if config.isDebug then Var.int 1 else Var.int 3)
      ∧ optimisationOff = 1 ∧ optimiseMaxSpeed = 3 := by
  refine ⟨?_, rfl, rfl⟩
  unfold MSVCBuildConfiguration.getDefaultOptimisationLevel optimisationOff optimiseMaxSpeed
  cases config.isDebug <;> rfl

/-- C10: after the constructor the warning level is 4 when it was unset and
the stored value is kept when it was 2, 3 or 4; the manifest flag is true
when it was unset and the stored value, also an explicit false, is kept when
it was set; constructing again over the resulting settings changes nothing. -/
theorem MSVCBuildConfiguration_new_defaults (settings : ValueTree) :
    (settings.getProperty Ids.winWarningLevel = Var.void →
        (MSVCBuildConfiguration.new settings).getWarningLevel = 4)
      ∧ (∀ level : Int, (level = 2 ∨ level = 3 ∨ level = 4) →
          (settings.getProperty Ids.winWarningLevel).toInt = level →
          (MSVCBuildConfiguration.new settings).config.getProperty Ids.winWarningLevel
              = settings.getProperty Ids.winWarningLevel
            ∧ (MSVCBuildConfiguration.new settings).getWarningLevel = level)
      ∧ (settings.getProperty Ids.generateManifest = Var.void →
          (MSVCBuildConfiguration.new settings).shouldGenerateManifest = true)
      ∧ (settings.getProperty Ids.generateManifest ≠ Var.void →
          (MSVCBuildConfiguration.new settings).config.getProperty Ids.generateManifest
            = settings.getProperty Ids.generateManifest)
      ∧ MSVCBuildConfiguration.new (MSVCBuildConfiguration.new settings).config
          = MSVCBuildConfiguration.new settings := by
  have hw := new_getProperty_winWarningLevel settings
  have hm := new_getProperty_generateManifest settings
  refine ⟨?_, ?_, ?_, ?_, ?_⟩
  · intro h
    simp [MSVCBuildConfiguration.getWarningLevel, hw, h, Var.toInt]
  · intro level hl h
    have h0 : (settings.getProperty Ids.winWarningLevel).toInt ≠ 0 := by
      rw [h]; rcases hl with rfl | rfl | rfl <;> decide
    rw [MSVCBuildConfiguration.getWarningLevel, hw, if_neg h0]
    exact ⟨rfl, h⟩
  · intro h
    simp [MSVCBuildConfiguration.shouldGenerateManifest, hm, h, Var.isVoid, Var.toBool]
  · intro h
    have hv : (settings.getProperty Ids.generateManifest).isVoid = false := by
      cases hp : settings.getProperty Ids.generateManifest <;> simp_all [Var.isVoid]
    simp [hm, hv]
  · have hw0 : ((MSVCBuildConfiguration.new settings).config.getProperty
        Ids.winWarningLevel).toInt ≠ 0 := by
      rw [hw]
      by_cases h : (settings.getProperty Ids.winWarningLevel).toInt = 0
      · rw [if_pos h]; decide
      · rw [if_neg h]; exact h
    have hm0 : ((MSVCBuildConfiguration.new settings).config.getProperty
        Ids.generateManifest).isVoid = false := by
      rw [hm]
      by_cases h : (settings.getProperty Ids.generateManifest).isVoid = true
      · rw [if_pos h]; rfl
      · rw [if_neg h]; simpa using h
    generalize MSVCBuildConfiguration.new settings = c at hw0 hm0
    simp [MSVCBuildConfiguration.new, MSVCBuildConfiguration.getWarningLevel, hw0, hm0,
      setValueIfVoid]

/-- Witness for C10: settings with warning level 3 and the manifest flag
explicitly false are kept by the constructor. -/
theorem MSVCBuildConfiguration_new_defaults_witness :
    (MSVCBuildConfiguration.new
        [(Ids.winWarningLevel, .int 3), (Ids.generateManifest, .bool false)]).getWarningLevel = 3
      ∧ (MSVCBuildConfiguration.new
        [(Ids.winWarningLevel, .int 3), (Ids.generateManifest, .bool false)]).config.getProperty
          Ids.generateManifest = Var.bool false
      ∧ (MSVCBuildConfiguration.new []).getWarningLevel = 4
      ∧ (MSVCBuildConfiguration.new []).shouldGenerateManifest = true :=
  have h := MSVCBuildConfiguration_new_defaults
    [(Ids.winWarningLevel, .int 3), (Ids.generateManifest, .bool false)]
  have h0 := MSVCBuildConfiguration_new_defaults []
  ⟨(h.2.1 3 (by decide) (by decide)).2,
   (h.2.2.2.1 (by decide)).trans (by decide),
   h0.1 (by decide),
   h0.2.2.1 (by decide)⟩

/-- C4 as stated fails: for the release configuration of a GUI application,
global defines `A`, `WIN32` merged with module defines `A=1`, `B` are not
written as "A=1;B;WIN32" but, in insertion order and with the platform and
release markers, as "A=1;WIN32;_WINDOWS;NDEBUG;B". -/
theorem getPreprocessorDefs_merge_counterexample :
    getPreprocessorDefs mergeExampleOwner guiAppTarget { config := [] } ";".toList
        ≠ "A=1;B;WIN32".toList
      ∧ getPreprocessorDefs mergeExampleOwner guiAppTarget { config := [] } ";".toList
        = "A=1;WIN32;_WINDOWS;NDEBUG;B".toList := by
  decide

/-- C4, amended: with global defines `A`, `WIN32` and module defines `A=1`, `B`,
for every configuration and every target that is neither AAX nor RTAS nor a
library, the merged set holds a single entry for `A`, carrying the module's
value "1", and the entries are written joined with ';' in order of first
insertion together with the platform and debug/release markers:
"A=1;WIN32;_WINDOWS;NDEBUG;B", or "A=1;WIN32;_WINDOWS;DEBUG;_DEBUG;B" for a
debug configuration. -/
theorem getPreprocessorDefs_merge (target : MSVCTargetBase) (config : MSVCBuildConfiguration)
    (hAAX : target.type ≠ TargetType.AAXPlugIn) (hRTAS : target.type ≠ TargetType.RTASPlugIn)
    (hStatic : target.fileType ≠ TargetFileType.staticLibrary)
    (hShared : target.fileType ≠ TargetFileType.sharedLibraryOrDLL) :
    (preprocessorDefines mergeExampleOwner target config).pairs.filter
          (fun p => p.1 = "A".toList) = [("A".toList, "1".toList)]
      ∧ getPreprocessorDefs mergeExampleOwner target config ";".toList
        = (if config.isDebug then "A=1;WIN32;_WINDOWS;DEBUG;_DEBUG;B".toList
           else "A=1;WIN32;_WINDOWS;NDEBUG;B".toList) := by
  have hextra : ∀ d, addExtraPreprocessorDefines mergeExampleOwner target.type d = d := by
    intro d
    cases ht : target.type <;> simp_all [addExtraPreprocessorDefines]
  have hdefs : preprocessorDefines mergeExampleOwner target config
      = (if config.isDebug then
          { pairs := [("A".toList, "1".toList), ("WIN32".toList, []), ("_WINDOWS".toList, []),
              ("DEBUG".toList, []), ("_DEBUG".toList, []), ("B".toList, [])] }
         else
          { pairs := [("A".toList, "1".toList), ("WIN32".toList, []), ("_WINDOWS".toList, []),
              ("NDEBUG".toList, []), ("B".toList, [])] }) := by
    have hall : mergeExampleOwner.getAllPreprocessorDefs config target.type
        = { pairs := [("A".toList, "1".toList), ("B".toList, [])] } := rfl
    unfold preprocessorDefines
    simp only [hextra, hStatic, hShared, or_self, if_false, hall]
    cases config.isDebug
    · decide
    · decide
  unfold getPreprocessorDefs
  rw [hdefs]
  cases config.isDebug
  · exact ⟨by decide, by decide⟩
  · exact ⟨by decide, by decide⟩

/-- Witness for C4: the GUI application target in a debug configuration. -/
theorem getPreprocessorDefs_merge_witness :
    getPreprocessorDefs mergeExampleOwner guiAppTarget
        { config := [(Ids.isDebug, .bool true)] } ";".toList
      = "A=1;WIN32;_WINDOWS;DEBUG;_DEBUG;B".toList :=
  (getPreprocessorDefs_merge guiAppTarget { config := [(Ids.isDebug, .bool true)] }
    (by decide) (by decide) (by decide) (by decide)).2.trans (by decide)

/-- C5: for targets built by the target constructor, `writeProjectDependencies`
writes one block per target, in target order; a block is the `Project` line,
then one `ProjectDependencies` section naming the shared-code target's GUID
exactly when a shared-code target exists and the block's target is not it,
then `EndProject`; the number of dependency declarations is the number of
non-shared-code targets when a shared-code target exists and zero otherwise,
so three targets of which one is shared code give two declarations. -/
theorem writeProjectDependencies_blocks (md5Hex : Str → Str) (projectUID projectName : Str)
    (targets : Targets) (out : TextStream)
    (hguid : ∀ t ∈ targets, t.projectGuid = createGUID md5Hex (projectUID ++ t.name)) :
    writeProjectDependencies projectName targets out
        = out ++ (targets.map
            (fun t => writeProjectBlock projectName (getSharedCodeGuid targets) t [])).flatten
      ∧ (∀ t ∈ targets,
          writeProjectBlock projectName (getSharedCodeGuid targets) t []
            = projectLine projectName t
              :: ((if hasTarget targets TargetType.SharedCodeTarget = true
                      ∧ t.type ≠ TargetType.SharedCodeTarget
                   then [dependencySectionLine,
                         "\t\t".toList ++ getSharedCodeGuid targets ++ " = ".toList
                           ++ getSharedCodeGuid targets,
                         "\tEndProjectSection".toList]
                   else [])
                  ++ ["EndProject".toList]))
      ∧ (hasTarget targets TargetType.SharedCodeTarget = true →
          ∃ s ∈ targets, s.type = TargetType.SharedCodeTarget
            ∧ getSharedCodeTarget targets = some s
            ∧ getSharedCodeGuid targets = s.projectGuid)
      ∧ (∀ t ∈ targets,
          (writeProjectBlock projectName (getSharedCodeGuid targets) t []).count
              dependencySectionLine
            = if hasTarget targets TargetType.SharedCodeTarget = true
                  ∧ t.type ≠ TargetType.SharedCodeTarget then 1 else 0)
      ∧ (writeProjectDependencies projectName targets []).count dependencySectionLine
          = (if hasTarget targets TargetType.SharedCodeTarget = true
             then (targets.filter (fun t => t.type ≠ TargetType.SharedCodeTarget)).length
             else 0)
      ∧ (targets.length = 3 →
          (targets.filter (fun t => t.type = TargetType.SharedCodeTarget)).length = 1 →
          (writeProjectDependencies projectName targets []).count dependencySectionLine = 2) := by
  have hg := getSharedCodeGuid_ne_nil_iff md5Hex projectUID targets hguid
  have hblocks : ∀ o, writeProjectDependencies projectName targets o
      = o ++ (targets.map
          (fun t => writeProjectBlock projectName (getSharedCodeGuid targets) t [])).flatten :=
    fun o => writeProjectBlocks_eq projectName _ targets o
  have hcount : (writeProjectDependencies projectName targets []).count dependencySectionLine
      = (if hasTarget targets TargetType.SharedCodeTarget = true
         then (targets.filter (fun t => t.type ≠ TargetType.SharedCodeTarget)).length
         else 0) := by
    rw [hblocks, List.nil_append, writeProjectBlocks_count]
    by_cases h : hasTarget targets TargetType.SharedCodeTarget = true
    · rw [if_pos (hg.mpr h), if_pos h]
    · rw [if_neg (fun hc => h (hg.mp hc)), if_neg h]
  refine ⟨hblocks out, ?_, ?_, ?_, hcount, ?_⟩
  · intro t _
    unfold writeProjectBlock
    by_cases h : hasTarget targets TargetType.SharedCodeTarget = true
    · have hne := hg.mpr h
      by_cases ht : t.type = TargetType.SharedCodeTarget
      · simp [h, ht]
      · simp [h, ht, hne, dependencySectionLine]
    · have hnil : getSharedCodeGuid targets = [] := by
        by_contra hc
        exact h (hg.mp hc)
      simp [h, hnil]
  · intro h
    obtain ⟨s, hs, hst, hget⟩ := getSharedCodeTarget_some_of_hasTarget targets h
    exact ⟨s, hs, hst, hget, by rw [getSharedCodeGuid_eq, hget]⟩
  · intro t _
    rw [writeProjectBlock_count]
    by_cases h : hasTarget targets TargetType.SharedCodeTarget = true
    · simp [h, hg.mpr h]
    · have hnil : getSharedCodeGuid targets = [] := by
        by_contra hc
        exact h (hg.mp hc)
      simp [h, hnil]
  · intro hlen hone
    have hhas : hasTarget targets TargetType.SharedCodeTarget = true := by
      rw [hasTarget_iff]
      have hpos : 0 < (targets.filter
          (fun t => decide (t.type = TargetType.SharedCodeTarget))).length := by omega
      obtain ⟨s, hs⟩ := List.exists_mem_of_length_pos hpos
      rw [List.mem_filter] at hs
      exact ⟨s, hs.1, by simpa using hs.2⟩
    rw [hcount, if_pos hhas]
    have hsplit := List.length_eq_countP_add_countP
      (fun t : MSVCTargetBase => decide (t.type = TargetType.SharedCodeTarget)) targets
    rw [List.countP_eq_length_filter, List.countP_eq_length_filter] at hsplit
    have heq : (targets.filter (fun t => decide (t.type ≠ TargetType.SharedCodeTarget)))
        = targets.filter
            (fun a => decide ¬decide (a.type = TargetType.SharedCodeTarget) = true) := by
      congr 1
      funext a
      simp
    rw [heq]
    omega

/-- Witness for C5: the VST, shared-code and AAX targets of a plug-in project
give two dependency declarations. -/
theorem writeProjectDependencies_blocks_witness :
    (writeProjectDependencies "Demo".toList pluginTargets []).count dependencySectionLine = 2 :=
  (writeProjectDependencies_blocks constantDigest "uid".toList "Demo".toList pluginTargets []
    (by decide)).2.2.2.2.2 (by decide) (by decide)

/-- C6: for every list of images whose icon file fits the 32-bit fields of
the directory, the data block is the concatenation of the bytes appended for
each image, and the directory entry of image `i` declares as length the number
of bytes appended for image `i` and as offset `6 + 16 * n` plus the lengths of
the images before it; the bytes at the declared offset, of the declared
length, are the image's data, and the offset declared for image `i + 1` is the
offset of image `i` plus its length. -/
theorem writeIconFile_offsets (png : Image → Bytes) (images : List Image)
    (hfit : 6 + 16 * images.length + dataSize png images < 4294967296) :
    (writeIconDirectory png images []).2 = (images.map (imageData png)).flatten
      ∧ ∀ (i : Nat) (image : Image), images[i]? = some image →
          declaredLength (writeIconFile png images []) i = (imageData png image).length
            ∧ declaredOffset (writeIconFile png images []) i
                = 6 + 16 * images.length + dataSize png (images.take i)
            ∧ ((writeIconFile png images []).drop
                  (declaredOffset (writeIconFile png images []) i)).take
                (declaredLength (writeIconFile png images []) i) = imageData png image
            ∧ ∀ next : Image, images[i + 1]? = some next →
                declaredOffset (writeIconFile png images []) (i + 1)
                  = declaredOffset (writeIconFile png images []) i
                    + declaredLength (writeIconFile png images []) i := by
  have key : ∀ (i : Nat) (image : Image), images[i]? = some image →
      declaredLength (writeIconFile png images []) i = (imageData png image).length
        ∧ declaredOffset (writeIconFile png images []) i
            = 6 + 16 * images.length + dataSize png (images.take i)
        ∧ ((writeIconFile png images []).drop
              (6 + 16 * images.length + dataSize png (images.take i))).take
            (imageData png image).length = imageData png image := by
    intro i image hi
    obtain ⟨hsplit, hlen⟩ := split_at_index images i image hi
    have h := writeIconFile_entry png (images.take i) (images.drop (i + 1)) image
      (by rw [← hsplit]; exact hfit)
    rw [← hsplit, hlen] at h
    exact h
  refine ⟨by rw [writeIconDirectory_eq], ?_⟩
  intro i image hi
  obtain ⟨h1, h2, h3⟩ := key i image hi
  refine ⟨h1, h2, by rw [h1, h2]; exact h3, ?_⟩
  intro next hnext
  obtain ⟨_, h2n, _⟩ := key (i + 1) next hnext
  rw [h2n, h2, h1, List.take_succ, hi, dataSize_append]
  simp [dataSize]
  omega

/-- Witness for C6: in the icon file of two bitmaps and one PNG the third
image is declared right after the second. -/
theorem writeIconFile_offsets_witness :
    declaredOffset (writeIconFile stubPng iconImages []) 2
      = declaredOffset (writeIconFile stubPng iconImages []) 1
        + declaredLength (writeIconFile stubPng iconImages []) 1 :=
  ((writeIconFile_offsets stubPng iconImages (by decide)).2 1 transparentPixelImage rfl).2.2.2
    largeImage rfl

/-- C7: for every list of images whose icon file fits the `int` type, written
to an empty stream, the header and the directory entries take `6 + 16 * n`
bytes, so the position assertion holds and the data block starts at the
offset declared for the first image; the file has `6 + 16 * n` bytes plus the
sum of the declared image lengths. -/
theorem writeIconFile_position (png : Image → Bytes) (images : List Image)
    (hfit : 6 + 16 * images.length + dataSize png images < 2147483648) :
    (writeIconDirectory png images []).1.length = 6 + 16 * images.length
      ∧ iconPositionAssertion png images [] = true
      ∧ (∀ image : Image, images[0]? = some image →
          declaredOffset (writeIconFile png images []) 0
            = (writeIconDirectory png images []).1.length)
      ∧ (writeIconFile png images []).length
          = 6 + 16 * images.length
            + ((List.range images.length).map
                (declaredLength (writeIconFile png images []))).sum := by
  have hdir : (writeIconDirectory png images []).1.length = 6 + 16 * images.length := by
    rw [writeIconDirectory_eq]
    simp only [List.nil_append, List.length_append, iconHeader_length,
      dirEntries_flatten_length]
  have hfit2 : 6 + 16 * images.length + dataSize png images < 4294967296 := by omega
  have hoff := (writeIconFile_offsets png images hfit2).2
  refine ⟨hdir, ?_, ?_, ?_⟩
  · unfold iconPositionAssertion
    rw [hdir, decide_eq_true_eq]
    have h1 := wrapInt32_of_lt (6 + images.length * 16) (by omega)
    unfold dataBlockStart
    push_cast at h1 ⊢
    rw [h1]
    omega
  · intro image h0
    rw [hdir, (hoff 0 image h0).2.1]
    simp [dataSize]
  · have hsum : (List.range images.length).map (declaredLength (writeIconFile png images []))
        = images.map (fun image => (imageData png image).length) := by
      apply List.ext_getElem (by simp)
      intro i h1 h2
      simp only [List.getElem_map, List.getElem_range]
      have hi : i < images.length := by simpa using h1
      exact (hoff i images[i] (List.getElem?_eq_getElem hi)).1
    rw [hsum]
    unfold writeIconFile
    rw [List.length_append, hdir]
    rw [writeIconDirectory_eq, dataSize_eq_length]
    rfl

/-- Witness for C7: the position assertion holds for the icon file of two
bitmaps and one PNG. -/
theorem writeIconFile_position_witness :
    iconPositionAssertion stubPng iconImages [] = true
      ∧ (writeIconDirectory stubPng iconImages []).1.length = 6 + 16 * 3 :=
  have h := writeIconFile_position stubPng iconImages (by decide)
  ⟨h.2.1, h.1⟩

/-- C8 fails on the code: for the 9 x 1 image whose last pixel is transparent,
`maskStride` is 4 and the header declares an image size of 1*9*4 + 1*4 = 40
bytes, but the mask row takes 5 bytes (one full byte, the partial byte, and
three padding bytes), so 41 bytes follow the 40-byte header; for a
transparent 1 x 1 image `maskStride` is 0, the header declares 4 bytes and 5
bytes follow it. -/
theorem writeBMPImage_mask_row_overrun :
    maskStride 9 = 4
      ∧ (writeMaskRow nineWideImage 9 0 []).length = 5
      ∧ readInt ((writeBMPImage nineWideImage 9 1 []).drop 20) = 1 * 9 * 4 + 1 * maskStride 9
      ∧ (writeBMPImage nineWideImage 9 1 []).length = 40 + 41
      ∧ maskStride 1 = 0
      ∧ readInt ((writeBMPImage transparentPixelImage 1 1 []).drop 20) = 4
      ∧ (writeBMPImage transparentPixelImage 1 1 []).length = 40 + 5 := by
  decide

/-- C14 as stated fails: "1.2.3.4.5" is normalised to five components, and
"a.b" to "a,b,0,0", whose first component is not numeric. -/
theorem getCommaSeparatedVersionNumber_arity_counterexample :
    (commaSeparatedComponents (getCommaSeparatedVersionNumber "1.2.3.4.5".toList)).length = 5
      ∧ commaSeparatedComponents (getCommaSeparatedVersionNumber "a.b".toList)
          = ["a".toList, "b".toList, "0".toList, "0".toList]
      ∧ isNumericComponent "a".toList = false := by
  decide

/-- C14, amended: for every version string the comma-separated components of
the result are the tokens of the input followed by "0" components up to four:
there are at least four of them, exactly four when the input has at most four
tokens and as many as the tokens otherwise, and every component is numeric
exactly when every token of the input is. -/
theorem getCommaSeparatedVersionNumber_arity (version : Str) :
    commaSeparatedComponents (getCommaSeparatedVersionNumber version)
        = versionTokens version
            ++ List.replicate (4 - (versionTokens version).length) "0".toList
      ∧ (commaSeparatedComponents (getCommaSeparatedVersionNumber version)).length
          = max 4 (versionTokens version).length
      ∧ (commaSeparatedComponents (getCommaSeparatedVersionNumber version)).all
            isNumericComponent
          = (versionTokens version).all isNumericComponent := by
  have h := components_getCommaSeparatedVersionNumber version
  refine ⟨h, ?_, ?_⟩
  · rw [h, List.length_append, List.length_replicate]
    omega
  · rw [h, List.all_append]
    have hz : (List.replicate (4 - (versionTokens version).length) "0".toList).all
        isNumericComponent = true := by
      rw [List.all_eq_true]
      intro x hx
      rw [(List.mem_replicate.mp hx).2]
      decide
    rw [hz, Bool.and_true]

/-- C19: `prependIfNotAbsolute` gives the Windows-style file string alone when
the string is an absolute path or starts with '$', and the given beginning
followed by the Windows-style string otherwise; `getOutDirFile` and
`getIntDirFile` apply it, with "$(OutDir)\" and "$(IntDir)\", to the file
string with its preprocessor tokens replaced. -/
theorem prependIfNotAbsolute_cases (owner : StepsOwner) (config : MSVCBuildConfiguration)
    (file pre : Str) :
    prependIfNotAbsolute owner file pre
        = (if owner.isAbsolutePath file = true ∨ file.head? = some '$'
           then windowsStylePath file else pre ++ windowsStylePath file)
      ∧ getOutDirFile owner config file
        = prependIfNotAbsolute owner (owner.replacePreprocessorTokens config file)
            "$(OutDir)\\".toList
      ∧ getIntDirFile owner config file
        = prependIfNotAbsolute owner (owner.replacePreprocessorTokens config file)
            "$(IntDir)\\".toList
      ∧ windowsStylePath file = file.map (fun c => if c = '/' then '\\' else c) := by
  refine ⟨?_, rfl, rfl, rfl⟩
  unfold prependIfNotAbsolute
  by_cases h1 : owner.isAbsolutePath file = true
  · simp [h1]
  · by_cases h2 : file.head? = some '$'
    · simp [h2]
    · simp [h1, h2]

/-- C11: the identifier of every target built for a project is `createGUID` of
the project UID followed by the target's name, and the identifier of a file
group is `createGUID` of the group's id; two project models with the same UID,
target types, target names and groups, whatever their build configurations
(and target documents), give the same target identifiers and the same group
containers and relations in the solution. -/
theorem identifiers_stable (md5Hex : Str → Str) (solutionItemPath : Str → Str)
    (m1 m2 : ProjectModel)
    (huid : m1.projectUID = m2.projectUID) (htypes : m1.targetTypes = m2.targetTypes)
    (hnames : m1.targetName = m2.targetName) (hgroups : m1.groups = m2.groups) :
    (∀ t ∈ createTargets md5Hex m1,
        t.projectGuid = createGUID md5Hex (m1.projectUID ++ t.name))
      ∧ (createTargets md5Hex m1).map (fun t => t.projectGuid)
          = (createTargets md5Hex m2).map (fun t => t.projectGuid)
      ∧ (∀ item : Item, groupGuid md5Hex item = createGUID md5Hex item.info.id)
      ∧ (∀ a b : Item, a.info.id = b.info.id → groupGuid md5Hex a = groupGuid md5Hex b)
      ∧ (∀ s, addSolutionFiles md5Hex solutionItemPath m1.groups s
            = addSolutionFiles md5Hex solutionItemPath m2.groups s) := by
  refine ⟨?_, ?_, fun _ => rfl, ?_, ?_⟩
  · intro t ht
    unfold createTargets at ht
    rw [List.mem_map] at ht
    obtain ⟨type, _, rfl⟩ := ht
    rfl
  · unfold createTargets
    rw [htypes, huid, hnames]
    simp only [List.map_map]
    rfl
  · intro a b h
    unfold groupGuid
    rw [h]
  · intro s
    rw [hgroups]

/-- Witness for C11: changing the optimisation level of the configuration of
the example project leaves the identifiers of its targets unchanged. -/
theorem identifiers_stable_witness :
    (createTargets constantDigest demoModel).map (fun t => t.projectGuid)
      = (createTargets constantDigest demoModelOptimised).map (fun t => t.projectGuid) :=
  (identifiers_stable constantDigest (fun path => path) demoModel demoModelOptimised
    rfl rfl rfl rfl).2.1

/-- C12: `updateOldSettings` is idempotent: running it twice gives the same
exporter settings and the same configuration nodes as running it once, and
after a run the keys `prebuildCommand`, `libraryName_Debug` and
`libraryName_Release` are absent from the exporter settings. -/
theorem updateOldSettings_idempotent (e : ExporterSettings) :
    updateOldSettings (updateOldSettings e) = updateOldSettings e
      ∧ (∀ p ∈ (updateOldSettings e).settings,
          p.1 ≠ Ids.prebuildCommand ∧ p.1 ≠ Ids.libraryName_Debug
            ∧ p.1 ≠ Ids.libraryName_Release)
      ∧ (updateOldSettings e).settings.getProperty Ids.prebuildCommand = Var.void
      ∧ (updateOldSettings e).settings.getProperty Ids.libraryName_Debug = Var.void
      ∧ (updateOldSettings e).settings.getProperty Ids.libraryName_Release = Var.void := by
  have habsent : ∀ p ∈ (updateOldSettings e).settings,
      p.1 ≠ Ids.prebuildCommand ∧ p.1 ≠ Ids.libraryName_Debug
        ∧ p.1 ≠ Ids.libraryName_Release := by
    intro p hp
    rw [updateOldSettings_settings] at hp
    have h3 := removeProperty_absent _ _ p hp
    have hp2 := mem_removeProperty _ _ p hp
    have h2 := removeProperty_absent _ _ p hp2
    have hp1 := mem_removeProperty _ _ p hp2
    have h1 := removeProperty_absent _ _ p hp1
    exact ⟨h1, h2, h3⟩
  have hP : (updateOldSettings e).settings.getProperty Ids.prebuildCommand = Var.void := by
    rw [updateOldSettings_settings, getProperty_removeProperty_ne _ _ _ (by decide),
      getProperty_removeProperty_ne _ _ _ (by decide), getProperty_removeProperty_same]
  have hD : (updateOldSettings e).settings.getProperty Ids.libraryName_Debug = Var.void := by
    rw [updateOldSettings_settings, getProperty_removeProperty_ne _ _ _ (by decide),
      getProperty_removeProperty_same]
  have hR : (updateOldSettings e).settings.getProperty Ids.libraryName_Release = Var.void := by
    rw [updateOldSettings_settings, getProperty_removeProperty_same]
  refine ⟨?_, habsent, hP, hD, hR⟩
  have hs : (updateOldSettings (updateOldSettings e)).settings = (updateOldSettings e).settings := by
    rw [updateOldSettings_settings (updateOldSettings e)]
    rw [removeProperty_of_absent _ _ (fun p hp => (habsent p hp).1),
      removeProperty_of_absent _ _ (fun p hp => (habsent p hp).2.1),
      removeProperty_of_absent _ _ (fun p hp => (habsent p hp).2.2)]
  have hc : (updateOldSettings (updateOldSettings e)).configurations
      = (updateOldSettings e).configurations := by
    rw [updateOldSettings_configurations (updateOldSettings e), hP, hD, hR]
    have hid : migrateNode Var.void.toStr Var.void.toStr Var.void.toStr = id := by
      funext node
      exact migrateNode_nil node
    rw [hid, List.map_id]
  cases h1 : updateOldSettings (updateOldSettings e) with
  | mk s1 c1 =>
    cases h2 : updateOldSettings e with
    | mk s2 c2 =>
      rw [h1, h2] at hs hc
      simp only at hs hc
      rw [hs, hc]

/-- C13: every configuration node is migrated on its own; a non-empty old-style
pre-build command becomes the pre-build command of every configuration and an
empty or absent one leaves it as it was; a debug configuration gets a
non-empty old-style debug library name as its target binary name and a
non-debug configuration a non-empty old-style release library name, an empty
or absent name leaving the binary name of those configurations as it was;
whether a configuration is a debug configuration does not change; with all
three old-style values empty or absent no configuration node changes. -/
theorem updateOldSettings_distribution (e : ExporterSettings) :
    (updateOldSettings e).configurations
        = e.configurations.map
            (migrateNode (oldStylePrebuildCommand e) (oldStyleLibNameDebug e)
              (oldStyleLibNameRelease e))
      ∧ ∀ node : ValueTree,
          (migrateNode (oldStylePrebuildCommand e) (oldStyleLibNameDebug e)
              (oldStyleLibNameRelease e) node).getProperty Ids.prebuildCommand
            = (if oldStylePrebuildCommand e ≠ [] then Var.string (oldStylePrebuildCommand e)
               else node.getProperty Ids.prebuildCommand)
          ∧ MSVCBuildConfiguration.isDebug
              ⟨migrateNode (oldStylePrebuildCommand e) (oldStyleLibNameDebug e)
                (oldStyleLibNameRelease e) node⟩
            = MSVCBuildConfiguration.isDebug ⟨node⟩
          ∧ (migrateNode (oldStylePrebuildCommand e) (oldStyleLibNameDebug e)
              (oldStyleLibNameRelease e) node).getProperty Ids.targetName
            = (if MSVCBuildConfiguration.isDebug ⟨node⟩ = true
               then (if oldStyleLibNameDebug e ≠ [] then Var.string (oldStyleLibNameDebug e)
                     else node.getProperty Ids.targetName)
               else (if oldStyleLibNameRelease e ≠ [] then Var.string (oldStyleLibNameRelease e)
                     else node.getProperty Ids.targetName))
          ∧ (oldStylePrebuildCommand e = [] → oldStyleLibNameDebug e = [] →
              oldStyleLibNameRelease e = [] →
              migrateNode (oldStylePrebuildCommand e) (oldStyleLibNameDebug e)
                (oldStyleLibNameRelease e) node = node) := by
  refine ⟨updateOldSettings_configurations e, ?_⟩
  intro node
  generalize oldStylePrebuildCommand e = P
  generalize oldStyleLibNameDebug e = D
  generalize oldStyleLibNameRelease e = R
  have hdebug : ((migrateNodeDebug D (migrateNodePrebuild P node)).getProperty Ids.isDebug)
      = node.getProperty Ids.isDebug := by
    rw [migrateNodeDebug_getProperty _ _ _ (by decide) (by decide) (by decide),
      migrateNodePrebuild_getProperty _ _ _ (by decide) (by decide) (by decide)]
  have hdebug1 : ((migrateNodePrebuild P node).getProperty Ids.isDebug)
      = node.getProperty Ids.isDebug :=
    migrateNodePrebuild_getProperty _ _ _ (by decide) (by decide) (by decide)
  refine ⟨?_, ?_, ?_, ?_⟩
  · unfold migrateNode
    rw [migrateNodeRelease_getProperty _ _ _ (by decide) (by decide) (by decide),
      migrateNodeDebug_getProperty _ _ _ (by decide) (by decide) (by decide),
      migrateNodePrebuild_prebuild]
  · unfold migrateNode MSVCBuildConfiguration.isDebug
    rw [migrateNodeRelease_getProperty _ _ _ (by decide) (by decide) (by decide), hdebug]
  · unfold migrateNode MSVCBuildConfiguration.isDebug
    rw [migrateNodeRelease_targetName, migrateNodeDebug_targetName, hdebug, hdebug1,
      migrateNodePrebuild_getProperty _ _ _ (by decide) (by decide) (by decide)]
    cases hd : (node.getProperty Ids.isDebug).toBool <;>
      by_cases h1 : D = [] <;> by_cases h2 : R = [] <;> simp [h1, h2]
  · intro h1 h2 h3
    rw [h1, h2, h3]
    rfl

/-- Witness for C13: with old-style values "echo pre", "demo_d" and "demo", the
migrated "Debug" node has the pre-build command and the debug library name. -/
theorem updateOldSettings_distribution_witness :
    (updateOldSettings oldStyleSettings).configurations.map
        (fun node => ((⟨node⟩ : MSVCBuildConfiguration).getPrebuildCommandString,
          (⟨node⟩ : MSVCBuildConfiguration).getTargetBinaryNameString))
      = [("echo pre".toList, "demo_d".toList), ("echo pre".toList, "demo".toList)] := by
  rw [(updateOldSettings_distribution oldStyleSettings).1]
  decide


/-- C15: the `SolutionConfigurationPlatforms` section written by
`writeSolutionFile` holds one line for every declared configuration, in order,
and no other line: the identity mapping `key = key` of the configuration's key
`name|arch`, whose architecture is the configuration's own, "x64" when the
architecture of the node is "x64" or has no text and "Win32" otherwise. The
section is not the cross product of the names with both architectures. -/
theorem solutionConfigurationPlatforms_lines (owner : SolutionOwner) (out : TextStream)
    (versionString commentString : Str) :
    (∃ post : TextStream,
      writeSolutionFile owner out versionString commentString
        = solutionProjectsPart owner out versionString commentString
          ++ (declaredContainers owner.allGroups).flatMap
              (folderBlock owner.md5Hex owner.solutionItemPath)
          ++ ["Global".toList,
              "\tGlobalSection(SolutionConfigurationPlatforms) = preSolution".toList]
          ++ owner.configurations.map
              (fun node => "\t\t".toList ++ solutionConfigKey node ++ " = ".toList
                ++ solutionConfigKey node)
          ++ ["\tEndGlobalSection".toList] ++ post)
    ∧ ∀ node : ValueTree,
        solutionConfigKey node
          = (node.getProperty Ids.name).toStr ++ "|".toList
            ++ (if ((node.getProperty Ids.winArchitecture).toStr.isEmpty
                    || (node.getProperty Ids.winArchitecture).equalsStr "x64".toList) = true
                then "x64".toList else "Win32".toList) := by
  refine ⟨?_, solutionConfigKey_eq⟩
  rw [writeSolutionFile_layout]
  refine ⟨["\tGlobalSection(ProjectConfigurationPlatforms) = postSolution".toList]
    ++ owner.targets.flatMap (fun target =>
        owner.configurations.map (fun node =>
          projectConfigurationLine target (VC2010BuildConfiguration.new node)))
    ++ ["\tEndGlobalSection".toList,
        "\tGlobalSection(SolutionProperties) = preSolution".toList,
        "\t\tHideSolutionNode = FALSE".toList,
        "\tEndGlobalSection".toList]
    ++ nestedProjectsSection
        ((containerRelations owner.allGroups).map (relationEntry owner.md5Hex))
    ++ ["EndGlobal".toList], ?_⟩
  simp only [solutionConfigurationLine, projectConfigurationLine, solutionConfigKey,
    List.append_assoc, List.cons_append, List.nil_append]

/-- C15, counterexample to the cross product: for the two configurations
"Debug" (no architecture set) and "Release" ("Win32") the solution lists
`Debug|x64` and `Release|Win32`, and neither `Debug|Win32` nor `Release|x64`. -/
theorem solutionConfigurationPlatforms_counterexample :
    "\t\tDebug|x64 = Debug|x64".toList
        ∈ writeSolutionFile demoSolution [] "11.00".toList "# Visual Studio 2010".toList
    ∧ "\t\tRelease|Win32 = Release|Win32".toList
        ∈ writeSolutionFile demoSolution [] "11.00".toList "# Visual Studio 2010".toList
    ∧ "\t\tDebug|Win32 = Debug|Win32".toList
        ∉ writeSolutionFile demoSolution [] "11.00".toList "# Visual Studio 2010".toList
    ∧ "\t\tRelease|x64 = Release|x64".toList
        ∉ writeSolutionFile demoSolution [] "11.00".toList "# Visual Studio 2010".toList := by
  decide

/-- C16: the `ProjectConfigurationPlatforms` section written by
`writeSolutionFile` holds exactly the lines `<target GUID>.<key>.Build.0 = <key>`,
one for each pair of a target and a declared configuration, ordered by target
and then by configuration, where the key is the one the
`SolutionConfigurationPlatforms` section lists for the configuration; the
number of lines is the number of targets times the number of configurations. -/
theorem projectConfigurationPlatforms_lines (owner : SolutionOwner) (out : TextStream)
    (versionString commentString : Str) :
    (∃ post : TextStream,
      writeSolutionFile owner out versionString commentString
        = solutionProjectsPart owner out versionString commentString
          ++ (declaredContainers owner.allGroups).flatMap
              (folderBlock owner.md5Hex owner.solutionItemPath)
          ++ ["Global".toList,
              "\tGlobalSection(SolutionConfigurationPlatforms) = preSolution".toList]
          ++ owner.configurations.map
              (fun node => "\t\t".toList ++ solutionConfigKey node ++ " = ".toList
                ++ solutionConfigKey node)
          ++ ["\tEndGlobalSection".toList,
              "\tGlobalSection(ProjectConfigurationPlatforms) = postSolution".toList]
          ++ owner.targets.flatMap (fun target =>
              owner.configurations.map (fun node =>
                "\t\t".toList ++ target.projectGuid ++ ".".toList ++ solutionConfigKey node
                  ++ ".Build.0 = ".toList ++ solutionConfigKey node))
          ++ ["\tEndGlobalSection".toList] ++ post)
    ∧ (owner.targets.flatMap (fun target =>
          owner.configurations.map (fun node =>
            "\t\t".toList ++ target.projectGuid ++ ".".toList ++ solutionConfigKey node
              ++ ".Build.0 = ".toList ++ solutionConfigKey node))).length
        = owner.targets.length * owner.configurations.length := by
  refine ⟨?_, length_flatMap_map _ _ _⟩
  rw [writeSolutionFile_layout]
  refine ⟨["\tGlobalSection(SolutionProperties) = preSolution".toList,
        "\t\tHideSolutionNode = FALSE".toList,
        "\tEndGlobalSection".toList]
    ++ nestedProjectsSection
        ((containerRelations owner.allGroups).map (relationEntry owner.md5Hex))
    ++ ["EndGlobal".toList], ?_⟩
  simp only [solutionConfigurationLine, projectConfigurationLine, solutionConfigKey,
    List.append_assoc, List.cons_append, List.nil_append]


/-- C17: nested group containers. The containers are declared in one block
after the target declarations, for the groups visited depth first from the
top-level containers, every group before the groups visited from its group
children; the relation entries `GUID (child) = GUID (parent)` are, up to
order, one for every visited group below a top-level container (none for the
top-level containers themselves), each pairing a group with the declared
container it is a child of; and the entries are written in the `NestedProjects`
section, at the end of the global part, after every declaration, the section
being absent exactly when there is no entry. -/
theorem nested_group_containers (owner : SolutionOwner) (out : TextStream)
    (versionString commentString : Str) :
    (∃ globals : TextStream,
      writeSolutionFile owner out versionString commentString
        = solutionProjectsPart owner out versionString commentString
          ++ (declaredContainers owner.allGroups).flatMap
              (folderBlock owner.md5Hex owner.solutionItemPath)
          ++ ["Global".toList] ++ globals
          ++ nestedProjectsSection
              ((containerRelations owner.allGroups).map (relationEntry owner.md5Hex))
          ++ ["EndGlobal".toList])
    ∧ declaredContainers owner.allGroups
        = (topLevelContainers owner.allGroups).flatMap visitedGroups
    ∧ (∀ item : Item,
        visitedGroups item
          = item :: (item.children.filter Item.isGroup).flatMap visitedGroups)
    ∧ ((containerRelations owner.allGroups).map Prod.fst).Perm
        ((topLevelContainers owner.allGroups).flatMap (fun top => (visitedGroups top).tail))
    ∧ (∀ pair ∈ containerRelations owner.allGroups,
        pair.1 ∈ pair.2.children ∧ pair.1.isGroup = true
          ∧ pair.2 ∈ declaredContainers owner.allGroups)
    ∧ (containerRelations owner.allGroups = [] →
        nestedProjectsSection
          ((containerRelations owner.allGroups).map (relationEntry owner.md5Hex)) = [])
    ∧ (containerRelations owner.allGroups ≠ [] →
        nestedProjectsSection
            ((containerRelations owner.allGroups).map (relationEntry owner.md5Hex))
          = ["\tGlobalSection(NestedProjects) = preSolution".toList,
             "\t\t".toList ++ StringArray.joinIntoString
               ((containerRelations owner.allGroups).map (relationEntry owner.md5Hex))
               "\n\t\t".toList,
             "\tEndGlobalSection".toList]) := by
  refine ⟨?_, rfl, visitedGroups_eq, containerRelations_perm _,
    containerRelations_mem _, ?_, ?_⟩
  · rw [writeSolutionFile_layout]
    refine ⟨["\tGlobalSection(SolutionConfigurationPlatforms) = preSolution".toList]
      ++ owner.configurations.map
          (fun node => solutionConfigurationLine (VC2010BuildConfiguration.new node))
      ++ ["\tEndGlobalSection".toList,
          "\tGlobalSection(ProjectConfigurationPlatforms) = postSolution".toList]
      ++ owner.targets.flatMap (fun target =>
          owner.configurations.map (fun node =>
            projectConfigurationLine target (VC2010BuildConfiguration.new node)))
      ++ ["\tEndGlobalSection".toList,
          "\tGlobalSection(SolutionProperties) = preSolution".toList,
          "\t\tHideSolutionNode = FALSE".toList,
          "\tEndGlobalSection".toList], ?_⟩
    simp only [List.append_assoc, List.cons_append, List.nil_append]
  · intro h
    rw [h]
    rfl
  · intro h
    unfold nestedProjectsSection
    rw [if_pos]
    rw [List.length_map]
    exact List.length_pos.mpr h

/-- On the project `demoSolution` the containers "Source", its child "Empty"
and "Docs" are declared in this order, and the only relation entry pairs
"Empty" with "Source". -/
theorem demoSolution_containers :
    (declaredContainers demoSolution.allGroups).map (fun item => item.info.name)
        = ["Source".toList, "Empty".toList, "Docs".toList]
    ∧ (containerRelations demoSolution.allGroups).map
          (fun pair => (pair.1.info.name, pair.2.info.name))
        = [("Empty".toList, "Source".toList)] := by
  decide


/-- C18: group hierarchy mirroring, as the code does it. The container
declarations of the solution are exactly one declaration, keyed by
`createGUID` of the group's id, for every declared container: the top-level
items that have at least one child, where the top-level items are the children
of the root group when the hierarchy has exactly one group and all groups
otherwise, and every group visited below them. The `SolutionItems` section of
a container lists every direct child that is a file, compiled or not, in order,
and is left out when the group has no file child. -/
theorem group_hierarchy_mirroring (owner : SolutionOwner) (out : TextStream)
    (versionString commentString : Str) :
    (∃ globals : TextStream,
      writeSolutionFile owner out versionString commentString
        = solutionProjectsPart owner out versionString commentString
          ++ (declaredContainers owner.allGroups).flatMap
              (folderBlock owner.md5Hex owner.solutionItemPath)
          ++ ["Global".toList] ++ globals)
    ∧ ((declaredContainers owner.allGroups).flatMap
          (folderBlock owner.md5Hex owner.solutionItemPath)).filter isProjectLine
        = (declaredContainers owner.allGroups).map
            (fun group => folderLine owner.md5Hex group.info)
    ∧ declaredContainers owner.allGroups
        = ((topLevelItems owner.allGroups).filter
            (fun item => item.getNumChildren > 0)).flatMap visitedGroups
    ∧ topLevelItems owner.allGroups
        = (if owner.allGroups.length = 1 then owner.allGroups.flatMap Item.children
           else owner.allGroups)
    ∧ (∀ info : ItemInfo,
        folderLine owner.md5Hex info
          = "Project(\"\x7b2150E333-8FDC-42A3-9474-1A3956D46DE8\x7d\") = \"".toList ++ info.name
            ++ "\"".toList ++ ", \"".toList ++ info.name ++ "\", \"".toList
            ++ createGUID owner.md5Hex info.id ++ "\"".toList)
    ∧ (∀ group : Item,
        folderBlock owner.md5Hex owner.solutionItemPath group
          = [folderLine owner.md5Hex group.info]
            ++ (if (group.children.filter Item.isFile).isEmpty = true then []
                else ["\tProjectSection(SolutionItems) = preProject".toList]
                  ++ (group.children.filter Item.isFile).map
                      (fun child =>
                        "\t\t".toList ++ owner.solutionItemPath child.info.filePath
                          ++ " = ".toList ++ owner.solutionItemPath child.info.filePath)
                  ++ ["\tEndProjectSection".toList])
            ++ ["EndProject".toList]) := by
  refine ⟨?_, containers_filter _ _ _, rfl, ?_, fun _ => rfl, ?_⟩
  · rw [writeSolutionFile_layout]
    refine ⟨["\tGlobalSection(SolutionConfigurationPlatforms) = preSolution".toList]
      ++ owner.configurations.map
          (fun node => solutionConfigurationLine (VC2010BuildConfiguration.new node))
      ++ ["\tEndGlobalSection".toList,
          "\tGlobalSection(ProjectConfigurationPlatforms) = postSolution".toList]
      ++ owner.targets.flatMap (fun target =>
          owner.configurations.map (fun node =>
            projectConfigurationLine target (VC2010BuildConfiguration.new node)))
      ++ ["\tEndGlobalSection".toList,
          "\tGlobalSection(SolutionProperties) = preSolution".toList,
          "\t\tHideSolutionNode = FALSE".toList,
          "\tEndGlobalSection".toList]
      ++ nestedProjectsSection
          ((containerRelations owner.allGroups).map (relationEntry owner.md5Hex))
      ++ ["EndGlobal".toList], ?_⟩
    simp only [List.append_assoc, List.cons_append, List.nil_append]
  · rcases owner.allGroups with _ | ⟨root, _ | ⟨second, rest⟩⟩
    · rfl
    · simp [topLevelItems]
    · simp [topLevelItems]
  · intro group
    unfold folderBlock solutionItemLines
    by_cases h : group.children.filter Item.isFile = []
    · simp [h]
    · simp [h]

/-- C18, counterexample: in the hierarchy with the single root group "Source"
neither the root nor its empty subgroup "Empty" gets a container; and in the
hierarchy of `demoSolution` the container of "Source" lists the file
`Source/Main.cpp`, which is a compiled source file. -/
theorem group_hierarchy_mirroring_counterexample :
    sourceGroup.isGroup = true
    ∧ (declaredContainers singleRootSolution.allGroups).length = 0
    ∧ (writeSolutionFile singleRootSolution [] "11.00".toList
          "# Visual Studio 2010".toList).filter
        (fun line => decide (line = folderLine singleRootSolution.md5Hex sourceGroup.info)) = []
    ∧ (sourceGroup.children.filter Item.isFile).map
          (fun child => (child.info.filePath, child.info.shouldBeCompiled))
        = [("Source/Main.cpp".toList, true)]
    ∧ folderBlock demoSolution.md5Hex demoSolution.solutionItemPath sourceGroup
        = [folderLine demoSolution.md5Hex sourceGroup.info,
           "\tProjectSection(SolutionItems) = preProject".toList,
           "\t\tSource/Main.cpp = Source/Main.cpp".toList,
           "\tEndProjectSection".toList,
           "EndProject".toList]
    ∧ "\t\tSource/Main.cpp = Source/Main.cpp".toList
        ∈ writeSolutionFile demoSolution [] "11.00".toList "# Visual Studio 2010".toList := by
  decide


/-- C27: `getOutputFilename (suffix, forceSuffix)` on the legal, trimmed target
binary name `t`: with `forceSuffix` the result is `t` cut before its last '.'
(all of `t` when it has none) followed by the suffix, so it ends with the
suffix; without `forceSuffix` it is `t` followed by the suffix when `t` has no
'.', and `t` itself when it has one. -/
theorem getOutputFilename_cases (owner : StepsOwner) (config : MSVCBuildConfiguration)
    (suffix : Str) :
    getOutputFilename owner config suffix true
        = upToLastDot (legalTargetName owner config) ++ suffix
      ∧ suffix <:+ getOutputFilename owner config suffix true
      ∧ getOutputFilename owner config suffix false
        = (if (legalTargetName owner config).contains '.' = true
           then legalTargetName owner config
           else legalTargetName owner config ++ suffix)
      ∧ (if (legalTargetName owner config).contains '.' = true
         then ∃ ext : Str, '.' ∉ ext
            ∧ legalTargetName owner config
                = upToLastDot (legalTargetName owner config) ++ '.' :: ext
         else upToLastDot (legalTargetName owner config) = legalTargetName owner config) := by
  have hforce : getOutputFilename owner config suffix true
      = upToLastDot (legalTargetName owner config) ++ suffix := by
    unfold getOutputFilename legalTargetName
    simp
  refine ⟨hforce, ?_, ?_, ?_⟩
  · rw [hforce]
    exact List.suffix_append _ _
  · unfold getOutputFilename
    by_cases h : (legalTargetName owner config).contains '.' = true
    · rw [if_pos h]
      unfold legalTargetName at h
      simp only [h, Bool.false_or, Bool.not_true, Bool.false_eq_true, if_false]
      rfl
    · rw [if_neg h]
      have h2 : (legalTargetName owner config).contains '.' = false := by simpa using h
      have h3 := upToLastDot_of_no_dot _ h2
      unfold legalTargetName at h2 h3 ⊢
      simp only [h2, Bool.false_or, Bool.not_false, if_true, h3]
  · by_cases h : (legalTargetName owner config).contains '.' = true
    · rw [if_pos h]
      exact upToLastDot_split _ h
    · rw [if_neg h]
      exact upToLastDot_of_no_dot _ (by simpa using h)

/-- C28: for the target binary name "My.Plugin" the VST target's document
names the output `My.Plugin` + `.dll` (TargetName and TargetExt), while the
link section's OutputFile is named `My.dll`; for the name "MyPlugin" both are
`MyPlugin.dll`. -/
theorem targetName_outputFile_mismatch :
    getOutputFilename plainStepsOwner dottedNameConfig [] false ++ getTargetSuffix vstTarget
        = "My.Plugin.dll".toList
      ∧ getBinaryNameWithSuffix plainStepsOwner vstTarget dottedNameConfig = "My.dll".toList
      ∧ getOutputFilePath plainStepsOwner vstTarget dottedNameConfig
        = "$(OutDir)\\My.dll".toList
      ∧ getOutputFilename plainStepsOwner plainNameConfig [] false ++ getTargetSuffix vstTarget
        = getBinaryNameWithSuffix plainStepsOwner vstTarget plainNameConfig := by
  decide

/-- C29: for the AAX target and the target binary name "My.Plugin" the
pre-build step creates the folders `$(OutDir)\My.Plugin`, its `Contents` and
`Contents\x64`, while the post-build step copies into
`$(OutDir)\My.aaxplugin\Contents\x64`; for the name "MyPlugin" both steps use
`$(OutDir)\MyPlugin.aaxplugin`. -/
theorem aaxBundle_folder_mismatch :
    getExtraPreBuildSteps plainStepsOwner aaxTarget dottedNameConfig
        = ("if not exist \"$(OutDir)\\My.Plugin\" mkdir \"$(OutDir)\\My.Plugin\"\r\n"
          ++ "if not exist \"$(OutDir)\\My.Plugin\\Contents\" mkdir \"$(OutDir)\\My.Plugin\\Contents\"\r\n"
          ++ "if not exist \"$(OutDir)\\My.Plugin\\Contents\\x64\" mkdir \"$(OutDir)\\My.Plugin\\Contents\\x64\"\r\n").toList
      ∧ getExtraPostBuildSteps plainStepsOwner aaxTarget dottedNameConfig
        = ("copy /Y \"$(OutDir)\\My.aaxdll\" \"$(OutDir)\\My.aaxplugin\\Contents\\x64\\My.aaxplugin\"\r\n"
          ++ "CreatePackage.bat \"$(OutDir)\\My.aaxplugin\\Contents\\x64\" icon.ico").toList
      ∧ getExtraPreBuildSteps plainStepsOwner aaxTarget plainNameConfig
        = ("if not exist \"$(OutDir)\\MyPlugin.aaxplugin\" mkdir \"$(OutDir)\\MyPlugin.aaxplugin\"\r\n"
          ++ "if not exist \"$(OutDir)\\MyPlugin.aaxplugin\\Contents\" mkdir \"$(OutDir)\\MyPlugin.aaxplugin\\Contents\"\r\n"
          ++ "if not exist \"$(OutDir)\\MyPlugin.aaxplugin\\Contents\\x64\" mkdir \"$(OutDir)\\MyPlugin.aaxplugin\\Contents\\x64\"\r\n").toList
      ∧ getExtraPostBuildSteps plainStepsOwner aaxTarget plainNameConfig
        = ("copy /Y \"$(OutDir)\\MyPlugin.aaxdll\" \"$(OutDir)\\MyPlugin.aaxplugin\\Contents\\x64\\MyPlugin.aaxplugin\"\r\n"
          ++ "CreatePackage.bat \"$(OutDir)\\MyPlugin.aaxplugin\\Contents\\x64\" icon.ico").toList :=
  ⟨rfl, rfl, rfl, rfl⟩

/-- C30: in the plug-in project with an AAX target, a release configuration
with no runtime-library choice gets the DLL runtime `MultiThreadedDLL`
(`shouldUseRuntimeDLL` is true), while its library subdirectory is
`$(Platform)\MT`. -/
theorem runtime_tag_mismatch :
    shouldUseRuntimeDLL pluginTargets dottedNameConfig = true
      ∧ runtimeLibraryText pluginTargets dottedNameConfig = "MultiThreadedDLL".toList
      ∧ dottedNameConfig.isUsingRuntimeLibDLL = false
      ∧ dottedNameConfig.getLibrarySubdirPath = "$(Platform)\\MT".toList := by
  decide


/-- C25, counterexample: in the plug-in project with a shared-code target the
VST target's link section has no `AdditionalLibraryDirectories` element when
the configuration has no library search path, and holds only the
configuration's own path "libs" when it has that one; the shared-code target's
output directory is written to the `LibraryPath` property instead. -/
theorem sharedCode_library_directory_counterexample :
    additionalLibraryDirectoriesElement pluginLinkOwner plainNameConfig = none
      ∧ additionalLibraryDirectoriesElement pluginLinkOwnerWithPath plainNameConfig
        = some "libs;%(AdditionalLibraryDirectories)".toList
      ∧ getConfigTargetPath pluginLinkOwnerWithPath sharedCodeTarget plainNameConfig
        = "$(SolutionDir)$(Configuration)\\Shared Code".toList
      ∧ libraryPathElement pluginLinkOwnerWithPath vstTarget plainNameConfig
        = some "$(LibraryPath);libs;$(SolutionDir)$(Configuration)\\Shared Code".toList := by
  decide

/-- C25, as the code does it: `getLibrarySearchPaths` gives the configuration's
own library search paths, followed by the output directory
(`getConfigTargetPath`) of the shared-code target for every target that is not
the shared-code target when the project has one, and by nothing otherwise;
these paths are written, joined with ';' after "$(LibraryPath);", to the
`LibraryPath` property of the configuration when there is at least one. The
`AdditionalLibraryDirectories` element of the link section holds the
configuration's own library search paths only. -/
theorem sharedCode_library_directory (owner : LinkOwner) (target : MSVCTargetBase)
    (config : MSVCBuildConfiguration) :
    getLibrarySearchPaths owner target config
        = owner.librarySearchPaths config
          ++ (if target.type ≠ TargetType.SharedCodeTarget then
                ((getSharedCodeTarget owner.targets).map
                  (fun shared => getConfigTargetPath owner shared config)).toList
              else [])
      ∧ (getSharedCodeTarget owner.targets = none
          ↔ hasTarget owner.targets TargetType.SharedCodeTarget = false)
      ∧ libraryPathElement owner target config
        = (if getLibrarySearchPaths owner target config = [] then none
           else some ("$(LibraryPath);".toList
             ++ StringArray.joinIntoString (getLibrarySearchPaths owner target config)
                 ";".toList))
      ∧ additionalLibraryDirectoriesElement owner config
        = (if owner.librarySearchPaths config = [] then none
           else some (owner.replacePreprocessorTokens config
               (StringArray.joinIntoString (owner.librarySearchPaths config) ";".toList)
             ++ ";%(AdditionalLibraryDirectories)".toList)) := by
  refine ⟨?_, ?_, ?_, ?_⟩
  · unfold getLibrarySearchPaths
    by_cases ht : target.type = TargetType.SharedCodeTarget
    · simp [ht]
    · cases hs : getSharedCodeTarget owner.targets <;> simp [ht]
  · constructor
    · intro hnone
      cases h : hasTarget owner.targets TargetType.SharedCodeTarget
      · rfl
      · obtain ⟨s, _, _, hget⟩ := getSharedCodeTarget_some_of_hasTarget owner.targets h
        rw [hget] at hnone
        cases hnone
    · exact getSharedCodeTarget_none_of_not_hasTarget owner.targets
  · unfold libraryPathElement
    cases h : getLibrarySearchPaths owner target config <;> simp
  · unfold additionalLibraryDirectoriesElement
    cases h : owner.librarySearchPaths config <;> simp

/-- C26: `getExternalLibraries` joins with ';', in this order, the explicit
libraries text when it is not empty, every module library name followed by
".lib", and, for a target that is not the shared-code target of a project that
has one, the shared-code target's binary name with its suffix for the
configuration; for the shared-code target itself nothing is added after the
module libraries. -/
theorem getExternalLibraries_order (steps : StepsOwner) (owner : LinkOwner)
    (target : MSVCTargetBase) (config : MSVCBuildConfiguration) (otherLibs : Str) :
    getExternalLibraries steps owner target config otherLibs
        = StringArray.joinIntoString
            ((if otherLibs ≠ [] then [otherLibs] else [])
              ++ owner.windowsLibs.map (fun lib => lib ++ ".lib".toList)
              ++ (if target.type ≠ TargetType.SharedCodeTarget then
                    ((getSharedCodeTarget owner.targets).map
                      (fun shared =>
                        getOutputFilename steps config (getTargetSuffix shared) true)).toList
                  else []))
            ";".toList
      ∧ (getSharedCodeTarget owner.targets = none
          ↔ hasTarget owner.targets TargetType.SharedCodeTarget = false)
      ∧ (∀ shared, getSharedCodeTarget owner.targets = some shared →
          shared ∈ owner.targets ∧ shared.type = TargetType.SharedCodeTarget) := by
  refine ⟨?_, ?_, ?_⟩
  · unfold getExternalLibraries
    rw [getModuleLibs_eq]
    have hmod : ∀ (libs : StringArray) (more : StringArray),
        (if (!more.isEmpty) = true then libs ++ more else libs) = libs ++ more := by
      intro libs more
      cases more <;> simp
    simp only [hmod, getBinaryNameWithSuffix]
    by_cases ht : target.type = TargetType.SharedCodeTarget
    · simp [ht]
    · cases hs : getSharedCodeTarget owner.targets <;> simp [ht]
  · constructor
    · intro hnone
      cases h : hasTarget owner.targets TargetType.SharedCodeTarget
      · rfl
      · obtain ⟨s, _, _, hget⟩ := getSharedCodeTarget_some_of_hasTarget owner.targets h
        rw [hget] at hnone
        cases hnone
    · exact getSharedCodeTarget_none_of_not_hasTarget owner.targets
  · intro shared hget
    cases h : hasTarget owner.targets TargetType.SharedCodeTarget
    · rw [getSharedCodeTarget_none_of_not_hasTarget owner.targets h] at hget
      cases hget
    · obtain ⟨s, hs, htype, hget2⟩ := getSharedCodeTarget_some_of_hasTarget owner.targets h
      rw [hget2] at hget
      cases hget
      exact ⟨hs, htype⟩

/-- Example for `getExternalLibraries` on the plug-in project: the VST target
lists the explicit library, the module libraries and the shared-code library;
the shared-code target lists the module libraries only. -/
theorem getExternalLibraries_example :
    getExternalLibraries plainStepsOwner pluginLinkOwner vstTarget plainNameConfig
        "a.lib".toList = "a.lib;ws2_32.lib;winmm.lib;MyPlugin.lib".toList
      ∧ getExternalLibraries plainStepsOwner pluginLinkOwner sharedCodeTarget plainNameConfig []
        = "ws2_32.lib;winmm.lib".toList := by
  decide


/-- C22: platform and debug/release markers of `getPreprocessorDefs`, for
global extra defines none of whose keys is equal to a marker key under the key
comparison of the set without being that key (every set of defines when keys
are compared exactly; under either comparison the exporter's own extra
defines, `_CRT_SECURE_NO_WARNINGS` and `_CONSOLE`). The list written is one entry for every define of the
set, in order; the set holds the keys `WIN32` and `_WINDOWS`, and `DEBUG` and
`_DEBUG` for a debug configuration and `NDEBUG` for any other, each with an
entry in the list; and when neither the global extra defines nor the project
and module defines hold the key, the set of a debug configuration does not
hold `NDEBUG` and the set of any other configuration holds neither `DEBUG`
nor `_DEBUG`. -/
theorem getPreprocessorDefs_markers (owner : DefsOwner) (target : MSVCTargetBase)
    (config : MSVCBuildConfiguration) (joinString : Str)
    (hglobal : ∀ k ∈ owner.msvcExtraPreprocessorDefs.pairs.map Prod.fst,
      ∀ marker ∈ markerKeys config,
        keyEquals owner.msvcExtraPreprocessorDefs.ignoreCase k marker = true → k = marker) :
    getPreprocessorDefs owner target config joinString
        = StringArray.joinIntoString
            ((preprocessorDefines owner target config).pairs.map renderDefine) joinString
      ∧ markerKeys config
        = ["WIN32".toList, "_WINDOWS".toList]
          ++ (if config.isDebug then ["DEBUG".toList, "_DEBUG".toList] else ["NDEBUG".toList])
      ∧ (∀ marker ∈ markerKeys config,
          marker ∈ (preprocessorDefines owner target config).pairs.map Prod.fst
            ∧ ∃ value : Str,
                (marker, value) ∈ (preprocessorDefines owner target config).pairs
                  ∧ renderDefine (marker, value)
                      ∈ definesToStrings (preprocessorDefines owner target config))
      ∧ otherMarkerKeys config
        = (if config.isDebug then ["NDEBUG".toList] else ["DEBUG".toList, "_DEBUG".toList])
      ∧ (∀ marker ∈ otherMarkerKeys config,
          marker ∉ owner.msvcExtraPreprocessorDefs.pairs.map Prod.fst →
          marker ∉ (owner.getAllPreprocessorDefs config target.type).pairs.map Prod.fst →
          marker ∉ (preprocessorDefines owner target config).pairs.map Prod.fst) := by
  have hkey : ∀ marker ∈ markerKeys config,
      marker ∈ (preprocessorDefines owner target config).pairs.map Prod.fst := by
    intro marker hm
    rw [preprocessorDefines_keys, defineWrites_keys]
    cases hhas : hasKey owner.msvcExtraPreprocessorDefs.ignoreCase
        (owner.msvcExtraPreprocessorDefs.pairs.map Prod.fst) marker
    · obtain ⟨pre, post, heq, hfresh⟩ := mem_split_fresh (markerKeys config) marker hm
      have hpre : hasKey owner.msvcExtraPreprocessorDefs.ignoreCase pre marker = false := by
        apply hasKey_of_subset_fixed _ _ _ _ (markerKeys_subset_fixed config marker hm) hfresh
        intro k hk
        apply markerKeys_subset_fixed config
        rw [heq]
        exact List.mem_append_left _ hk
      rw [heq, List.append_assoc, List.append_assoc, List.cons_append]
      exact mem_foldl_insertKey_of_fresh _ _ pre _ marker hhas hpre
    · obtain ⟨k, hk, heq⟩ := List.any_eq_true.mp hhas
      have hsame : k = marker := hglobal k hk marker hm heq
      rw [hsame] at hk
      exact (foldl_insertKey_initial _ _ _).subset hk
  refine ⟨rfl, rfl, ?_, rfl, ?_⟩
  · intro marker hm
    refine ⟨hkey marker hm, ?_⟩
    obtain ⟨p, hp, hfst⟩ := List.mem_map.mp (hkey marker hm)
    refine ⟨p.2, ?_, ?_⟩
    · rw [← hfst]
      exact hp
    · unfold definesToStrings
      rw [← hfst]
      exact List.mem_map.mpr ⟨p, hp, rfl⟩
  · intro marker hm hglobalKey hprojectKey hin
    rw [preprocessorDefines_keys, defineWrites_keys] at hin
    have hfixed := otherMarkerKeys_subset_fixed config marker hm
    rcases mem_foldl_insertKey _ _ _ _ hin with h | h
    · exact hglobalKey h
    · rcases List.mem_append.mp h with h | h
      · rcases List.mem_append.mp h with h | h
        · exact hfixed.2 h
        · exact hprojectKey h
      · exact markerKeys_not_target config target marker (Or.inr hm) h

/-- Witness for C22: the command-line project, whose global extra defines are
the exporter's own, gets for a GUI application in a release configuration the
list "_CRT_SECURE_NO_WARNINGS;_CONSOLE;WIN32;_WINDOWS;NDEBUG;_LIB=1;JUCE_APP". -/
theorem getPreprocessorDefs_markers_witness :
    (∀ k ∈ consoleOwner.msvcExtraPreprocessorDefs.pairs.map Prod.fst,
        ∀ marker ∈ markerKeys { config := [] },
          keyEquals consoleOwner.msvcExtraPreprocessorDefs.ignoreCase k marker = true →
          k = marker)
      ∧ getPreprocessorDefs consoleOwner guiAppTarget { config := [] } ";".toList
        = "_CRT_SECURE_NO_WARNINGS;_CONSOLE;WIN32;_WINDOWS;NDEBUG;_LIB=1;JUCE_APP".toList
      ∧ ∀ marker ∈ markerKeys { config := [] },
          marker ∈ (preprocessorDefines consoleOwner guiAppTarget
            { config := [] }).pairs.map Prod.fst :=
  have h := getPreprocessorDefs_markers consoleOwner guiAppTarget { config := [] } ";".toList
    (by decide)
  ⟨by decide, by decide, fun marker hm => (h.2.2.1 marker hm).1⟩

/-- C24: output shape of `getPreprocessorDefs`, for global extra defines whose
keys are pairwise different under the comparison of the set (as `set` keeps
them). The result is the entries of the define set joined with the join
string, `KEY` for an empty value and `KEY=value` otherwise; the keys of the set
are the global keys followed by the keys written by `getPreprocessorDefs`
(platform markers, debug or release markers, project and module defines,
target-type define, library marker) in order of first insertion, a write to a
key that is present leaving the keys as they are; the keys are pairwise
different; and the value held for a key is that of the last write to it, or
the global value when it was never written. -/
theorem getPreprocessorDefs_shape (owner : DefsOwner) (target : MSVCTargetBase)
    (config : MSVCBuildConfiguration) (joinString : Str)
    (hglobal : (owner.msvcExtraPreprocessorDefs.pairs.map Prod.fst).Pairwise
      (fun a b => keyEquals owner.msvcExtraPreprocessorDefs.ignoreCase a b = false)) :
    getPreprocessorDefs owner target config joinString
        = StringArray.joinIntoString
            ((preprocessorDefines owner target config).pairs.map
              (fun p => if p.2 = [] then p.1 else p.1 ++ "=".toList ++ p.2))
            joinString
      ∧ (preprocessorDefines owner target config).pairs.map Prod.fst
        = ((defineWrites owner target config).map Prod.fst).foldl
            (insertKey owner.msvcExtraPreprocessorDefs.ignoreCase)
            (owner.msvcExtraPreprocessorDefs.pairs.map Prod.fst)
      ∧ (defineWrites owner target config).map Prod.fst
        = markerKeys config
          ++ (owner.getAllPreprocessorDefs config target.type).pairs.map Prod.fst
          ++ targetDefineKeys target
      ∧ (∀ (keys : List Str) (key : Str),
          insertKey owner.msvcExtraPreprocessorDefs.ignoreCase keys key
            = if hasKey owner.msvcExtraPreprocessorDefs.ignoreCase keys key = true then keys
              else keys ++ [key])
      ∧ ((preprocessorDefines owner target config).pairs.map Prod.fst).Pairwise
          (fun a b => keyEquals owner.msvcExtraPreprocessorDefs.ignoreCase a b = false)
      ∧ ((preprocessorDefines owner target config).pairs.map Prod.fst).Nodup
      ∧ (∀ key : Str,
          lookupValue owner.msvcExtraPreprocessorDefs.ignoreCase
              (preprocessorDefines owner target config).pairs key
            = match lastWrite owner.msvcExtraPreprocessorDefs.ignoreCase
                  (defineWrites owner target config) key with
              | some v => some v
              | none => lookupValue owner.msvcExtraPreprocessorDefs.ignoreCase
                  owner.msvcExtraPreprocessorDefs.pairs key) := by
  have hpair : ((preprocessorDefines owner target config).pairs.map Prod.fst).Pairwise
      (fun a b => keyEquals owner.msvcExtraPreprocessorDefs.ignoreCase a b = false) := by
    rw [preprocessorDefines_keys]
    exact pairwise_foldl_insertKey _ _ _ hglobal
  refine ⟨?_, preprocessorDefines_keys owner target config,
    defineWrites_keys owner target config, fun _ _ => rfl, hpair, ?_,
    preprocessorDefines_lookup owner target config⟩
  · unfold getPreprocessorDefs definesToStrings
    congr 1
    apply List.map_congr_left
    intro p _
    by_cases h : p.2 = []
    · simp [h]
    · simp [h]
  · refine hpair.imp ?_
    intro a b hab heq
    rw [heq, keyEquals_refl] at hab
    cases hab

/-- Witness for C24: the defines of the merge example, for a static library in
a release configuration, are written as "A=1;WIN32;_WINDOWS;NDEBUG;B;_LIB". -/
theorem getPreprocessorDefs_shape_witness :
    getPreprocessorDefs mergeExampleOwner staticLibraryTarget { config := [] } ";".toList
      = "A=1;WIN32;_WINDOWS;NDEBUG;B;_LIB".toList :=
  (getPreprocessorDefs_shape mergeExampleOwner staticLibraryTarget { config := [] }
    ";".toList (by decide)).1.trans (by decide)


/-- C21: write discipline of `create`, for an exporter whose icon, resource
script, target documents and solution have pairwise different paths. Every
file of a run is written with the "overwrite only if content differs" write,
in the order icon, resource script, target documents, solution; after the run
a file is as it was before, content and modification time, unless it is one of
the produced files and its new content differs from the old one, and then it
holds the new content and the time of the run; and a second run over the same
model changes no file and no modification time. -/
theorem create_write_discipline (o : CreateOwner) (s : ExportState) (now later : Nat)
    (hpaths : (createPaths o).Nodup) :
    (create o s now).disk = applyWrites (createWrites o s) s.disk now
      ∧ (∀ path : Str,
          (create o s now).disk path = s.disk path
          ∨ ∃ newData : FileContent,
              (path, newData) ∈ createWrites o s
                ∧ (s.disk path).map FileEntry.content ≠ some newData
                ∧ (create o s now).disk path
                    = some { content := newData, modified := now })
      ∧ (create o (create o s now) later).disk = (create o s now).disk
      ∧ (create o (create o s now) later).iconFile = (create o s now).iconFile := by
  have heq := create_eq o s now hpaths
  have hidem := create_idempotent o s now later hpaths
  refine ⟨by rw [heq], ?_, by rw [hidem], by rw [hidem]⟩
  intro path
  rw [heq]
  simp only
  by_cases hmem : path ∈ (createWrites o s).map Prod.fst
  · obtain ⟨w, hw, hpath⟩ := List.mem_map.mp hmem
    subst hpath
    rw [applyWrites_mem _ _ _ (createWrites_nodup o s hpaths) w hw,
      overwriteFileIfDifferent_apply, if_pos rfl]
    by_cases hsame : (s.disk w.1).map FileEntry.content = some w.2
    · rw [if_pos hsame]
      exact Or.inl rfl
    · rw [if_neg hsame]
      exact Or.inr ⟨w.2, hw, hsame, rfl⟩
  · exact Or.inl (applyWrites_not_mem _ _ _ _ hmem)

/-- Witness for C21: the files of the example project have different paths; a
first run at time 1 writes the solution, and after a second run at time 2 the
solution still has the modification time 1. -/
theorem create_write_discipline_witness :
    (createPaths demoCreateOwner).Nodup
      ∧ ((create demoCreateOwner freshState 1).disk "Builds/Demo.sln".toList).map
          FileEntry.modified = some 1
      ∧ ((create demoCreateOwner (create demoCreateOwner freshState 1) 2).disk
          "Builds/Demo.sln".toList).map FileEntry.modified = some 1 := by
  have h := create_write_discipline demoCreateOwner freshState 1 2 (by decide)
  refine ⟨by decide, by decide, ?_⟩
  rw [h.2.2.1]
  decide


/-- C40: `getCommaSeparatedVersionNumber` is idempotent: normalising a
normalised version again gives it back unchanged; the empty string is
normalised to "0,0,0,0". -/
theorem getCommaSeparatedVersionNumber_idempotent (version : Str) :
    getCommaSeparatedVersionNumber (getCommaSeparatedVersionNumber version)
        = getCommaSeparatedVersionNumber version
      ∧ getCommaSeparatedVersionNumber [] = "0,0,0,0".toList := by
  refine ⟨?_, by decide⟩
  have hparts : ∀ t ∈ versionTokens version
      ++ List.replicate (4 - (versionTokens version).length) "0".toList,
      trim t = t ∧ t ≠ [] ∧ ∀ x ∈ t, ¬ (x == ',' || x == '.') = true := by
    intro t ht
    rcases List.mem_append.mp ht with h | h
    · exact versionTokens_trimmed version t h
    · rw [(List.mem_replicate.mp h).2]
      decide
  have hlen : 4 ≤ (versionTokens version
      ++ List.replicate (4 - (versionTokens version).length) "0".toList).length := by
    rw [List.length_append, List.length_replicate]
    omega
  have hne : versionTokens version
      ++ List.replicate (4 - (versionTokens version).length) "0".toList ≠ [] := by
    intro h
    rw [h] at hlen
    simp at hlen
  rw [getCommaSeparatedVersionNumber_eq version]
  generalize versionTokens version
      ++ List.replicate (4 - (versionTokens version).length) "0".toList = parts at *
  rw [getCommaSeparatedVersionNumber_eq, versionTokens_of_normalised parts hne hparts]
  have hzero : 4 - parts.length = 0 := by omega
  rw [hzero, List.replicate_zero, List.append_nil]

/-- C36: shared-code lookup agreement, for targets whose GUID is the one their
constructor builds. `getSharedCodeGuid` is the GUID of the target that
`getSharedCodeTarget` returns, which is the first target of type
`SharedCodeTarget` in list order; it is empty exactly when `getSharedCodeTarget`
returns null, which is exactly when `hasTarget (SharedCodeTarget)` is false. -/
theorem sharedCode_lookup_agreement (md5Hex : Str → Str) (projectUID : Str)
    (targets : Targets)
    (hguid : ∀ t ∈ targets, t.projectGuid = createGUID md5Hex (projectUID ++ t.name)) :
    getSharedCodeGuid targets
        = (match getSharedCodeTarget targets with
           | some shared => shared.projectGuid
           | none => [])
      ∧ getSharedCodeTarget targets
        = targets.find? (fun t => decide (t.type = TargetType.SharedCodeTarget))
      ∧ (getSharedCodeGuid targets = [] ↔ getSharedCodeTarget targets = none)
      ∧ (getSharedCodeTarget targets = none
          ↔ hasTarget targets TargetType.SharedCodeTarget = false) := by
  have hnone : getSharedCodeTarget targets = none
      ↔ hasTarget targets TargetType.SharedCodeTarget = false := by
    constructor
    · intro h
      cases hh : hasTarget targets TargetType.SharedCodeTarget
      · rfl
      · obtain ⟨s, _, _, hget⟩ := getSharedCodeTarget_some_of_hasTarget targets hh
        rw [hget] at h
        cases h
    · exact getSharedCodeTarget_none_of_not_hasTarget targets
  refine ⟨getSharedCodeGuid_eq targets, ?_, ?_, hnone⟩
  · clear hguid hnone
    induction targets with
    | nil => rfl
    | cons t rest ih =>
      by_cases ht : t.type = TargetType.SharedCodeTarget
      · simp [getSharedCodeTarget, ht]
      · simp [getSharedCodeTarget, ht, ih]
  · rw [hnone]
    have h := getSharedCodeGuid_ne_nil_iff md5Hex projectUID targets hguid
    constructor
    · intro hnil
      cases hh : hasTarget targets TargetType.SharedCodeTarget
      · rfl
      · exact absurd hnil (h.mpr hh)
    · intro hfalse
      by_cases hnil : getSharedCodeGuid targets = []
      · exact hnil
      · rw [h.mp hnil] at hfalse
        cases hfalse

/-- Witness for C36: in the plug-in project the shared-code target is found
and its GUID is returned. -/
theorem sharedCode_lookup_agreement_witness :
    (∀ t ∈ pluginTargets, t.projectGuid = createGUID constantDigest ("uid".toList ++ t.name))
      ∧ getSharedCodeTarget pluginTargets = some sharedCodeTarget
      ∧ getSharedCodeGuid pluginTargets = sharedCodeTarget.projectGuid := by
  have h := sharedCode_lookup_agreement constantDigest "uid".toList pluginTargets (by decide)
  refine ⟨by decide, by decide, ?_⟩
  rw [h.1]
  decide

/-- C35: configuration key agreement. `createMSVCConfigName` is the
configuration name, '|', and "x64" exactly when `is64Bit` holds, "Win32"
otherwise; so the `Include` attribute of a `ProjectConfiguration` element is
its `Configuration` text, '|' and its `Platform` text, and the same key stands
in the `Condition` attributes and in the lines of the solution for the
configuration. -/
theorem configuration_key_agreement (config : MSVCBuildConfiguration)
    (target : MSVCTargetBase) :
    config.createMSVCConfigName
        = config.getName ++ "|".toList
          ++ (if is64Bit config = true then "x64".toList else "Win32".toList)
      ∧ (projectConfigurationElement config).includeAttribute
        = (projectConfigurationElement config).configuration ++ "|".toList
          ++ (projectConfigurationElement config).platform
      ∧ conditionAttribute config
        = "'$(Configuration)|$(Platform)'=='".toList
          ++ (projectConfigurationElement config).includeAttribute ++ "'".toList
      ∧ solutionConfigurationLine config
        = "\t\t".toList ++ (projectConfigurationElement config).includeAttribute
          ++ " = ".toList ++ (projectConfigurationElement config).includeAttribute
      ∧ projectConfigurationLine target config
        = "\t\t".toList ++ target.projectGuid ++ ".".toList
          ++ (projectConfigurationElement config).includeAttribute ++ ".Build.0 = ".toList
          ++ (projectConfigurationElement config).includeAttribute :=
  ⟨rfl, rfl, rfl, rfl, rfl⟩


/-- C37: content of the resource script. `createRCFile` writes, with the
"overwrite only if content differs" write, the opening lines, the
`FILEVERSION` line with the normalised comma-separated version, the block
opening, one `VALUE` line with the escaped text for each of the fields
CompanyName, FileDescription, FileVersion, ProductName, ProductVersion whose
text is not empty, in this order, the closing lines, and at the end the two
references `IDI_ICON1` and `IDI_ICON2` to the quoted name of the icon file
when the exporter's icon file is set, and nothing otherwise; a fresh exporter's
icon file is set by `createResourcesAndIcon` exactly when it writes an icon. -/
theorem createRCFile_content (o : CreateOwner) (s : ExportState) (now : Nat) :
    (createRCFile o s now).disk
        = overwriteFileIfDifferent s.disk (o.targetFolderChild "resources.rc".toList)
            (FileContent.text
              (rcFileText o.addEscapeChars o.project (s.iconFile.map o.getFileName))) now
      ∧ (∀ iconFileName : Option Str,
          rcFileText o.addEscapeChars o.project iconFileName
            = rcOpening
              ++ "FILEVERSION  ".toList
              ++ getCommaSeparatedVersionNumber o.project.versionString ++ newLine
              ++ rcBlockOpening
              ++ ((rcFields o.project).filter (fun field => decide (field.2 ≠ []))).flatMap
                  (fun field =>
                    "      VALUE \"".toList ++ field.1 ++ "\",  \"".toList
                      ++ o.addEscapeChars field.2 ++ "\\0\"".toList ++ newLine)
              ++ rcClosing
              ++ rcIconReferences iconFileName)
      ∧ rcFields o.project
        = [("CompanyName".toList, o.project.companyName),
           ("FileDescription".toList, o.project.title),
           ("FileVersion".toList, o.project.versionString),
           ("ProductName".toList, o.project.title),
           ("ProductVersion".toList, o.project.versionString)]
      ∧ rcIconReferences none = []
      ∧ (∀ iconName : Str,
          rcIconReferences (some iconName)
            = newLine ++ "IDI_ICON1 ICON DISCARDABLE ".toList ++ quoted iconName
              ++ newLine ++ "IDI_ICON2 ICON DISCARDABLE ".toList ++ quoted iconName)
      ∧ (createResourcesAndIcon o { disk := s.disk, iconFile := none } now).iconFile
        = (if hasResourceFile o = true ∧ (collectIconImages o).length > 0
           then some (o.targetFolderChild "icon.ico".toList) else none) := by
  refine ⟨rfl, fun iconFileName => rcFileText_eq _ _ _, rfl, rfl, fun _ => rfl, ?_⟩
  rw [createResourcesAndIcon_eq]
  rfl

/-- Example for the resource script: with the company "ACME", no title and the
version "1.2", the fields that get a `VALUE` line are CompanyName, FileVersion
and ProductVersion, and the `FILEVERSION` line carries "1,2,0,0". -/
theorem rcFields_example :
    ((rcFields { versionString := "1.2".toList, companyName := "ACME".toList,
                 title := [] }).filter (fun field => decide (field.2 ≠ []))).map Prod.fst
        = ["CompanyName".toList, "FileVersion".toList, "ProductVersion".toList]
      ∧ getCommaSeparatedVersionNumber "1.2".toList = "1,2,0,0".toList
      ∧ rcValueLine (fun text => text) ("CompanyName".toList, "ACME".toList)
        = "      VALUE \"CompanyName\",  \"ACME\\0\"\r\n".toList := by
  decide


/-- C39: the group assertion of `addSolutionFiles`. In a group tree in which
only groups have children, no call of the recursive `addSolutionFiles` fails
its assertion `item.isGroup ()`: the calls are made on the declared containers
(the top-level items that have a child, the children of a single root group
taking the place of the groups, and every group child reached from them), and
each of them is a group. The functions are defined by recursion on the tree,
so every walk ends. -/
theorem addSolutionFiles_group_assertion (allGroups : List Item)
    (honly : ∀ item ∈ allGroups.flatMap allItems,
      item.getNumChildren > 0 → item.isGroup = true) :
    groupAssertion allGroups = true
      ∧ groupAssertion allGroups = (declaredContainers allGroups).all Item.isGroup
      ∧ ∀ item ∈ declaredContainers allGroups, item.isGroup = true := by
  have heq : groupAssertion allGroups = (declaredContainers allGroups).all Item.isGroup := by
    unfold groupAssertion declaredContainers topLevelContainers
    exact groupAssertionLoop_eq _
  have hall : ∀ item ∈ declaredContainers allGroups, item.isGroup = true := by
    intro item hitem
    unfold declaredContainers topLevelContainers at hitem
    obtain ⟨top, htop, hvisited⟩ := List.mem_flatMap.mp hitem
    rw [List.mem_filter] at htop
    rw [visitedGroups_cons_tail top, visitedGroups_tail] at hvisited
    rcases List.mem_cons.mp hvisited with h | h
    · rw [h]
      exact honly top (topLevelItems_subset allGroups top htop.1) (by simpa using htop.2)
    · exact visitedGroups_tail_isGroup top item h
  refine ⟨?_, heq, hall⟩
  rw [heq, List.all_eq_true]
  exact hall

/-- Witness for C39: in the groups "Source" and "Docs" only groups have
children, and no assertion fails. -/
theorem addSolutionFiles_group_assertion_witness :
    (∀ item ∈ [sourceGroup, docsGroup].flatMap allItems,
        item.getNumChildren > 0 → item.isGroup = true)
      ∧ groupAssertion [sourceGroup, docsGroup] = true :=
  ⟨by decide, (addSolutionFiles_group_assertion [sourceGroup, docsGroup] (by decide)).1⟩

/-- C31 fails on the code: `maskStride` is a multiple of 4 for every width
below 256, but it is at least the number of bytes of a mask row, ceil (w / 8),
only when `w` is a multiple of 8 or `w / 8` is not a multiple of 4. For `w = 1`
the stride is 0 and for `w = 33` it is 4, while the mask rows take 1 and 5
bytes; the mask loop writes the partial byte of the last pixels, so the row of
a transparent 1 x 1 image is 1 byte long, more than the stride. -/
theorem maskStride_too_small :
    maskStride 1 = 0 ∧ (1 + 7) / 8 = 1
      ∧ maskStride 33 = 4 ∧ (33 + 7) / 8 = 5
      ∧ (writeMaskRow transparentPixelImage 1 0 []).length = 1
      ∧ ∀ w : Nat, w < 256 →
          maskStride w % 4 = 0
            ∧ w / 8 ≤ maskStride w
            ∧ ((w + 7) / 8 ≤ maskStride w ↔ (w % 8 = 0 ∨ w / 8 % 4 ≠ 0)) := by
  refine ⟨by decide, by decide, by decide, by decide, by decide, ?_⟩
  intro w hw
  rw [maskStride_eq w hw]
  omega

/-- C32: for every image, every height and every width below 256 that is a
multiple of 8, `writeBMPImage` writes exactly 40 + h*w*4 + h*maskStride bytes,
and every mask row is `w / 8` mask bytes, one for each group of eight pixels,
followed by `maskStride - w / 8` zero bytes, `maskStride` bytes in all. -/
theorem writeBMPImage_multiple_of_eight (image : Image) (w h : Nat)
    (hw8 : w % 8 = 0) (hw : w < 256) :
    (writeBMPImage image w h []).length = 40 + h * w * 4 + h * maskStride w
      ∧ ∀ y : Nat,
          writeMaskRow image w y []
              = (List.range (w / 8)).map (fun j => maskBits image y (8 * j) 8)
                ++ List.replicate (maskStride w - w / 8) 0
            ∧ w / 8 ≤ maskStride w
            ∧ (writeMaskRow image w y []).length = maskStride w := by
  constructor
  · rw [writeBMPImage_eq, List.nil_append, List.length_append, List.length_append,
      bmpHeader_length,
      length_flatMap_const _ (w * 4) (fun y => colourRowBytes_length image w y),
      length_flatMap_const _ (maskStride w)
        (fun y => maskRowBytes_length_of_multiple image w y hw8 hw),
      List.length_reverse, List.length_range, Nat.mul_assoc]
  · intro y
    rw [writeMaskRow_eq, List.nil_append]
    refine ⟨maskRowBytes_of_multiple image w y hw8, ?_,
      maskRowBytes_length_of_multiple image w y hw8 hw⟩
    rw [maskStride_eq w hw]
    omega

theorem writeBMPImage_multiple_of_eight_witness :
    (writeBMPImage sixteenWideImage 16 2 []).length = 40 + 2 * 16 * 4 + 2 * maskStride 16
      ∧ ∀ y : Nat,
          writeMaskRow sixteenWideImage 16 y []
              = (List.range (16 / 8)).map (fun j => maskBits sixteenWideImage y (8 * j) 8)
                ++ List.replicate (maskStride 16 - 16 / 8) 0
            ∧ 16 / 8 ≤ maskStride 16
            ∧ (writeMaskRow sixteenWideImage 16 y []).length = maskStride 16 :=
  writeBMPImage_multiple_of_eight sixteenWideImage 16 2 (by decide) (by decide)

/-- C33: for every image, `writeBMPImage` appends the header, then the colour
rows for y from h - 1 down to 0, then the mask rows for y from h - 1 down to
0. A colour row is the entries of the pixels from left to right; a mask row is
one byte for each full group of eight pixels, from left to right, then the
byte of the remaining pixels when it is not zero, then the padding; in a mask
byte the bit of the i-th pixel of the group, counted from the most significant
end, is the mask bit of that pixel. A pixel whose alpha is at most 5 has the
entry 0, 0, 0, 0 and the mask bit 1; every other pixel has the entry blue,
green, red, alpha and the mask bit 0. -/
theorem writeBMPImage_pixel_mask_agreement (image : Image) (w h : Nat) (out : Bytes) :
    writeBMPImage image w h out
        = out ++ bmpHeader w h
          ++ (List.range h).reverse.flatMap
              (fun y => (List.range w).flatMap (fun x => colourEntry (image.pixel x y)))
          ++ (List.range h).reverse.flatMap
              (fun y =>
                (List.range (w / 8)).map (fun j => maskBits image y (8 * j) 8)
                  ++ (if maskBits image y (8 * (w / 8)) (w % 8) ≠ 0
                      then [maskBits image y (8 * (w / 8)) (w % 8)] else [])
                  ++ List.replicate (maskStride w - w / 8) 0)
      ∧ (∀ y start len i : Nat, i < len →
          maskBits image y start len / 2 ^ (len - 1 - i) % 2
            = maskBit (image.pixel (start + i) y))
      ∧ (∀ pixel : Colour, pixel.alpha ≤ 5 →
          colourEntry pixel = [0, 0, 0, 0] ∧ maskBit pixel = 1)
      ∧ (∀ pixel : Colour, 5 < pixel.alpha →
          colourEntry pixel
              = [pixel.blue % 256, pixel.green % 256, pixel.red % 256, pixel.alpha % 256]
            ∧ maskBit pixel = 0)
      ∧ (∀ pixel : Colour, maskBit pixel = 1 ↔ pixel.alpha ≤ 5) := by
  refine ⟨writeBMPImage_eq image w h out, maskBits_digit image, ?_, ?_, ?_⟩
  · intro pixel hp
    have hp2 : pixel.alpha ≤ alphaThreshold := hp
    simp only [colourEntry, maskBit, hp2, if_true, and_self]
  · intro pixel hp
    have hp2 : ¬ pixel.alpha ≤ alphaThreshold := by
      unfold alphaThreshold
      omega
    simp only [colourEntry, maskBit, hp2, if_false, and_self]
  · intro pixel
    unfold maskBit alphaThreshold
    split <;> simp [*]

/-- C34: in the icon file of any list of images, the directory entry of every
image starts with its width and height reduced modulo 256, two zero bytes, the
plane count 1 and the bit count 32 (as 16-bit little-endian fields), followed
by the data size and offset; its data is the PNG encoding when its width or
height is at least 256 and the bitmap with mask written by `writeBMPImage`
otherwise. -/
theorem writeIconFile_encoding_choice (png : Image → Bytes) (pre post : List Image)
    (image : Image) :
    ∃ (A B Dpre Dpost : Bytes) (size offset : Int),
      writeIconFile png (pre ++ image :: post) []
          = A ++ ([image.width % 256, image.height % 256, 0, 0, 1, 0, 32, 0]
                ++ writeInt [] size ++ writeInt [] offset)
            ++ B ++ Dpre
            ++ (if image.width ≥ 256 ∨ image.height ≥ 256 then png image
                else writeBMPImage image image.width image.height [])
            ++ Dpost
        ∧ A.length = 6 + 16 * pre.length
        ∧ B.length = 16 * post.length
        ∧ Dpre.length = dataSize png pre := by
  obtain ⟨A, B, Dpre, Dpost, hfile, hA, hB, hD⟩ := writeIconFile_split png pre post image
  refine ⟨A, B, Dpre, Dpost, wrapInt32 ((imageData png image).length),
    wrapInt32 (dataBlockStart (pre ++ image :: post) + wrapInt32 (dataSize png pre)),
    ?_, hA, hB, hD⟩
  rw [hfile, dirEntry_eq]
  rfl

/-- C38: `addFilesToCompile` is a total function of the item tree, and for
every tree it appends to `cpps`, in the order of the tree, one `ClCompile`
element for every item that is not a group, is reached through groups only, is
flagged to be added to the target project and to be compiled, has a C/C++ or
assembly extension and whose target association equals the type of the target
on audio-plugin projects and `SharedCodeTarget` on every other project. The
element carries the Windows-style path, and the `CallingConvention` child
"StdCall" exactly when the file name without extension starts, ignoring case,
with "juce_audio_plugin_client_RTAS_"; `headers` and `otherFiles` are left as
they were. -/
theorem addFilesToCompile_entries (o : CompileOwner) (type : TargetType) (item : Item)
    (groups : CompileGroups) :
    addFilesToCompile o type item groups
      = { cpps := groups.cpps
            ++ ((walkedFiles item).filter
                  (fun info =>
                    info.shouldBeAddedToTargetProject
                      && (info.shouldBeCompiled
                          && (o.hasCOrCppFileExtension (o.relativePath info.filePath)
                              || o.hasAsmFileExtension (o.relativePath info.filePath))
                          && o.getTargetTypeFromFilePath info.filePath
                              == (if o.isAudioPlugin then type
                                  else TargetType.SharedCodeTarget)))).map
                (fun info =>
                  { tag := "ClCompile".toList,
                    includeAttribute := o.toWindowsStyle (o.relativePath info.filePath),
                    callingConvention :=
                      if equalsIgnoreCase
                          ((o.getFileNameWithoutExtension (o.relativePath info.filePath)).take
                            "juce_audio_plugin_client_RTAS_".toList.length)
                          "juce_audio_plugin_client_RTAS_".toList
                      then some "StdCall".toList else none }),
          headers := groups.headers,
          otherFiles := groups.otherFiles } :=
  addFilesToCompile_eq o type item groups

end MSVC
